import Mathlib

/-!
# dect_cli: the scan / track / capture engine of `tools/dect_cli.c`

A shallow embedding of the engine of `dect_cli.c` and theorems about it.

Conventions of the embedding
* The global `struct cli_info cli` is an explicit state value that every
  operation takes and returns.
* `time(NULL)` is an argument `now` (seconds); every call of `time` inside one
  operation sees the same `now`.
* `exit()` is the `Except.error` outcome, carrying the exit code and the state
  at the moment of the exit.
* The outcome of `ioctl`, `malloc`, `gettimeofday`, `pcap_open_dead` and
  `pcap_dump_open` is decided by an environment `Env`.
* What the platform and the absent headers fix is a parameter, held by `Env` as
  well: whether plain `char` is signed, and how many values the integer fields
  `channel`, `RSSI` and `count_seen` of a station record have. A field of `m`
  values holds the residue modulo `m` of what is stored into it (a negative `v`
  of a signed field is the residue `m + v`), and `+=`, `++` are taken modulo `m`.
* `LOG(...)` output is not part of the state and is left out.
* The headers `dect_cli.h` and `com_on_air_user.h` are not part of the sources
  at hand; what they declare is modelled from the specification and marked so.
-/

namespace DectCli

/-! ## Data model -/

/-- One `uint8_t`. -/
abbrev Byte := Fin 256

/-- The 5-byte identity `uint8_t RFPI[5]`; `memcmp(a, b, 5) == 0` is equality and
`memcpy(a, b, 5)` is assignment. -/
structure RFPI where
  b0 : Byte
  b1 : Byte
  b2 : Byte
  b3 : Byte
  b4 : Byte
deriving DecidableEq, Repr

/-- Modelled from the spec: `TYPE_FP` of the absent `dect_cli.h`, the kind
"BaseStation" of a station record. -/
def TYPE_FP : Nat := 23

/-- Modelled from the spec: `TYPE_PP` of the absent `dect_cli.h`, the kind
"Handset" of a station record. -/
def TYPE_PP : Nat := 42

/-- Modelled from the spec: the operating modes of the absent `dect_cli.h`
("exactly one of Stopped, ScanningBaseStations, ScanningCalls,
SynchronizedOnCall, Jamming"). `do_stop` and `mainloop` test them with
`cli.mode & MODE_X`, so they are distinct single-bit flags. -/
def MODE_STOP : Nat := 0x01

/-- Modelled from the spec: mode flag ScanningBaseStations, see `MODE_STOP`. -/
def MODE_FPSCAN : Nat := 0x02

/-- Modelled from the spec: mode flag SynchronizedOnCall, see `MODE_STOP`. -/
def MODE_PPSCAN : Nat := 0x04

/-- Modelled from the spec: mode flag ScanningCalls, see `MODE_STOP`. -/
def MODE_CALLSCAN : Nat := 0x08

/-- Modelled from the spec: mode flag Jamming, see `MODE_STOP`. -/
def MODE_JAM : Nat := 0x10

/-- The number of values of a 32-bit integer; the scenarios take `RSSI` and
`count_seen` of `struct dect_station` to be 32 bits wide (`do_dump` prints
`count_seen` with `%u`, `add_station` prints `RSSI` with `%d`). The theorems hold
for every width, see `Env`. -/
def WORD : Nat := 2 ^ 32

/-- Modelled from the spec: `struct dect_station` of the absent `dect_cli.h`
(identity, kind, channel, RSSI sum, sighting count, first/last seen); the `next`
pointer is the tail of the list that holds the record. -/
structure dect_station where
  RFPI : RFPI
  channel : Nat
  RSSI : Nat
  type : Nat
  first_seen : Nat
  last_seen : Nat
  count_seen : Nat
deriving DecidableEq, Repr

/-- Modelled from the spec: `struct sniffed_packet` of the absent
`com_on_air_user.h`, the synchronized frame: channel, slot, signal strength (one
byte each, as they are stored into single bytes of the capture record) and the
53-byte payload `data`. -/
structure sniffed_packet where
  rssi : Byte
  channel : Byte
  slot : Byte
  data : Fin 53 → Byte

/-- The 7-byte frame of the scan modes as `process_dect_data` reads it:
`buf[0]` channel, `buf[1]` signal strength, `buf[2..6]` identity. -/
structure scan_frame where
  channel : Byte
  rssi : Byte
  RFPI : RFPI
deriving DecidableEq, Repr

/-- Modelled from the spec: the values of the set-mode control request
(`COA_MODE_IDLE`, `COA_MODE_SNIFF | COA_SUBMODE_SNIFF_SCANFP`, `..._SCANPP`,
`..._SYNC` of the absent `com_on_air_user.h`). -/
inductive coa_mode where
  | COA_MODE_IDLE
  | COA_SNIFF_SCANFP
  | COA_SNIFF_SCANPP
  | COA_SNIFF_SYNC
deriving DecidableEq, Repr

/-- A control request `ioctl(cli.fd, request, arg)` with its argument. -/
inductive Request where
  | COA_IOCTL_MODE (val : coa_mode)
  | COA_IOCTL_SETRFPI (rfpi : RFPI)
  | COA_IOCTL_CHAN (channel : Nat)
deriving DecidableEq, Repr

/-- The header `struct pcap_pkthdr` of one capture record; `ts` is the seconds
part of the stamp `gettimeofday` gave. -/
structure pcap_pkthdr where
  ts : Nat
  caplen : Nat
  len : Nat
deriving DecidableEq, Repr

/-- What determines the file name `dump_<time>_RFPI_<rfpi>.pcap` that `init_pcap`
prints into `fname`: the time and the identity. -/
structure FileName where
  time : Nat
  rfpi : RFPI
deriving DecidableEq, Repr

/-- The capture file behind `cli.pcap_d`: its name and the records `pcap_dump`
appended so far, oldest first. -/
structure pcap_dumper_t where
  fname : FileName
  records : List (pcap_pkthdr × List Byte)
deriving DecidableEq, Repr

/-- The global `struct cli_info cli` (modelled from the spec where the absent
`dect_cli.h` declares it), together with the global `fname` and the observable
effects: `dev_log` lists the control requests the device acknowledged, oldest
first; `closed` the capture files closed by `pcap_dump_close`; `audio` the
records handed to `packetAudioProcessing`. `pcap` is `true` for a non-NULL
`cli.pcap`; `pcap_d` is `none` for NULL. -/
structure cli_info where
  mode : Nat
  channel : Nat
  slot : Nat
  hop : Bool
  hop_ch_time : Nat
  last_hop : Nat
  verbose : Bool
  RFPI : RFPI
  pcap : Bool
  pcap_d : Option pcap_dumper_t
  packet : sniffed_packet
  station : dect_station
  station_list : List dect_station
  ignored_rfpis : List DectCli.RFPI
  autorec : Bool
  autorec_timeout : Nat
  autorec_last_bfield : Nat
  wavDump : Bool
  imaDump : Bool
  audioPlay : Bool
  wavDumping : Bool
  imaDumping : Bool
  audioPlaying : Bool
  channelPlaying : Bool
  fname : FileName
  dev_log : List Request
  closed : List pcap_dumper_t
  audio : List (List Byte)

/-- The process has terminated: `exit(code)` in state `final`. Code 139 stands for
the crash of `pcap_dump` on a NULL dumper. -/
structure Halt where
  code : Nat
  final : cli_info

/-- The outcome of an operation: the next state, or the termination of the
process. -/
abbrev Run := Except Halt cli_info

/-- The environment of one operation: which control requests the device
acknowledges, whether `malloc` returns memory, whether `gettimeofday` succeeds,
whether `pcap_open_dead` and `pcap_dump_open` return a handle (non-NULL);
and what the platform and the absent `dect_cli.h` fix: whether plain `char` is
signed, and the number of values of the fields `channel`, `RSSI` and `count_seen`
of `struct dect_station`, each an integer type of C and so of at least `2^8`
values. -/
structure Env where
  ioctl_ok : Request → Bool
  malloc_ok : Bool
  gettimeofday_ok : Bool
  pcap_open_dead_ok : Bool
  pcap_dump_open_ok : Bool
  char_signed : Bool
  chan_mod : Nat
  rssi_mod : Nat
  count_mod : Nat
  chan_mod_ge : 256 ≤ chan_mod
  rssi_mod_ge : 256 ≤ rssi_mod
  count_mod_ge : 256 ≤ count_mod

/-- The environment in which nothing fails, on a platform with a signed `char`, a
one-byte `channel` and 32-bit `RSSI` and `count_seen`. -/
def Env.good : Env :=
  { ioctl_ok := fun _ => true, malloc_ok := true, gettimeofday_ok := true,
    pcap_open_dead_ok := true, pcap_dump_open_ok := true, char_signed := true,
    chan_mod := 256, rssi_mod := WORD, count_mod := WORD,
    chan_mod_ge := Nat.le_refl 256,
    rssi_mod_ge := by decide,
    count_mod_ge := by decide }

/-! ## Device control -/

/-- The pattern `if (ioctl(cli.fd, req, arg)) ... exit(1);`: the request is
issued; a refusal ends the process with code 1. -/
def ioctl (env : Env) (r : Request) (s : cli_info) : Run :=
  if env.ioctl_ok r then .ok { s with dev_log := s.dev_log ++ [r] }
  else .error ⟨1, s⟩

/-- `set_channel(channel)`: channel-set request, then `cli.last_hop = time(NULL)`. -/
def set_channel (env : Env) (now : Nat) (channel : Nat) (s : cli_info) : Run := do
  let s ← ioctl env (.COA_IOCTL_CHAN channel) s
  pure { s with last_hop := now }

/-- `do_ppscan(RFPI)`: select the sync submode, load the target identity, apply
the current channel, record target, mode and the waiting-for-sync time. -/
def do_ppscan (env : Env) (now : Nat) (rfpi : RFPI) (s : cli_info) : Run := do
  let s ← ioctl env (.COA_IOCTL_MODE .COA_SNIFF_SYNC) s
  let s ← ioctl env (.COA_IOCTL_SETRFPI rfpi) s
  let s ← set_channel env now s.channel s
  pure { s with RFPI := rfpi, mode := MODE_PPSCAN, autorec_last_bfield := now }

/-! ## Station registry -/

/-- `add_station(station)`: append a fresh record at the end of
`cli.station_list`; a failed `malloc` ends the process with code 1. -/
def add_station (env : Env) (now : Nat) (station : dect_station) (s : cli_info) : Run :=
  if env.malloc_ok then
    .ok { s with station_list := s.station_list ++
      [{ RFPI := station.RFPI, channel := station.channel, RSSI := station.RSSI,
         type := station.type, first_seen := now, last_seen := now, count_seen := 1 }] }
  else .error ⟨1, s⟩

/-- The `while (p)` loop of `try_add_station` from list position `p` on, entered
with the current value of `found`: every record with the candidate's identity and
type is updated in place; the result is the updated list and the final `found`. -/
def try_add_station_loop (env : Env) (now : Nat) (station : dect_station) :
    List dect_station → Bool → List dect_station × Bool
  | [], found => ([], found)
  | p :: rest, found =>
    if p.RFPI = station.RFPI then
      if p.type = station.type then
        let r := try_add_station_loop env now station rest true
        ({ p with channel := station.channel,
                  count_seen := (p.count_seen + 1) % env.count_mod,
                  last_seen := now,
                  RSSI := (p.RSSI + station.RSSI) % env.rssi_mod } :: r.1, r.2)
      else
        let r := try_add_station_loop env now station rest found
        (p :: r.1, r.2)
    else
      let r := try_add_station_loop env now station rest found
      (p :: r.1, r.2)

/-- `rfpi_list_present(list, RFPI)`. -/
def rfpi_list_present : List RFPI → RFPI → Bool
  | [], _ => false
  | x :: rest, r => if r = x then true else rfpi_list_present rest r

/-- `rfpi_list_add(&list, RFPI)`: new link at the front. -/
def rfpi_list_add (list : List RFPI) (r : RFPI) : List RFPI := r :: list

/-- `rfpi_list_remove(&list, RFPI)`: unlink the first occurrence. -/
def rfpi_list_remove : List RFPI → RFPI → List RFPI
  | [], _ => []
  | x :: rest, r => if r = x then rest else x :: rfpi_list_remove rest r

/-- `rfpi_is_ignored(RFPI)`. -/
def rfpi_is_ignored (s : cli_info) (r : RFPI) : Bool :=
  rfpi_list_present s.ignored_rfpis r

/-- `rfpi_ignore_rfpi(RFPI)`. -/
def rfpi_ignore_rfpi (s : cli_info) (r : RFPI) : cli_info :=
  { s with ignored_rfpis := rfpi_list_add s.ignored_rfpis r }

/-- `rfpi_unignore_rfpi(RFPI)`. -/
def rfpi_unignore_rfpi (s : cli_info) (r : RFPI) : cli_info :=
  { s with ignored_rfpis := rfpi_list_remove s.ignored_rfpis r }

/-- `try_add_station(station)`: update the matching records or add a new one,
then, with autorec on and outside `MODE_PPSCAN`, synchronize on the identity
unless it is ignored. -/
def try_add_station (env : Env) (now : Nat) (station : dect_station) (s : cli_info) : Run := do
  let r := try_add_station_loop env now station s.station_list false
  let s := { s with station_list := r.1 }
  let s ← if !r.2 then add_station env now station s else pure s
  if s.autorec && (s.mode != MODE_PPSCAN) then
    if rfpi_is_ignored s station.RFPI then pure s
    else do_ppscan env now station.RFPI s
  else pure s

/-! ## Mode transitions -/

/-- `do_fpscan()`: select the base-station scan submode, apply the current
channel, enter `MODE_FPSCAN`, switch autorec off. -/
def do_fpscan (env : Env) (now : Nat) (s : cli_info) : Run := do
  let s ← ioctl env (.COA_IOCTL_MODE .COA_SNIFF_SCANFP) s
  let s ← set_channel env now s.channel s
  pure { s with mode := MODE_FPSCAN, autorec := false }

/-- `do_callscan()`: select the call scan submode, apply the current channel,
enter `MODE_CALLSCAN`. -/
def do_callscan (env : Env) (now : Nat) (s : cli_info) : Run := do
  let s ← ioctl env (.COA_IOCTL_MODE .COA_SNIFF_SCANPP) s
  let s ← set_channel env now s.channel s
  pure { s with mode := MODE_CALLSCAN }

/-- `do_stop_keep_autorec()`: select the idle submode, enter `MODE_STOP`. -/
def do_stop_keep_autorec (env : Env) (s : cli_info) : Run := do
  let s ← ioctl env (.COA_IOCTL_MODE .COA_MODE_IDLE) s
  pure { s with mode := MODE_STOP }

/-- Modelled from the spec: `closeIma()` of the absent `audioDecode.c`; the flag
`cli.imaDumping` tells whether the sink is open. -/
def closeIma (s : cli_info) : cli_info := { s with imaDumping := false }

/-- Modelled from the spec: `closeWav()` of the absent `audioDecode.c`. -/
def closeWav (s : cli_info) : cli_info := { s with wavDumping := false }

/-- Modelled from the spec: `closeAlsa()` of the absent `audioDecode.c`. -/
def closeAlsa (s : cli_info) : cli_info := { s with audioPlaying := false }

/-- Modelled from the spec: `openIma(fname)` of the absent `audioDecode.c`. -/
def openIma (s : cli_info) : cli_info := { s with imaDumping := true }

/-- Modelled from the spec: `openWav(fname)` of the absent `audioDecode.c`. -/
def openWav (s : cli_info) : cli_info := { s with wavDumping := true }

/-- Modelled from the spec: `openAlsa()` of the absent `audioDecode.c`. -/
def openAlsa (s : cli_info) : cli_info := { s with audioPlaying := true }

/-- Modelled from the spec: `packetAudioProcessing(pcap_packet)` of the absent
`audioDecode.c`; the record handed over is logged in `audio`. -/
def packetAudioProcessing (pcap_packet : List Byte) (s : cli_info) : cli_info :=
  { s with audio := s.audio ++ [pcap_packet] }

/-- The block `//Closing dumps` shared by `do_stop` and `mainloop`. -/
def closing_dumps (s : cli_info) : cli_info :=
  let s := if s.imaDumping then closeIma s else s
  let s := if s.wavDumping then closeWav s else s
  if s.audioPlaying then closeAlsa s else s

/-- `do_stop()`: leave the current mode unless already stopped, switch autorec
off, close the audio sinks. -/
def do_stop (env : Env) (s : cli_info) : Run := do
  let s ← if (s.mode &&& MODE_STOP) = 0 then do_stop_keep_autorec env s else pure s
  let s := { s with autorec := false }
  pure (closing_dumps s)

/-- `do_dump()` only prints; the state is untouched. -/
def do_dump (s : cli_info) : cli_info := s

/-- `do_quit()`: `do_stop(); do_dump(); exit(0);`. -/
def do_quit (env : Env) (s : cli_info) : Run := do
  let s ← do_stop env s
  .error ⟨0, do_dump s⟩

/-- `do_hop()`. -/
def do_hop (s : cli_info) : cli_info := { s with hop := if s.hop then false else true }

/-- `do_audio()`. -/
def do_audio (s : cli_info) : cli_info :=
  { s with audioPlay := if s.audioPlay then false else true }

/-- `do_direction()`. -/
def do_direction (s : cli_info) : cli_info :=
  { s with channelPlaying := if s.channelPlaying then false else true }

/-- `do_wav()`. -/
def do_wav (s : cli_info) : cli_info := { s with wavDump := if s.wavDump then false else true }

/-- `do_ima()`. -/
def do_ima (s : cli_info) : cli_info := { s with imaDump := if s.imaDump then false else true }

/-- `do_verb()`. -/
def do_verb (s : cli_info) : cli_info := { s with verbose := if s.verbose then false else true }

/-- `do_autorec()`. -/
def do_autorec (s : cli_info) : cli_info :=
  { s with autorec := if s.autorec then false else true }

/-! ## Identity arguments -/

/-- `hexvalue(hexdigit)`. -/
def hexvalue (hexdigit : Int) : Int :=
  if hexdigit ≥ 48 ∧ hexdigit ≤ 57 then hexdigit - 48
  else if hexdigit ≥ 97 ∧ hexdigit ≤ 102 then hexdigit - (97 - 10)
  else if hexdigit ≥ 65 ∧ hexdigit ≤ 70 then hexdigit - (65 - 10)
  else -1

/-- `isspace(c)` of the C locale: space, `\t`, `\n`, `\v`, `\f`, `\r`. -/
def isspace (c : Int) : Bool := c == 32 || (9 ≤ c && c ≤ 13)

/-- `str[i]` of a C string given by its characters before the terminating NUL;
the terminator itself reads as 0. -/
def cchar (str : List Char) (i : Nat) : Int := ((str.getD i (Char.ofNat 0)).toNat : Int)

/-- `rfpi[i] = b` for `i` in `0..4`. -/
def rfpi_set (rfpi : RFPI) (i : Nat) (b : Byte) : RFPI :=
  match i with
  | 0 => { rfpi with b0 := b }
  | 1 => { rfpi with b1 := b }
  | 2 => { rfpi with b2 := b }
  | 3 => { rfpi with b3 := b }
  | 4 => { rfpi with b4 := b }
  | _ => rfpi

/-- The head of the `for (;;)` body of `parse_rfpi`: two hex digits make one byte
`(highnibble << 4) | lownibble`; `none` is `return -1`. -/
def parse_rfpi_byte (str : List Char) : Option Byte :=
  let highnibble := hexvalue (cchar str 0)
  if highnibble = -1 then none
  else
    let lownibble := hexvalue (cchar str 1)
    if lownibble = -1 then none
    else some (Fin.ofNat ((highnibble.toNat <<< 4) ||| lownibble.toNat))

/-- The `for (;;)` loop of `parse_rfpi` at index `i = 4 - k`, `k` bytes still to
come after this one; `none` is `return -1`. -/
def parse_rfpi_loop : Nat → List Char → RFPI → Option RFPI
  | 0, str, rfpi =>
    match parse_rfpi_byte str with
    | none => none
    | some b => some (rfpi_set rfpi 4 b)
  | k + 1, str, rfpi =>
    match parse_rfpi_byte str with
    | none => none
    | some b =>
      let rfpi := rfpi_set rfpi (4 - (k + 1)) b
      let str := str.drop 2
      let str := if cchar str 0 = 32 ∨ cchar str 0 = 58 then str.drop 1 else str
      parse_rfpi_loop k str rfpi

/-- The loop `while (isspace(*str_rfpi)) str_rfpi++;`. -/
def skip_space : List Char → List Char
  | [] => []
  | c :: rest => if isspace (c.toNat : Int) then skip_space rest else c :: rest

/-- `parse_rfpi(str_rfpi, rfpi)`: `some r` is return value 0 with `r` written to
`rfpi`, `none` is return value -1. -/
def parse_rfpi (str_rfpi : List Char) : Option RFPI :=
  parse_rfpi_loop 4 (skip_space str_rfpi) ⟨0, 0, 0, 0, 0⟩

/-- `do_ppscan_str(str_rfpi)`. -/
def do_ppscan_str (env : Env) (now : Nat) (str_rfpi : List Char) (s : cli_info) : Run :=
  match parse_rfpi str_rfpi with
  | none => pure s
  | some rfpi => do_ppscan env now rfpi s

/-- The `if (rfpi_is_ignored(RFPI)) ... else ...` of `do_ignore_str`, run on the
parsed identity: the toggle of the ignore list. -/
def ignore_toggle (rfpi : RFPI) (s : cli_info) : cli_info :=
  if rfpi_is_ignored s rfpi then rfpi_unignore_rfpi s rfpi
  else rfpi_ignore_rfpi s rfpi

/-- `do_ignore_str(str_rfpi)`: parse the argument, then toggle the identity in the
ignore list; a malformed argument is rejected. -/
def do_ignore_str (str_rfpi : List Char) (s : cli_info) : cli_info :=
  match parse_rfpi str_rfpi with
  | none => s
  | some rfpi => ignore_toggle rfpi s

/-! ## Capture session and frame dispatch -/

/-- `init_pcap(packet)`: the file name is made of the time and `cli.RFPI`;
`cli.pcap` is what `pcap_open_dead` returns and `cli.pcap_d` what `pcap_dump_open`
returns, a fresh, empty file or NULL, as the environment decides. A NULL result
of either call is only logged: the function returns and the caller carries on. -/
def init_pcap (env : Env) (now : Nat) (s : cli_info) : cli_info :=
  let fname : FileName := { time := now, rfpi := s.RFPI }
  let s := { s with fname := fname }
  let s := { s with pcap := env.pcap_open_dead_ok }
  { s with pcap_d := if env.pcap_dump_open_ok then some { fname := fname, records := [] }
                     else none }

/-- `has_b_field()`. -/
def has_b_field (s : cli_info) : Bool :=
  ((s.packet.data 5).val &&& 0x0e) != 0x0e

/-- `memcpy(&dst[off], src, n)` for a source of `m` bytes, written as the loop
over `i = 0 .. n-1` that stores `src[i]` to `dst[off + i]`. -/
def memcpy {m : Nat} (dst : List Byte) (off : Nat) (src : Fin m → Byte) : Nat → List Byte
  | 0 => dst
  | n + 1 =>
    let d := memcpy dst off src n
    if h : n < m then d.set (off + n) (src ⟨n, h⟩) else d

/-- The record buffer `uint8_t pcap_packet[100]` as `process_dect_data` fills it
from `cli.packet`. -/
def pcap_packet (pkt : sniffed_packet) : List Byte :=
  let b : List Byte := List.replicate 100 0
  let b := b.set 12 0x23
  let b := b.set 13 0x23
  let b := b.set 14 0x00
  let b := b.set 15 pkt.channel
  let b := b.set 16 0
  let b := b.set 17 pkt.slot
  let b := b.set 18 0
  let b := b.set 19 pkt.rssi
  memcpy b 20 pkt.data 53

/-- `pcap_dump(cli.pcap_d, &pcap_hdr, pcap_packet)`: one record is appended to
the open file; on a NULL dumper the library call crashes (code 139). -/
def pcap_dump (hdr : pcap_pkthdr) (buf : List Byte) (s : cli_info) : Run :=
  match s.pcap_d with
  | some d => .ok { s with pcap_d := some { d with records := d.records ++ [(hdr, buf)] } }
  | none => .error ⟨139, s⟩

/-- `pcap_dump_close(cli.pcap_d)`: the file is flushed and closed; on a NULL
dumper the library call crashes (code 139). -/
def pcap_dump_close (s : cli_info) : Run :=
  match s.pcap_d with
  | some d => .ok { s with closed := s.closed ++ [d] }
  | none => .error ⟨139, s⟩

/-- The value of the expression `buf[i]` for the byte `b` read into `char buf[]`:
where plain `char` is signed, a byte from `0x80` on is negative. -/
def char_value (env : Env) (b : Byte) : Int :=
  if env.char_signed ∧ 128 ≤ b.val then (b.val : Int) - 256 else (b.val : Int)

/-- The assignment of the value `v` to an integer field of `m` values: the field
holds the residue of `v` modulo `m`. -/
def store (m : Nat) (v : Int) : Nat := (v % (m : Int)).toNat

/-- The loop body of `case MODE_FPSCAN` / `case MODE_CALLSCAN` of
`process_dect_data` for one 7-byte frame, with `type` the kind of the case:
`cli.station.channel = buf[0]; cli.station.RSSI = buf[1];` convert the `char` to
the type of the field. -/
def scan_body (env : Env) (type : Nat) (now : Nat) (f : scan_frame) (s : cli_info) : Run :=
  let s := { s with station := { s.station with
    RFPI := f.RFPI, channel := store env.chan_mod (char_value env f.channel),
    RSSI := store env.rssi_mod (char_value env f.rssi), type := type } }
  try_add_station env now s.station s

/-- The block run at the first confirmed sync (`if (!cli.pcap)`). -/
def got_sync (env : Env) (now : Nat) (s : cli_info) : cli_info :=
  let s := init_pcap env now s
  let s := { s with autorec_last_bfield := now }
  let s := if s.imaDump then openIma s else s
  let s := if s.wavDump then openWav s else s
  if s.audioPlay then openAlsa s else s

/-- The second half of the loop body of `case MODE_PPSCAN`: stamp the header,
fill the record buffer from `cli.packet`, dump it, feed the audio sinks. -/
def ppscan_dump (env : Env) (now : Nat) (s : cli_info) : Run :=
  let pcap_hdr : pcap_pkthdr := { ts := now, caplen := 73, len := 73 }
  if !env.gettimeofday_ok then .error ⟨1, s⟩
  else do
    let buf := pcap_packet s.packet
    let s ← pcap_dump pcap_hdr buf s
    pure (if s.imaDumping || s.wavDumping || s.audioPlaying
          then packetAudioProcessing buf s else s)

/-- The loop body of `case MODE_PPSCAN` of `process_dect_data` for one frame read
into `cli.packet`. The channel and the signal strength of the frame are single
unsigned bytes, which every field holds as they are. -/
def ppscan_body (env : Env) (now : Nat) (pkt : sniffed_packet) (s : cli_info) : Run := do
  let s := { s with packet := pkt }
  let s := { s with station := { s.station with
    RFPI := s.RFPI, channel := s.packet.channel.val, RSSI := s.packet.rssi.val,
    type := TYPE_PP } }
  let s ← try_add_station env now s.station s
  let s := { s with hop := false }
  let s := if !s.pcap then got_sync env now s else s
  let s := if has_b_field s then { s with autorec_last_bfield := now } else s
  ppscan_dump env now s

/-- A `while (size == read(...))` loop: the body runs once for every complete
frame the device delivers, each at its own time, until the device has no more or
the process ends. -/
def drain {α : Type} (body : Nat → α → cli_info → Run) : List (Nat × α) → cli_info → Run
  | [], s => .ok s
  | (now, x) :: rest, s =>
    match body now x s with
    | .ok s1 => drain body rest s1
    | .error h => .error h

/-- `process_dect_data()`: `scans` are the complete 7-byte reads and `pkts` the
complete `sizeof(cli.packet)` reads the device has ready, each with the time at
which it is processed. The `switch` picks the loop by the mode at entry. -/
def process_dect_data (env : Env) (scans : List (Nat × scan_frame))
    (pkts : List (Nat × sniffed_packet)) (s : cli_info) : Run :=
  if s.mode = MODE_FPSCAN then drain (scan_body env TYPE_FP) scans s
  else if s.mode = MODE_CALLSCAN then drain (scan_body env TYPE_PP) scans s
  else if s.mode = MODE_PPSCAN then drain (ppscan_body env) pkts s
  else .ok s

/-! ## Start-up and the scheduler tick -/

/-- The state after `init()`: `init_dect` clears `cli.pcap`, `init_cli` sets the
fields below, everything else is the zero of a C global. -/
def init : cli_info :=
  { mode := MODE_STOP, channel := 0, slot := 0, hop := true, hop_ch_time := 1,
    last_hop := 0, verbose := false, RFPI := ⟨0, 0, 0, 0, 0⟩, pcap := false,
    pcap_d := none, packet := ⟨0, 0, 0, fun _ => 0⟩,
    station := ⟨⟨0, 0, 0, 0, 0⟩, 0, 0, 0, 0, 0, 0⟩, station_list := [],
    ignored_rfpis := [], autorec := false, autorec_timeout := 10,
    autorec_last_bfield := 0, wavDump := true, imaDump := false, audioPlay := true,
    wavDumping := false, imaDumping := false, audioPlaying := false,
    channelPlaying := false, fname := ⟨0, ⟨0, 0, 0, 0, 0⟩⟩, dev_log := [], closed := [],
    audio := [] }

/-- The hop step of one `mainloop` iteration. -/
def hop_step (env : Env) (now : Nat) (s : cli_info) : Run :=
  if s.hop && ((s.mode &&& MODE_FPSCAN) != 0 || (s.mode &&& MODE_PPSCAN) != 0 ||
      (s.mode &&& MODE_CALLSCAN) != 0 || (s.mode &&& MODE_JAM) != 0) then
    if now > s.last_hop + s.hop_ch_time then
      let s := { s with channel := s.channel + 1 }
      let s := { s with channel := s.channel % 10 }
      set_channel env now s.channel s
    else pure s
  else pure s

/-- The autorec step of one `mainloop` iteration. -/
def autorec_step (env : Env) (now : Nat) (s : cli_info) : Run :=
  if s.autorec then
    if ((now : Int) - (s.autorec_last_bfield : Int) > (s.autorec_timeout : Int)) ∧
        s.mode ≠ MODE_CALLSCAN then do
      let s ← do_stop_keep_autorec env s
      let s ← do_callscan env now s
      let s ← if s.pcap then do
          let s ← pcap_dump_close s
          pure { s with pcap_d := none, pcap := false, hop := true }
        else pure s
      pure (closing_dumps s)
    else pure s
  else pure s

/-- The part of one `mainloop` iteration after the two sources were served: the
hop step, then the autorec step. -/
def tick (env : Env) (now : Nat) (s : cli_info) : Run := do
  let s ← hop_step env now s
  autorec_step env now s

/-! ## Derived views of the registry -/

/-- The in-place update of a matching record. -/
def seen_again (env : Env) (now : Nat) (station p : dect_station) : dect_station :=
  { p with channel := station.channel, count_seen := (p.count_seen + 1) % env.count_mod,
           last_seen := now, RSSI := (p.RSSI + station.RSSI) % env.rssi_mod }

/-- The record `add_station` appends for a candidate first seen at `now`. -/
def first_seen_record (now : Nat) (station : dect_station) : dect_station :=
  { RFPI := station.RFPI, channel := station.channel, RSSI := station.RSSI,
    type := station.type, first_seen := now, last_seen := now, count_seen := 1 }

/-- The registry after one sighting. -/
def registry_after (env : Env) (now : Nat) (st : dect_station) (l : List dect_station) :
    List dect_station :=
  (try_add_station_loop env now st l false).1 ++
    (if (try_add_station_loop env now st l false).2 then [] else [first_seen_record now st])

/-- The identity `AA:BB:CC:DD:EE` of the scenarios. -/
def aabbccddee : RFPI := ⟨0xAA, 0xBB, 0xCC, 0xDD, 0xEE⟩

/-- A state of the autorec scenarios: as after `init`, with autorec on and the mode
`MODE_CALLSCAN`. -/
def autorec_scanning : cli_info := { init with autorec := true, mode := MODE_CALLSCAN }

/-- The candidate `cli.station` that the `MODE_PPSCAN` loop body hands to
`try_add_station` for the frame `pkt`. -/
def ppscan_station (pkt : sniffed_packet) (s : cli_info) : dect_station :=
  { s.station with RFPI := s.RFPI, channel := pkt.channel.val, RSSI := pkt.rssi.val,
                   type := TYPE_PP }

/-- The records of the capture session that is open in `s`; none when no session
is open. -/
def open_records (s : cli_info) : List (pcap_pkthdr × List Byte) :=
  if s.pcap then (match s.pcap_d with | some d => d.records | none => []) else []

/-- The capture record cut to its captured length, the 73 bytes that reach the
file (`caplen = 73`). -/
def captured (record : List Byte) : List Byte := record.take 73

/-- Reader of a capture record: the channel, byte 15 of the captured bytes. -/
def record_channel (record : List Byte) : Byte := (captured record).getD 15 0

/-- Reader of a capture record: the slot, byte 17 of the captured bytes. -/
def record_slot (record : List Byte) : Byte := (captured record).getD 17 0

/-- Reader of a capture record: the signal strength, byte 19 of the captured
bytes. -/
def record_rssi (record : List Byte) : Byte := (captured record).getD 19 0

/-- Reader of a capture record: the payload, bytes 20..72 of the captured bytes. -/
def record_data (record : List Byte) : Fin 53 → Byte :=
  fun i => (captured record).getD (20 + i.val) 0

/-- The state of the capture scenarios: after `init`, `do_ppscan` on
`00 01 02 03 04` at time 100 went through; no frame has arrived yet. -/
def sync_wait : cli_info :=
  { init with mode := MODE_PPSCAN, RFPI := ⟨0, 1, 2, 3, 4⟩, last_hop := 100,
              autorec_last_bfield := 100,
              dev_log := [.COA_IOCTL_MODE .COA_SNIFF_SYNC, .COA_IOCTL_SETRFPI ⟨0, 1, 2, 3, 4⟩,
                .COA_IOCTL_CHAN 0] }

/-- A synchronized frame of the scenarios: channel 2, slot 3, signal strength 1,
payload bytes 0, 1, ..., 52. -/
def frame_a : sniffed_packet := ⟨1, 2, 3, fun i => ⟨i.val, by omega⟩⟩

/-- Iterations of `mainloop` in which neither source is readable: only the tick
runs, once at each of the given times. -/
def idle_ticks (env : Env) : List Nat → cli_info → Run
  | [], s => .ok s
  | now :: rest, s =>
    match tick env now s with
    | .ok s1 => idle_ticks env rest s1
    | .error h => .error h

/-- A state of the timeout scenarios: autorec on, `MODE_PPSCAN` entered at time
100, no capture session, hopping off. -/
def pursuit_no_sync : cli_info := { sync_wait with autorec := true, hop := false }

/-- A state of the recording scenarios: autorec on, `MODE_PPSCAN` entered at time
100, a capture session open since time 101, hopping suspended. -/
def recording : cli_info :=
  { sync_wait with autorec := true, hop := false, pcap := true,
                   pcap_d := some ⟨⟨101, ⟨0, 1, 2, 3, 4⟩⟩, []⟩, fname := ⟨101, ⟨0, 1, 2, 3, 4⟩⟩,
                   autorec_last_bfield := 101 }

/-- The run of the timeout scenario, from `init`: `hop` (hopping off) and `autorec`
(autorec on), `callscan` at time 99, then one scan frame of the handset
`AA:BB:CC:DD:EE` at time 100, on which autorec synchronizes. -/
def autorec_pursuit : Run := do
  let s := do_hop init
  let s := do_autorec s
  let s ← do_callscan Env.good 99 s
  process_dect_data Env.good [(100, ⟨1, 10, aabbccddee⟩)] [] s

/-- The operator session of the stop scenario, from `init`: `ppscan 00 01 02 03 04`
at time 100, one synchronized frame at time 101 (it opens the capture session),
then the operation `last` at time 102. -/
def record_then (last : cli_info → Run) : Run := do
  let s ← do_ppscan_str Env.good 100 " 00 01 02 03 04".toList init
  let s ← process_dect_data Env.good [] [(101, frame_a)] s
  last s

/-- What the capture-session claims look at: the mode, whether `cli.pcap` is
non-NULL, and how many capture files have been closed. -/
def session_view (s : cli_info) : Nat × Bool × Nat := (s.mode, s.pcap, s.closed.length)

/-- What the hop claims look at: the current channel and the time of the last
hop. -/
def hop_view (s : cli_info) : Nat × Nat := (s.channel, s.last_hop)

/-- The answer of `has_b_field` once the frame `pkt` has been read into
`cli.packet`: whether the frame carries the liveness marker. -/
def frame_has_b_field (pkt : sniffed_packet) : Bool :=
  has_b_field { init with packet := pkt }

/-- The time of the last marker-bearing frame of a run of frames, `dflt` when no
frame of the run carries the marker. -/
def last_marked (dflt : Nat) (pkts : List (Nat × sniffed_packet)) : Nat :=
  match (pkts.filter (fun f => frame_has_b_field f.2)).getLast? with
  | some f => f.1
  | none => dflt

/-- A synchronized frame without the liveness marker: every payload byte is
`0x0e`. -/
def frame_b : sniffed_packet := ⟨1, 2, 3, fun _ => 0x0e⟩

/-- The candidate `cli.station` that a scan loop of `process_dect_data` hands to
`try_add_station` for the 7-byte frame `f`. -/
def scan_station (env : Env) (type : Nat) (f : scan_frame) (s : cli_info) : dect_station :=
  { s.station with RFPI := f.RFPI, channel := store env.chan_mod (char_value env f.channel),
                   RSSI := store env.rssi_mod (char_value env f.rssi), type := type }

/-- The three control requests of one `do_ppscan`: sync submode, target identity,
current channel. -/
def sync_requests (rfpi : RFPI) (channel : Nat) : List Request :=
  [.COA_IOCTL_MODE .COA_SNIFF_SYNC, .COA_IOCTL_SETRFPI rfpi, .COA_IOCTL_CHAN channel]

/-- The scan frame on which a drain of `scans` starting in `s` synchronizes: the
first frame whose identity is not ignored, when autorec is on and the mode is not
`MODE_PPSCAN`; none otherwise. -/
def first_pursued (s : cli_info) (scans : List (Nat × scan_frame)) :
    Option (Nat × scan_frame) :=
  if s.autorec = true ∧ s.mode ≠ MODE_PPSCAN then
    scans.find? (fun f => !rfpi_list_present s.ignored_rfpis f.2.RFPI)
  else none

/-- The scan frames of the first-sighting scenario: `AA:BB:CC:DD:EE` at time 1,
then `00:01:02:03:04` at time 2 and `05:06:07:08:09` at time 3. -/
def three_scans : List (Nat × scan_frame) :=
  [(1, ⟨1, 10, aabbccddee⟩), (2, ⟨1, 20, ⟨0, 1, 2, 3, 4⟩⟩), (3, ⟨2, 30, ⟨5, 6, 7, 8, 9⟩⟩)]

/-! ## Numeric arguments -/

/-- `ULONG_MAX` for the 64-bit `unsigned long` of Linux on 64-bit machines (LP64). -/
def ULONG_MAX : Nat := 2 ^ 64 - 1

/-- `LONG_MAX` for the 64-bit `long`. -/
def LONG_MAX : Int := 2 ^ 63 - 1

/-- `LONG_MIN` for the 64-bit `long`. -/
def LONG_MIN : Int := -(2 ^ 63)

/-- The value of a character as a digit of `strtoul`: `0-9`, then letters of either
case from 10 on. -/
def digit_value (c : Char) : Option Nat :=
  let n := c.toNat
  if 48 ≤ n ∧ n ≤ 57 then some (n - 48)
  else if 97 ≤ n ∧ n ≤ 122 then some (n - 97 + 10)
  else if 65 ≤ n ∧ n ≤ 90 then some (n - 65 + 10)
  else none

/-- The digit loop of `strtoul`: the digits of the given base at the front of the
string are accumulated (`acc`, without bound) and counted (`k`). -/
def strtoul_digits (base : Nat) : List Char → Nat → Nat → Nat × Nat
  | [], acc, k => (acc, k)
  | c :: rest, acc, k =>
    match digit_value c with
    | some d => if d < base then strtoul_digits base rest (acc * base + d) (k + 1) else (acc, k)
    | none => (acc, k)

/-- What one call `strtoul(str, &end, 0)` gives: the value returned, the distance
`end - str`, and whether `errno` was set to `ERANGE`. -/
structure strtoul_result where
  value : Nat
  consumed : Nat
  erange : Bool
deriving DecidableEq, Repr

/-- `strtoul(str, &end, 0)` of the C library with a 64-bit `unsigned long`: white
space is skipped, a sign is taken, the base is 16 after `0x`/`0X`, 8 after a
leading `0`, else 10; the digits are converted; a value above `ULONG_MAX` gives
`ULONG_MAX` and `ERANGE`, a minus sign negates modulo `2^64`; without any digit
nothing is consumed, except that of `0x` without a hex digit the `0` is
converted. -/
def strtoul (str : List Char) : strtoul_result :=
  let s1 := skip_space str
  let ws := str.length - s1.length
  let sign : Bool × List Char × Nat :=
    match s1 with
    | '-' :: r => (true, r, 1)
    | '+' :: r => (false, r, 1)
    | _ => (false, s1, 0)
  let pre : Nat × List Char × Nat :=
    match sign.2.1 with
    | '0' :: x :: r => if x = 'x' ∨ x = 'X' then (16, r, 2) else (8, sign.2.1, 0)
    | '0' :: [] => (8, sign.2.1, 0)
    | _ => (10, sign.2.1, 0)
  let vk := strtoul_digits pre.1 pre.2.1 0 0
  if vk.2 = 0 then
    if pre.2.2 = 2 then ⟨0, ws + sign.2.2 + 1, false⟩ else ⟨0, 0, false⟩
  else if vk.1 > ULONG_MAX then ⟨ULONG_MAX, ws + sign.2.2 + pre.2.2 + vk.2, true⟩
  else ⟨if sign.1 then (2 ^ 64 - vk.1) % 2 ^ 64 else vk.1, ws + sign.2.2 + pre.2.2 + vk.2, false⟩

/-- `do_chan(str_chan)`: the `unsigned long` that `strtoul` returns is stored in the
`uint32_t channel`, that is reduced modulo `2^32`, before the checks. -/
def do_chan (env : Env) (now : Nat) (str_chan : List Char) (s : cli_info) : Run :=
  let r := strtoul str_chan
  let channel : Nat := r.value % 2 ^ 32
  if (r.erange = true ∧ ((channel : Int) = LONG_MAX ∨ (channel : Int) = LONG_MIN)) ∨
      (r.erange = true ∧ channel = 0) then pure s
  else if r.consumed = 0 then pure s
  else if channel > 9 then pure s
  else
    let s := { s with channel := channel }
    set_channel env now s.channel s

/-- `do_slot(str_slot)`; `set_slot` only prints that it is not implemented. -/
def do_slot (str_slot : List Char) (s : cli_info) : cli_info :=
  let r := strtoul str_slot
  let slot : Nat := r.value % 2 ^ 32
  if (r.erange = true ∧ ((slot : Int) = LONG_MAX ∨ (slot : Int) = LONG_MIN)) ∨
      (r.erange = true ∧ slot = 0) then s
  else if r.consumed = 0 then s
  else if slot > 23 then s
  else { s with slot := slot }

/-! ## The engine as a transition system -/

/-- The operator commands, as `process_cli_data` dispatches them; `arg` is the rest
of the input line after the command word. -/
inductive Command where
  | help
  | fpscan
  | callscan
  | autorec
  | ppscan (arg : List Char)
  | chan (arg : List Char)
  | slot (arg : List Char)
  | jam
  | ignore (arg : List Char)
  | dump
  | hop
  | audio
  | direction
  | wav
  | ima
  | verb
  | stop
  | quit

/-- The handler `process_cli_data` calls for a command. -/
def run_command (env : Env) (now : Nat) : Command → cli_info → Run
  | .help, s => .ok s
  | .fpscan, s => do_fpscan env now s
  | .callscan, s => do_callscan env now s
  | .autorec, s => .ok (do_autorec s)
  | .ppscan arg, s => do_ppscan_str env now arg s
  | .chan arg, s => do_chan env now arg s
  | .slot arg, s => .ok (do_slot arg s)
  | .jam, s => .ok s
  | .ignore arg, s => .ok (do_ignore_str arg s)
  | .dump, s => .ok (do_dump s)
  | .hop, s => .ok (do_hop s)
  | .audio, s => .ok (do_audio s)
  | .direction, s => .ok (do_direction s)
  | .wav, s => .ok (do_wav s)
  | .ima, s => .ok (do_ima s)
  | .verb, s => .ok (do_verb s)
  | .stop, s => do_stop env s
  | .quit, s => do_quit env s

/-- What `mainloop` reacts to: an operator command, frames ready on the device, or
the tick that ends every iteration. -/
inductive Event where
  | command (c : Command)
  | frames (scans : List (Nat × scan_frame)) (pkts : List (Nat × sniffed_packet))
  | tick

/-- One reaction of `mainloop` at time `now`. -/
def step (env : Env) (now : Nat) : Event → cli_info → Run
  | .command c, s => run_command env now c s
  | .frames scans pkts, s => process_dect_data env scans pkts s
  | .tick, s => tick env now s

/-- The states the engine passes through: from `init`, by operator commands, device
frames and ticks at any times. A refused control request, a failed `malloc` or
`gettimeofday` ends the process, so every step is taken in an environment in which
these succeed. `pcap_open_dead` and `pcap_dump_open` may fail or succeed, and the
platform may be any; a step goes on from the state it reaches only if the process
has not ended in it. -/
inductive Reachable : cli_info → Prop where
  | start : Reachable init
  | next {s s' : cli_info} (env : Env) (now : Nat) (e : Event) :
      Reachable s → (∀ r, env.ioctl_ok r = true) → env.malloc_ok = true →
      env.gettimeofday_ok = true → step env now e s = .ok s' → Reachable s'

/-- A control request is in channel range: a channel-set request carries a value in
`0..9`; the other requests carry no channel. -/
def chan_in_range : Request → Bool
  | .COA_IOCTL_CHAN c => decide (c ≤ 9)
  | _ => true

/-- The invariant of the engine: the current channel is in `0..9`, every channel-set
request acknowledged so far carried a value in `0..9`, and a non-NULL `cli.pcap`
comes with a non-NULL `cli.pcap_d`. -/
def Inv (s : cli_info) : Prop :=
  s.channel ≤ 9 ∧ (∀ r ∈ s.dev_log, chan_in_range r = true) ∧
  (s.pcap = true → s.pcap_d ≠ none)

/-- The run of the stopped-autorec scenario, from `init`: `ppscan 00 01 02 03 04`
at time 100, `stop` at time 101, then `autorec`. -/
def stopped_autorec : Run := do
  let s ← run_command Env.good 100 (.ppscan " 00 01 02 03 04".toList) init
  let s ← run_command Env.good 101 .stop s
  run_command Env.good 101 .autorec s

/-- The run of the retarget scenario, from `init`: `ppscan 00 01 02 03 04` at time
100, a synchronized frame at 101, `ppscan AA BB CC DD EE` at 102, a synchronized
frame at 103. -/
def retarget : Run := do
  let s ← run_command Env.good 100 (.ppscan " 00 01 02 03 04".toList) init
  let s ← process_dect_data Env.good [] [(101, frame_a)] s
  let s ← run_command Env.good 102 (.ppscan " AA BB CC DD EE".toList) s
  process_dect_data Env.good [] [(103, frame_b)] s

/-- What the file-naming claim looks at: the target identity `cli.RFPI`, the
identity in the name of the open capture file, the number of records in that file
and the number of files closed so far. -/
def naming_view (s : cli_info) : RFPI × Option RFPI × Nat × Nat :=
  (s.RFPI, s.pcap_d.map (fun d => d.fname.rfpi), (open_records s).length, s.closed.length)

/-! ## Written identities -/

/-- The hex digit for the value `n < 16`, as a capital or a small letter above 9. -/
def hex_char (upper : Bool) (n : Nat) : Char :=
  if n < 10 then Char.ofNat (48 + n)
  else if upper then Char.ofNat (65 + (n - 10))
  else Char.ofNat (97 + (n - 10))

/-- A byte written as a pair of hex digits, each in its own case. -/
def hex_pair (u1 u2 : Bool) (b : Byte) : List Char :=
  [hex_char u1 (b.val / 16), hex_char u2 (b.val % 16)]

/-- What stands between two byte pairs of a written identity: nothing, one colon or
one space. -/
inductive Sep where
  | nothing
  | colon
  | space
deriving DecidableEq, Repr

/-- The characters of a separator. -/
def Sep.chars : Sep → List Char
  | .nothing => []
  | .colon => [':']
  | .space => [' ']

/-- The way an identity is written: the case of each of its ten hex digits and the
separator after each of its first four byte pairs. -/
structure RfpiStyle where
  u0 : Bool
  u1 : Bool
  u2 : Bool
  u3 : Bool
  u4 : Bool
  u5 : Bool
  u6 : Bool
  u7 : Bool
  u8 : Bool
  u9 : Bool
  s0 : Sep
  s1 : Sep
  s2 : Sep
  s3 : Sep

/-- The identity `r` written in the style `st`: five byte pairs with the separators
between them. -/
def rfpi_text (st : RfpiStyle) (r : RFPI) : List Char :=
  hex_pair st.u0 st.u1 r.b0 ++ st.s0.chars ++ (hex_pair st.u2 st.u3 r.b1 ++ st.s1.chars ++
    (hex_pair st.u4 st.u5 r.b2 ++ st.s2.chars ++ (hex_pair st.u6 st.u7 r.b3 ++ st.s3.chars ++
      hex_pair st.u8 st.u9 r.b4)))

/-- A well-formed identity argument for `r`: white space, then the identity as five
hex byte pairs, contiguous or with single colons or spaces between pairs, then
anything. -/
def well_formed_rfpi (str : List Char) (r : RFPI) : Prop :=
  ∃ (ws : List Char) (st : RfpiStyle) (rest : List Char),
    (∀ c ∈ ws, isspace (c.toNat : Int) = true) ∧ str = ws ++ (rfpi_text st r ++ rest)

/-- The run of the channel scenario, from `init`: `chan 3` at time 1, then
`chan 4294967296` at time 2. -/
def chan_wrap : Run := do
  let s ← run_command Env.good 1 (.chan " 3".toList) init
  run_command Env.good 2 (.chan " 4294967296".toList) s

/-- The run of the repeated-sighting scenario, from `init`: `callscan` at time 99,
a scan frame of the handset `AA:BB:CC:DD:EE` at time 100 (autorec is off, the
identity is only registered), then `autorec`. -/
def known_handset : Run := do
  let s ← run_command Env.good 99 .callscan init
  let s ← process_dect_data Env.good [(100, ⟨1, 10, aabbccddee⟩)] [] s
  run_command Env.good 100 .autorec s

/-- The run of the base-station scenario, from `init`: `fpscan` at time 99, then
`autorec`. -/
def fpscan_autorec : Run := do
  let s ← run_command Env.good 99 .fpscan init
  run_command Env.good 99 .autorec s

/-- What the pursuit claims look at: the autorec flag, the mode, the target
identity and the identities and kinds in the registry. -/
def pursuit_view (s : cli_info) : Bool × Nat × RFPI × List (RFPI × Nat) :=
  (s.autorec, s.mode, s.RFPI, s.station_list.map (fun p => (p.RFPI, p.type)))

/-- The low four bits of payload byte 5 of the frame in `cli.packet`. -/
def low_nibble (s : cli_info) : Nat := (s.packet.data 5).val % 16

/-! # Theorems -/

/-! ## Station registry -/

theorem store_char_plain (env : Env) (m : Nat) (hm : 256 ≤ m) (b : Byte)
    (h : env.char_signed = false ∨ b.val < 128) :
    store m (char_value env b) = b.val := by
  have hb := b.isLt
  have hc : char_value env b = (b.val : Int) := by
    unfold char_value
    rcases h with h | h
    · simp [h]
    · rw [if_neg (by omega)]
  rw [store, hc, Int.emod_eq_of_lt (by omega) (by omega)]
  simp

theorem store_char_signed (env : Env) (m : Nat) (hm : 256 ≤ m) (b : Byte)
    (hs : env.char_signed = true) (h : 128 ≤ b.val) :
    store m (char_value env b) = m - 256 + b.val := by
  have hb := b.isLt
  have hc : char_value env b = (b.val : Int) - 256 := by
    unfold char_value
    rw [if_pos ⟨hs, h⟩]
  rw [store, hc, ← Int.add_emod_self, Int.emod_eq_of_lt (by omega) (by omega)]
  omega

theorem loop_fst (env : Env) (now : Nat) (st : dect_station) (l : List dect_station) (f : Bool) :
    (try_add_station_loop env now st l f).1 =
      l.map (fun p => if p.RFPI = st.RFPI ∧ p.type = st.type then seen_again env now st p else p) := by
  induction l generalizing f with
  | nil => rfl
  | cons p rest ih =>
    unfold try_add_station_loop
    by_cases h1 : p.RFPI = st.RFPI <;> by_cases h2 : p.type = st.type <;>
      simp [h1, h2, ih, seen_again]

theorem loop_snd (env : Env) (now : Nat) (st : dect_station) (l : List dect_station) (f : Bool) :
    (try_add_station_loop env now st l f).2 =
      (f || l.any (fun p => decide (p.RFPI = st.RFPI ∧ p.type = st.type))) := by
  induction l generalizing f with
  | nil => simp [try_add_station_loop]
  | cons p rest ih =>
    unfold try_add_station_loop
    by_cases h1 : p.RFPI = st.RFPI <;> by_cases h2 : p.type = st.type <;>
      simp [h1, h2, ih]

theorem ioctl_good (env : Env) (h : ∀ r, env.ioctl_ok r = true) (r : Request) (s : cli_info) :
    ioctl env r s = .ok { s with dev_log := s.dev_log ++ [r] } := by
  simp [ioctl, h]

theorem do_ppscan_good (env : Env) (h : ∀ r, env.ioctl_ok r = true) (now : Nat) (rfpi : RFPI)
    (s : cli_info) :
    do_ppscan env now rfpi s = .ok { s with
      dev_log := s.dev_log ++ [.COA_IOCTL_MODE .COA_SNIFF_SYNC, .COA_IOCTL_SETRFPI rfpi,
        .COA_IOCTL_CHAN s.channel],
      last_hop := now, RFPI := rfpi, mode := MODE_PPSCAN, autorec_last_bfield := now } := by
  simp [do_ppscan, set_channel, ioctl_good env h, bind, Except.bind, pure, Except.pure]

theorem try_add_station_quiet (env : Env) (hm : env.malloc_ok = true) (now : Nat)
    (st : dect_station) (s : cli_info)
    (hq : s.autorec = false ∨ s.mode = MODE_PPSCAN ∨ rfpi_is_ignored s st.RFPI = true) :
    try_add_station env now st s =
      .ok { s with station_list := registry_after env now st s.station_list } := by
  unfold try_add_station registry_after add_station
  cases hf : (try_add_station_loop env now st s.station_list false).2 <;>
    rcases hq with hq | hq | hq <;>
    simp [hf, hm, hq, bind, Except.bind, pure, Except.pure, rfpi_is_ignored, first_seen_record] <;>
    simp_all [rfpi_is_ignored]

theorem try_add_station_pursue (env : Env) (hm : env.malloc_ok = true)
    (hi : ∀ r, env.ioctl_ok r = true) (now : Nat)
    (st : dect_station) (s : cli_info)
    (ha : s.autorec = true) (hmode : s.mode ≠ MODE_PPSCAN)
    (hq : rfpi_is_ignored s st.RFPI = false) :
    try_add_station env now st s =
      .ok { s with station_list := registry_after env now st s.station_list,
                   dev_log := s.dev_log ++ [.COA_IOCTL_MODE .COA_SNIFF_SYNC,
                     .COA_IOCTL_SETRFPI st.RFPI, .COA_IOCTL_CHAN s.channel],
                   last_hop := now, RFPI := st.RFPI, mode := MODE_PPSCAN,
                   autorec_last_bfield := now } := by
  unfold try_add_station registry_after add_station
  cases hf : (try_add_station_loop env now st s.station_list false).2 <;>
    simp_all [bind, Except.bind, pure, Except.pure, rfpi_is_ignored, first_seen_record,
      do_ppscan_good env hi]

theorem loop_no_match (env : Env) (now : Nat) (st : dect_station) (l : List dect_station)
    (h : ∀ p ∈ l, ¬ (p.RFPI = st.RFPI ∧ p.type = st.type)) :
    try_add_station_loop env now st l false = (l, false) := by
  apply Prod.ext
  · rw [loop_fst]
    conv_rhs => rw [← List.map_id l]
    apply List.map_congr_left
    intro p hp
    simp only [id, if_neg (h p hp)]
  · rw [loop_snd]
    simp only [Bool.false_or, List.any_eq_false, decide_eq_true_eq]
    exact h

theorem registry_after_new (env : Env) (now : Nat) (st : dect_station) (l : List dect_station)
    (h : ∀ p ∈ l, ¬ (p.RFPI = st.RFPI ∧ p.type = st.type)) :
    registry_after env now st l = l ++ [first_seen_record now st] := by
  simp [registry_after, loop_no_match env now st l h]

theorem registry_after_last (env : Env) (now : Nat) (st : dect_station) (l : List dect_station)
    (p : dect_station)
    (h : ∀ q ∈ l, ¬ (q.RFPI = st.RFPI ∧ q.type = st.type))
    (hp : p.RFPI = st.RFPI ∧ p.type = st.type) :
    registry_after env now st (l ++ [p]) = l ++ [seen_again env now st p] := by
  have h1 : (try_add_station_loop env now st (l ++ [p]) false).1 = l ++ [seen_again env now st p] := by
    rw [loop_fst, List.map_append]
    congr 1
    · conv_rhs => rw [← List.map_id l]
      apply List.map_congr_left
      intro q hq
      simp only [id, if_neg (h q hq)]
    · simp [hp]
  have h2 : (try_add_station_loop env now st (l ++ [p]) false).2 = true := by
    rw [loop_snd]; simp [hp]
  simp [registry_after, h1, h2]

theorem registry_after_length (env : Env) (now : Nat) (st : dect_station) (l : List dect_station) :
    (registry_after env now st l).length =
      l.length + (if l.any (fun p => decide (p.RFPI = st.RFPI ∧ p.type = st.type)) then 0 else 1) := by
  simp only [registry_after, loop_fst, loop_snd, Bool.false_or, List.length_append,
    List.length_map]
  split <;> simp

theorem observe_more (env : Env) (hm : env.malloc_ok = true) (rfpi : RFPI) (type : Nat)
    (l0 : List dect_station) (hl0 : ∀ q ∈ l0, ¬ (q.RFPI = rfpi ∧ q.type = type))
    (calls : List (Nat × dect_station))
    (hsame : ∀ c ∈ calls, c.2.RFPI = rfpi ∧ c.2.type = type) :
    ∀ (s : cli_info) (p : dect_station), s.autorec = false → s.station_list = l0 ++ [p] →
      p.RFPI = rfpi → p.type = type →
      ∃ s' p', drain (try_add_station env) calls s = .ok s' ∧ s'.station_list = l0 ++ [p'] ∧
        p'.RFPI = rfpi ∧ p'.type = type ∧
        p'.count_seen % env.count_mod = (p.count_seen + calls.length) % env.count_mod ∧
        p'.RSSI % env.rssi_mod =
          (p.RSSI + (calls.map (fun c => c.2.RSSI)).sum) % env.rssi_mod ∧
        (p.count_seen < env.count_mod → p'.count_seen < env.count_mod) ∧
        (p.RSSI < env.rssi_mod → p'.RSSI < env.rssi_mod) := by
  induction calls with
  | nil =>
    intro s p _ hl h1 h2
    exact ⟨s, p, by simp [drain], hl, h1, h2, by simp, by simp, id, id⟩
  | cons c rest ih =>
    intro s p ha hl h1 h2
    obtain ⟨now, st⟩ := c
    have hst := hsame (now, st) (List.mem_cons_self _ _)
    simp only at hst
    have hstep := try_add_station_quiet env hm now st s (Or.inl ha)
    rw [hl, registry_after_last env now st l0 p (by rw [hst.1, hst.2]; exact hl0)
      (by rw [hst.1, hst.2]; exact ⟨h1, h2⟩)] at hstep
    obtain ⟨s', p', hrun, hl', e1, e2, e3, e4, e5, e6⟩ := ih (fun c hc => hsame c (List.mem_cons_of_mem _ hc))
      { s with station_list := l0 ++ [seen_again env now st p] } (seen_again env now st p) ha rfl h1 h2
    have hC : 0 < env.count_mod := Nat.lt_of_lt_of_le (by decide) env.count_mod_ge
    have hR : 0 < env.rssi_mod := Nat.lt_of_lt_of_le (by decide) env.rssi_mod_ge
    refine ⟨s', p', ?_, hl', e1, e2, ?_, ?_, fun _ => e5 (Nat.mod_lt _ hC), fun _ => e6 (Nat.mod_lt _ hR)⟩
    · simp only [drain, hstep]; exact hrun
    · rw [e3]; simp only [seen_again, List.length_cons, Nat.mod_add_mod]; congr 1; omega
    · rw [e4]; simp only [seen_again, List.map_cons, List.sum_cons, Nat.mod_add_mod]
      congr 1; omega

theorem sightings_mod (env : Env) (hm : env.malloc_ok = true) (s : cli_info)
    (rfpi : RFPI) (type : Nat) (calls : List (Nat × dect_station))
    (hauto : s.autorec = false)
    (hnew : ∀ p ∈ s.station_list, ¬ (p.RFPI = rfpi ∧ p.type = type))
    (hne : calls ≠ [])
    (hsame : ∀ c ∈ calls, c.2.RFPI = rfpi ∧ c.2.type = type)
    (hword : ∀ c ∈ calls, c.2.RSSI < env.rssi_mod) :
    ∃ s' p, drain (try_add_station env) calls s = .ok s' ∧
      s'.station_list.filter (fun q => decide (q.RFPI = rfpi ∧ q.type = type)) = [p] ∧
      p.count_seen = calls.length % env.count_mod ∧
      p.RSSI = (calls.map (fun c => c.2.RSSI)).sum % env.rssi_mod := by
  cases calls with
  | nil => exact absurd rfl hne
  | cons c rest =>
    obtain ⟨now, st⟩ := c
    have hst := hsame (now, st) (List.mem_cons_self _ _)
    have hr := hword (now, st) (List.mem_cons_self _ _)
    simp only at hst hr
    have hstep := try_add_station_quiet env hm now st s (Or.inl hauto)
    rw [registry_after_new env now st s.station_list (by rw [hst.1, hst.2]; exact hnew)] at hstep
    obtain ⟨s', p', hrun, hl', e1, e2, e3, e4, e5, e6⟩ := observe_more env hm rfpi type s.station_list hnew
      rest (fun c hc => hsame c (List.mem_cons_of_mem _ hc))
      { s with station_list := s.station_list ++ [first_seen_record now st] }
      (first_seen_record now st) hauto rfl hst.1 hst.2
    have hc : p'.count_seen = (rest.length + 1) % env.count_mod := by
      have := e5 (Nat.lt_of_lt_of_le (by decide : 1 < 256) env.count_mod_ge)
      rw [← Nat.mod_eq_of_lt this, e3]; simp only [first_seen_record]; congr 1; omega
    have hs : p'.RSSI = (st.RSSI + (rest.map (fun c => c.2.RSSI)).sum) % env.rssi_mod := by
      have := e6 (by simpa [first_seen_record] using hr)
      rw [← Nat.mod_eq_of_lt this, e4]; simp only [first_seen_record]
    refine ⟨s', p', ?_, ?_, ?_, ?_⟩
    · simp only [drain, hstep]; exact hrun
    · have hnone : s.station_list.filter (fun q => decide (q.RFPI = rfpi ∧ q.type = type)) = [] := by
        rw [List.filter_eq_nil_iff]
        intro q hq; simpa using hnew q hq
      rw [hl', List.filter_append, hnone]
      simp [e1, e2]
    · simpa using hc
    · simpa using hs

/-- C1 (amended): from a registry that does not hold the pair (RFPI, type), with
autorec off, after `n ≥ 1` calls of `try_add_station` with that pair and strengths
`r1..rn` the registry holds exactly one record for the pair, with `count_seen` the
residue of `n` and `RSSI` the residue of `r1 + ... + rn` modulo the number of
values of the field, whatever the widths of the two fields are; both are exact
whenever `n` and the sum are within the range of their field. -/
theorem C1_sightings_counted (env : Env) (hm : env.malloc_ok = true) (s : cli_info)
    (rfpi : RFPI) (type : Nat) (calls : List (Nat × dect_station))
    (hauto : s.autorec = false)
    (hnew : ∀ p ∈ s.station_list, ¬ (p.RFPI = rfpi ∧ p.type = type))
    (hne : calls ≠ [])
    (hsame : ∀ c ∈ calls, c.2.RFPI = rfpi ∧ c.2.type = type)
    (hword : ∀ c ∈ calls, c.2.RSSI < env.rssi_mod) :
    ∃ s' p, drain (try_add_station env) calls s = .ok s' ∧
      s'.station_list.filter (fun q => decide (q.RFPI = rfpi ∧ q.type = type)) = [p] ∧
      p.count_seen = calls.length % env.count_mod ∧
      p.RSSI = (calls.map (fun c => c.2.RSSI)).sum % env.rssi_mod ∧
      (calls.length < env.count_mod → (calls.map (fun c => c.2.RSSI)).sum < env.rssi_mod →
        p.count_seen = calls.length ∧ p.RSSI = (calls.map (fun c => c.2.RSSI)).sum) := by
  obtain ⟨s', p, hrun, hf, hc, hs⟩ :=
    sightings_mod env hm s rfpi type calls hauto hnew hne hsame hword
  refine ⟨s', p, hrun, hf, hc, hs, ?_⟩
  intro h1 h2
  rw [hc, hs, Nat.mod_eq_of_lt h1, Nat.mod_eq_of_lt h2]
  exact ⟨rfl, rfl⟩

/-- C1, at the scenario input: three sightings with strengths 10, 20, 30 from the
empty registry give one record with count 3 and RSSI sum 60. -/
theorem C1_sightings_counted_witness :
    (Env.good.malloc_ok = true ∧ init.autorec = false ∧
      (∀ p ∈ init.station_list, ¬ (p.RFPI = aabbccddee ∧ p.type = TYPE_FP))) ∧
    ∃ s' p, drain (try_add_station Env.good)
        [(5, ⟨aabbccddee, 1, 10, TYPE_FP, 0, 0, 0⟩), (6, ⟨aabbccddee, 1, 20, TYPE_FP, 0, 0, 0⟩),
         (7, ⟨aabbccddee, 2, 30, TYPE_FP, 0, 0, 0⟩)] init = .ok s' ∧
      s'.station_list.filter (fun q => decide (q.RFPI = aabbccddee ∧ q.type = TYPE_FP)) = [p] ∧
      p.count_seen = 3 ∧ p.RSSI = 60 :=
  ⟨⟨rfl, rfl, by simp [init]⟩, by
    obtain ⟨s', p, h1, h2, _, _, h5⟩ := C1_sightings_counted Env.good rfl init aabbccddee TYPE_FP
      [(5, ⟨aabbccddee, 1, 10, TYPE_FP, 0, 0, 0⟩), (6, ⟨aabbccddee, 1, 20, TYPE_FP, 0, 0, 0⟩),
       (7, ⟨aabbccddee, 2, 30, TYPE_FP, 0, 0, 0⟩)] rfl (by simp [init]) (by simp)
      (by decide) (by decide)
    exact ⟨s', p, h1, h2, h5 (by decide) (by decide)⟩⟩

/-- C1 as stated fails, whatever the width of `count_seen` is: from the state after
`init`, a run of as many sightings of the handset `AA:BB:CC:DD:EE` at strength 255
as the field `count_seen` has values does not end with `count_seen` equal to the
number of sightings (the counter has wrapped to 0). -/
theorem C1_counterexample :
    init.autorec = false ∧
    (∀ p ∈ init.station_list, ¬ (p.RFPI = aabbccddee ∧ p.type = TYPE_PP)) ∧
    ∀ env : Env, env.malloc_ok = true →
      List.replicate env.count_mod ((1 : Nat), (⟨aabbccddee, 0, 255, TYPE_PP, 0, 0, 0⟩ : dect_station))
        ≠ [] ∧
      ¬ ∃ s' p, drain (try_add_station env)
          (List.replicate env.count_mod (1, ⟨aabbccddee, 0, 255, TYPE_PP, 0, 0, 0⟩)) init = .ok s' ∧
        s'.station_list.filter (fun q => decide (q.RFPI = aabbccddee ∧ q.type = TYPE_PP)) = [p] ∧
        p.count_seen =
          (List.replicate env.count_mod
            ((1 : Nat), (⟨aabbccddee, 0, 255, TYPE_PP, 0, 0, 0⟩ : dect_station))).length ∧
        p.RSSI =
          ((List.replicate env.count_mod
            ((1 : Nat), (⟨aabbccddee, 0, 255, TYPE_PP, 0, 0, 0⟩ : dect_station))).map
              (fun c => c.2.RSSI)).sum := by
  refine ⟨rfl, by simp [init], ?_⟩
  intro env hm
  have hC : 0 < env.count_mod := Nat.lt_of_lt_of_le (by decide) env.count_mod_ge
  have hne : List.replicate env.count_mod
      ((1 : Nat), (⟨aabbccddee, 0, 255, TYPE_PP, 0, 0, 0⟩ : dect_station)) ≠ [] := by
    intro h
    have := congrArg List.length h
    simp at this
    omega
  refine ⟨hne, ?_⟩
  rintro ⟨s', p, hrun, hf, hc, -⟩
  obtain ⟨s2, p2, hrun2, hf2, hc2, -⟩ := sightings_mod env hm init aabbccddee TYPE_PP
    (List.replicate env.count_mod (1, ⟨aabbccddee, 0, 255, TYPE_PP, 0, 0, 0⟩)) rfl
    (by simp [init]) hne
    (fun c hc => by rw [List.eq_of_mem_replicate hc]; exact ⟨rfl, rfl⟩)
    (fun c hc => by
      rw [List.eq_of_mem_replicate hc]
      exact Nat.lt_of_lt_of_le (by decide : 255 < 256) env.rssi_mod_ge)
  rw [hrun] at hrun2
  have hs : s' = s2 := by injection hrun2
  subst hs
  rw [hf] at hf2
  have hp : p = p2 := by simpa using hf2
  subst hp
  rw [hc] at hc2
  simp only [List.length_replicate, Nat.mod_self] at hc2
  omega

theorem try_add_station_total (env : Env) (hm : env.malloc_ok = true)
    (hi : ∀ r, env.ioctl_ok r = true) (now : Nat) (st : dect_station) (s : cli_info) :
    ∃ s', try_add_station env now st s = .ok s' ∧
      s'.station_list = registry_after env now st s.station_list := by
  by_cases hq : s.autorec = false ∨ s.mode = MODE_PPSCAN ∨ rfpi_is_ignored s st.RFPI = true
  · exact ⟨_, try_add_station_quiet env hm now st s hq, rfl⟩
  · simp only [not_or, Bool.not_eq_false, Bool.not_eq_true] at hq
    exact ⟨_, try_add_station_pursue env hm hi now st s hq.1 hq.2.1 hq.2.2, rfl⟩

theorem seen_again_pair (env : Env) (now : Nat) (st p : dect_station) :
    (seen_again env now st p).RFPI = p.RFPI ∧ (seen_again env now st p).type = p.type := ⟨rfl, rfl⟩

theorem registry_after_keeps (env : Env) (now : Nat) (st : dect_station) (l : List dect_station)
    (rfpi : RFPI) (type : Nat) (h : ∃ p ∈ l, p.RFPI = rfpi ∧ p.type = type) :
    ∃ p ∈ registry_after env now st l, p.RFPI = rfpi ∧ p.type = type := by
  obtain ⟨p, hp, h1, h2⟩ := h
  refine ⟨if p.RFPI = st.RFPI ∧ p.type = st.type then seen_again env now st p else p, ?_, ?_⟩
  · simp only [registry_after, loop_fst, List.mem_append, List.mem_map]
    exact Or.inl ⟨p, hp, rfl⟩
  · split
    · exact ⟨h1, h2⟩
    · exact ⟨h1, h2⟩

theorem drain_keeps_pair (env : Env) (hm : env.malloc_ok = true)
    (hi : ∀ r, env.ioctl_ok r = true) (rfpi : RFPI) (type : Nat)
    (calls : List (Nat × dect_station)) :
    ∀ s : cli_info, (∃ p ∈ s.station_list, p.RFPI = rfpi ∧ p.type = type) →
      ∃ s', drain (try_add_station env) calls s = .ok s' ∧
        (∃ p ∈ s'.station_list, p.RFPI = rfpi ∧ p.type = type) ∧
        ((∀ c ∈ calls, c.2.RFPI = rfpi ∧ c.2.type = type) →
          s'.station_list.length = s.station_list.length) := by
  induction calls with
  | nil => intro s h; exact ⟨s, rfl, h, fun _ => rfl⟩
  | cons c rest ih =>
    intro s h
    obtain ⟨now, st⟩ := c
    have hlen : (st.RFPI = rfpi ∧ st.type = type) →
        (registry_after env now st s.station_list).length = s.station_list.length := by
      intro hst
      have hany : s.station_list.any
          (fun p => decide (p.RFPI = st.RFPI ∧ p.type = st.type)) = true := by
        rw [hst.1, hst.2]; simpa using h
      rw [registry_after_length, hany]; simp
    have hmem := registry_after_keeps env now st s.station_list rfpi type h
    obtain ⟨s1, hstep, hreg⟩ : ∃ s1, try_add_station env now st s = .ok s1 ∧
        s1.station_list = registry_after env now st s.station_list := by
      by_cases hq : s.autorec = false ∨ s.mode = MODE_PPSCAN ∨ rfpi_is_ignored s st.RFPI = true
      · exact ⟨_, try_add_station_quiet env hm now st s hq, rfl⟩
      · simp only [not_or, Bool.not_eq_false, Bool.not_eq_true] at hq
        exact ⟨_, try_add_station_pursue env hm hi now st s hq.1 hq.2.1 hq.2.2, rfl⟩
    obtain ⟨s', hrun, h1, h2⟩ := ih s1 (by rw [hreg]; exact hmem)
    refine ⟨s', by simp only [drain, hstep]; exact hrun, h1, ?_⟩
    intro hall
    rw [h2 (fun c hc => hall c (List.mem_cons_of_mem _ hc)), hreg]
    exact hlen (hall (now, st) (List.mem_cons_self _ _))

/-- C2: the first `try_add_station` of a pair (RFPI, type) that the registry does not
hold finds nothing (`found` stays 0), so `add_station` runs and the registry grows
by exactly one record; in every state reached by later sightings, a
`try_add_station` of the same pair finds it (`found = 1`) and leaves the number of
records unchanged, and a run of sightings of that pair alone never changes the
number of records. -/
theorem C2_first_new_then_known (env : Env) (hm : env.malloc_ok = true)
    (hi : ∀ r, env.ioctl_ok r = true) (now : Nat) (st : dect_station) (s : cli_info)
    (hnew : ∀ p ∈ s.station_list, ¬ (p.RFPI = st.RFPI ∧ p.type = st.type)) :
    (try_add_station_loop env now st s.station_list false).2 = false ∧
    ∃ s1, try_add_station env now st s = .ok s1 ∧
      s1.station_list = s.station_list ++ [first_seen_record now st] ∧
      s1.station_list.length = s.station_list.length + 1 ∧
      ∀ later : List (Nat × dect_station),
        ∃ s2, drain (try_add_station env) later s1 = .ok s2 ∧
          ((∀ c ∈ later, c.2.RFPI = st.RFPI ∧ c.2.type = st.type) →
            s2.station_list.length = s1.station_list.length) ∧
          ∀ (now2 : Nat) (st2 : dect_station), st2.RFPI = st.RFPI → st2.type = st.type →
            (try_add_station_loop env now2 st2 s2.station_list false).2 = true ∧
            ∃ s3, try_add_station env now2 st2 s2 = .ok s3 ∧
              s3.station_list.length = s2.station_list.length := by
  refine ⟨by rw [loop_no_match env now st _ hnew], ?_⟩
  obtain ⟨s1, hrun, hreg⟩ := try_add_station_total env hm hi now st s
  rw [registry_after_new env now st _ hnew] at hreg
  refine ⟨s1, hrun, hreg, by simp [hreg], ?_⟩
  intro later
  obtain ⟨s2, hrun2, hmem2, hlen2⟩ := drain_keeps_pair env hm hi st.RFPI st.type later s1
    ⟨first_seen_record now st, by simp [hreg], rfl, rfl⟩
  refine ⟨s2, hrun2, hlen2, ?_⟩
  intro now2 st2 e1 e2
  have hany : s2.station_list.any (fun p => decide (p.RFPI = st2.RFPI ∧ p.type = st2.type)) = true := by
    rw [e1, e2]; simpa using hmem2
  refine ⟨by rw [loop_snd, hany]; rfl, ?_⟩
  obtain ⟨s3, hrun3, hreg3⟩ := try_add_station_total env hm hi now2 st2 s2
  exact ⟨s3, hrun3, by rw [hreg3, registry_after_length, hany]; simp⟩

/-- C2, at a concrete input: a first handset sighting from the empty registry. -/
theorem C2_first_new_then_known_witness :
    (Env.good.malloc_ok = true ∧ (∀ r, Env.good.ioctl_ok r = true) ∧
      ∀ p ∈ init.station_list, ¬ (p.RFPI = aabbccddee ∧ p.type = TYPE_PP)) ∧
    (try_add_station_loop Env.good 5 ⟨aabbccddee, 1, 10, TYPE_PP, 0, 0, 0⟩ init.station_list false).2
      = false ∧
    ∃ s1, try_add_station Env.good 5 ⟨aabbccddee, 1, 10, TYPE_PP, 0, 0, 0⟩ init = .ok s1 ∧
      s1.station_list.length = init.station_list.length + 1 :=
  ⟨⟨rfl, fun _ => rfl, by simp [init]⟩,
   (C2_first_new_then_known Env.good rfl (fun _ => rfl) 5 ⟨aabbccddee, 1, 10, TYPE_PP, 0, 0, 0⟩
      init (by simp [init])).1,
   by
    obtain ⟨s1, h1, _, h3, _⟩ := (C2_first_new_then_known Env.good rfl (fun _ => rfl) 5
      ⟨aabbccddee, 1, 10, TYPE_PP, 0, 0, 0⟩ init (by simp [init])).2
    exact ⟨s1, h1, h3⟩⟩

/-! ## Autorec pursuit -/

/-- C3: with autorec on and the mode different from `MODE_PPSCAN`, a
`try_add_station` of an identity that is not in the ignore list (control requests
and `malloc` succeeding) ends in `MODE_PPSCAN` with `cli.RFPI` equal to that
identity; this holds for every sighting, so in particular for a handset identity
that is not yet in the registry. -/
theorem C3_autorec_pursues (env : Env) (hm : env.malloc_ok = true)
    (hi : ∀ r, env.ioctl_ok r = true) (now : Nat) (st : dect_station) (s : cli_info)
    (ha : s.autorec = true) (hmode : s.mode ≠ MODE_PPSCAN)
    (hq : rfpi_is_ignored s st.RFPI = false) :
    ∃ s', try_add_station env now st s = .ok s' ∧ s'.mode = MODE_PPSCAN ∧
      s'.RFPI = st.RFPI :=
  ⟨_, try_add_station_pursue env hm hi now st s ha hmode hq, rfl, rfl⟩

/-- C3, at a concrete input: the first handset sighting while scanning for calls. -/
theorem C3_autorec_pursues_witness :
    (autorec_scanning.autorec = true ∧ autorec_scanning.mode ≠ MODE_PPSCAN ∧
      (∀ p ∈ autorec_scanning.station_list, p.RFPI ≠ aabbccddee) ∧
      rfpi_is_ignored autorec_scanning aabbccddee = false) ∧
    ∃ s', try_add_station Env.good 5 ⟨aabbccddee, 1, 10, TYPE_PP, 0, 0, 0⟩ autorec_scanning
        = .ok s' ∧ s'.mode = MODE_PPSCAN ∧ s'.RFPI = aabbccddee :=
  ⟨⟨rfl, by decide, by simp [autorec_scanning, init], rfl⟩,
   C3_autorec_pursues Env.good rfl (fun _ => rfl) 5 ⟨aabbccddee, 1, 10, TYPE_PP, 0, 0, 0⟩
     autorec_scanning rfl (by decide) rfl⟩

/-- C4: a `try_add_station` of an ignored identity that is new as a handset leaves
the mode, the target identity and the list of control requests as they were, and
the registry gains the record of the sighting; this holds whatever the autorec
flag and the mode are, so in particular with autorec on outside `MODE_PPSCAN`. -/
theorem C4_ignored_not_pursued (env : Env) (hm : env.malloc_ok = true)
    (now : Nat) (st : dect_station) (s : cli_info)
    (hpp : st.type = TYPE_PP)
    (hnew : ∀ p ∈ s.station_list, ¬ (p.RFPI = st.RFPI ∧ p.type = st.type))
    (hq : rfpi_is_ignored s st.RFPI = true) :
    ∃ s', try_add_station env now st s = .ok s' ∧ s'.mode = s.mode ∧ s'.RFPI = s.RFPI ∧
      s'.dev_log = s.dev_log ∧
      s'.station_list = s.station_list ++ [first_seen_record now st] ∧
      ∃ p ∈ s'.station_list, p.RFPI = st.RFPI ∧ p.type = TYPE_PP := by
  refine ⟨_, try_add_station_quiet env hm now st s (Or.inr (Or.inr hq)), rfl, rfl, rfl,
    registry_after_new env now st _ hnew, first_seen_record now st, ?_, rfl, hpp⟩
  simp [registry_after_new env now st _ hnew]

/-- C4, at the scenario input: `AA:BB:CC:DD:EE` is ignored by the operator command
and then seen as a new handset while autorec scans. -/
theorem C4_ignored_not_pursued_witness :
    ((do_ignore_str "AA:BB:CC:DD:EE".toList autorec_scanning).autorec = true ∧
      (do_ignore_str "AA:BB:CC:DD:EE".toList autorec_scanning).mode ≠ MODE_PPSCAN ∧
      rfpi_is_ignored (do_ignore_str "AA:BB:CC:DD:EE".toList autorec_scanning) aabbccddee
        = true) ∧
    ∃ s', try_add_station Env.good 5 ⟨aabbccddee, 1, 10, TYPE_PP, 0, 0, 0⟩
        (do_ignore_str "AA:BB:CC:DD:EE".toList autorec_scanning) = .ok s' ∧
      s'.mode = MODE_CALLSCAN ∧ s'.RFPI = init.RFPI ∧
      ∃ p ∈ s'.station_list, p.RFPI = aabbccddee ∧ p.type = TYPE_PP :=
  ⟨⟨by decide, by decide, by decide⟩, by
    obtain ⟨s', h1, h2, h3, _, _, h6⟩ := C4_ignored_not_pursued Env.good rfl 5
      ⟨aabbccddee, 1, 10, TYPE_PP, 0, 0, 0⟩
      (do_ignore_str "AA:BB:CC:DD:EE".toList autorec_scanning) rfl (by decide) (by decide)
    exact ⟨s', h1, h2, h3, h6⟩⟩

/-! ## Ignore list -/

theorem rfpi_list_present_iff (l : List RFPI) (r : RFPI) :
    rfpi_list_present l r = true ↔ r ∈ l := by
  induction l with
  | nil => simp [rfpi_list_present]
  | cons x rest ih =>
    unfold rfpi_list_present
    by_cases h : r = x <;> simp [h, ih]

theorem rfpi_list_remove_eq_erase (l : List RFPI) (r : RFPI) :
    rfpi_list_remove l r = l.erase r := by
  induction l with
  | nil => simp [rfpi_list_remove]
  | cons x rest ih =>
    unfold rfpi_list_remove
    by_cases h : r = x
    · subst h; simp
    · have h' : ¬ x = r := fun e => h e.symm
      simp [h, ih, List.erase_cons_tail, h']

theorem ignore_toggle_nodup (r : RFPI) (s : cli_info) (h : s.ignored_rfpis.Nodup) :
    (ignore_toggle r s).ignored_rfpis.Nodup := by
  unfold ignore_toggle
  by_cases hp : rfpi_is_ignored s r = true
  · simp only [hp, if_true, rfpi_unignore_rfpi, rfpi_list_remove_eq_erase]
    exact h.erase r
  · simp only [hp, rfpi_ignore_rfpi, rfpi_list_add]
    have : r ∉ s.ignored_rfpis := fun hm => hp ((rfpi_list_present_iff _ _).2 hm)
    exact List.nodup_cons.2 ⟨this, h⟩

theorem do_ignore_str_nodup (x : List Char) (s : cli_info) (h : s.ignored_rfpis.Nodup) :
    (do_ignore_str x s).ignored_rfpis.Nodup := by
  unfold do_ignore_str
  cases parse_rfpi x with
  | none => exact h
  | some r => exact ignore_toggle_nodup r s h

theorem ignore_reachable_nodup (cmds : List (List Char)) :
    ∀ s0 : cli_info, s0.ignored_rfpis.Nodup →
      (cmds.foldl (fun s c => do_ignore_str c s) s0).ignored_rfpis.Nodup := by
  induction cmds with
  | nil => intro s0 h; exact h
  | cons c rest ih => intro s0 h; exact ih _ (do_ignore_str_nodup c s0 h)

theorem ignore_toggle_present (r : RFPI) (s : cli_info) (h : rfpi_is_ignored s r = true) :
    (ignore_toggle r s).ignored_rfpis = s.ignored_rfpis.erase r := by
  simp [ignore_toggle, h, rfpi_unignore_rfpi, rfpi_list_remove_eq_erase]

theorem ignore_toggle_absent (r : RFPI) (s : cli_info) (h : rfpi_is_ignored s r = false) :
    (ignore_toggle r s).ignored_rfpis = r :: s.ignored_rfpis := by
  simp [ignore_toggle, h, rfpi_ignore_rfpi, rfpi_list_add]

theorem ignore_toggle_twice (r y : RFPI) (s : cli_info) (h : s.ignored_rfpis.Nodup) :
    rfpi_is_ignored (ignore_toggle r (ignore_toggle r s)) y = rfpi_is_ignored s y := by
  rw [Bool.eq_iff_iff]
  simp only [rfpi_is_ignored, rfpi_list_present_iff]
  by_cases hp : r ∈ s.ignored_rfpis
  · have h1 : rfpi_is_ignored s r = true := (rfpi_list_present_iff _ _).2 hp
    have e1 := ignore_toggle_present r s h1
    have h2 : rfpi_is_ignored (ignore_toggle r s) r = false := by
      rw [Bool.eq_false_iff]
      intro hc
      have := (rfpi_list_present_iff _ _).1 hc
      rw [e1] at this
      exact ((List.Nodup.mem_erase_iff h).1 this).1 rfl
    rw [ignore_toggle_absent r _ h2, e1, List.mem_cons, List.Nodup.mem_erase_iff h]
    constructor
    · rintro (e | ⟨_, hm⟩)
      · exact e ▸ hp
      · exact hm
    · intro hm
      by_cases e : y = r
      · exact Or.inl e
      · exact Or.inr ⟨e, hm⟩
  · have h1 : rfpi_is_ignored s r = false := by
      rw [Bool.eq_false_iff]; exact fun hc => hp ((rfpi_list_present_iff _ _).1 hc)
    have e1 := ignore_toggle_absent r s h1
    have h2 : rfpi_is_ignored (ignore_toggle r s) r = true := by
      rw [rfpi_is_ignored, rfpi_list_present_iff, e1]; exact List.mem_cons_self _ _
    rw [ignore_toggle_present r _ h2, e1, List.erase_cons_head]

/-- C5: in every state whose ignore list was built from the empty list by `ignore`
commands, toggling an identity `X` twice restores the containment of every
identity `Y`, both for the toggle run on `X` itself and for `do_ignore_str` run
twice on the same argument string. -/
theorem C5_toggle_twice (s0 : cli_info) (h0 : s0.ignored_rfpis = [])
    (cmds : List (List Char)) (X Y : RFPI) (x : List Char) :
    rfpi_is_ignored (ignore_toggle X (ignore_toggle X
        (cmds.foldl (fun s c => do_ignore_str c s) s0))) Y
      = rfpi_is_ignored (cmds.foldl (fun s c => do_ignore_str c s) s0) Y ∧
    rfpi_is_ignored (do_ignore_str x (do_ignore_str x
        (cmds.foldl (fun s c => do_ignore_str c s) s0))) Y
      = rfpi_is_ignored (cmds.foldl (fun s c => do_ignore_str c s) s0) Y := by
  have hnd := ignore_reachable_nodup cmds s0 (by rw [h0]; exact List.nodup_nil)
  refine ⟨ignore_toggle_twice X Y _ hnd, ?_⟩
  unfold do_ignore_str
  cases hx : parse_rfpi x with
  | none => simp [hx]
  | some r => simp only [hx]; exact ignore_toggle_twice r Y _ hnd

/-- C5, at a concrete input: after `ignore 00:01:02:03:04`, toggling
`AA:BB:CC:DD:EE` twice. -/
theorem C5_toggle_twice_witness :
    init.ignored_rfpis = [] ∧
    rfpi_is_ignored (ignore_toggle aabbccddee (ignore_toggle aabbccddee
        (["00:01:02:03:04".toList].foldl (fun s c => do_ignore_str c s) init))) aabbccddee
      = rfpi_is_ignored (["00:01:02:03:04".toList].foldl (fun s c => do_ignore_str c s) init)
          aabbccddee :=
  ⟨rfl, (C5_toggle_twice init rfl ["00:01:02:03:04".toList] aabbccddee aabbccddee []).1⟩

/-! ## Capture records -/


theorem memcpy_length {m : Nat} (dst : List Byte) (off : Nat) (src : Fin m → Byte) (n : Nat) :
    (memcpy dst off src n).length = dst.length := by
  induction n with
  | zero => rfl
  | succ n ih =>
    unfold memcpy
    split <;> simp [ih]

theorem memcpy_getElem? {m : Nat} (dst : List Byte) (off : Nat) (src : Fin m → Byte) (n : Nat)
    (hn : n ≤ m) (j : Nat) (hj : j < dst.length) :
    (memcpy dst off src n)[j]? =
      if h : off ≤ j ∧ j < off + n then some (src ⟨j - off, by omega⟩) else dst[j]? := by
  induction n with
  | zero =>
    simp only [memcpy]
    rw [dif_neg (by omega)]
  | succ n ih =>
    have hn' : n < m := by omega
    unfold memcpy
    simp only [hn', dite_true]
    rw [List.getElem?_set]
    by_cases e : off + n = j
    · subst e
      have : off + n < (memcpy dst off src n).length := by rw [memcpy_length]; exact hj
      simp [this]
    · rw [if_neg e, ih (by omega)]
      by_cases h1 : off ≤ j ∧ j < off + n
      · have h2 : off ≤ j ∧ j < off + (n + 1) := by omega
        simp [h1, h2]
      · have h2 : ¬ (off ≤ j ∧ j < off + (n + 1)) := by omega
        simp [h1, h2]

theorem pcap_packet_length (pkt : sniffed_packet) : (pcap_packet pkt).length = 100 := by
  simp [pcap_packet, memcpy_length]

theorem pcap_packet_getElem? (pkt : sniffed_packet) (i : Nat) (hi : i < 100) :
    (pcap_packet pkt)[i]? = some
      (if i = 12 ∨ i = 13 then 0x23
       else if i = 15 then pkt.channel
       else if i = 17 then pkt.slot
       else if i = 19 then pkt.rssi
       else if h : 20 ≤ i ∧ i < 73 then pkt.data ⟨i - 20, by omega⟩
       else 0) := by
  unfold pcap_packet
  simp only
  rw [memcpy_getElem? _ 20 pkt.data 53 (le_refl _) i (by simpa using hi)]
  by_cases h : 20 ≤ i ∧ i < 20 + 53
  · have h1 : ¬ (i = 12 ∨ i = 13) := by omega
    have h2 : i ≠ 15 := by omega
    have h3 : i ≠ 17 := by omega
    have h4 : i ≠ 19 := by omega
    have h5 : 20 ≤ i ∧ i < 73 := by omega
    simp [h, h1, h2, h3, h4, h5]
  · have h5 : ¬ (20 ≤ i ∧ i < 73) := by omega
    rw [dif_neg h]
    rcases (by omega : i = 12 ∨ i = 13 ∨ i = 14 ∨ i = 15 ∨ i = 16 ∨ i = 17 ∨ i = 18 ∨ i = 19 ∨
      (i < 12 ∨ 73 ≤ i)) with e | e | e | e | e | e | e | e | e
    all_goals first
      | (subst e; rfl)
      | (have h1 : ¬ (i = 12 ∨ i = 13) := by omega
         have h2 : i ≠ 15 := by omega
         have h3 : i ≠ 17 := by omega
         have h4 : i ≠ 19 := by omega
         rw [List.getElem?_set_ne (by omega), List.getElem?_set_ne (by omega),
           List.getElem?_set_ne (by omega), List.getElem?_set_ne (by omega),
           List.getElem?_set_ne (by omega), List.getElem?_set_ne (by omega),
           List.getElem?_set_ne (by omega), List.getElem?_set_ne (by omega),
           List.getElem?_replicate_of_lt hi]
         simp [h1, h2, h3, h4, h5])

theorem got_sync_eq (env : Env) (now : Nat) (s : cli_info) :
    got_sync env now s = { s with
      fname := ⟨now, s.RFPI⟩, pcap := env.pcap_open_dead_ok,
      pcap_d := if env.pcap_dump_open_ok then some ⟨⟨now, s.RFPI⟩, []⟩ else none,
      autorec_last_bfield := now, imaDumping := s.imaDump || s.imaDumping,
      wavDumping := s.wavDump || s.wavDumping,
      audioPlaying := s.audioPlay || s.audioPlaying } := by
  unfold got_sync init_pcap
  cases h1 : s.imaDump <;> cases h2 : s.wavDump <;> cases h3 : s.audioPlay <;>
    simp [h1, h2, h3, openIma, openWav, openAlsa]

theorem ppscan_body_spec (env : Env) (hm : env.malloc_ok = true)
    (hg : env.gettimeofday_ok = true) (now : Nat) (pkt : sniffed_packet) (s : cli_info)
    (hmode : s.mode = MODE_PPSCAN) (hcons : s.pcap = true → s.pcap_d ≠ none)
    (hopen : s.pcap = false → env.pcap_dump_open_ok = true) :
    ∃ d fn t i w a au, ppscan_body env now pkt s = .ok { s with
        packet := pkt, station := ppscan_station pkt s,
        station_list := registry_after env now (ppscan_station pkt s) s.station_list,
        hop := false, pcap := (s.pcap || env.pcap_open_dead_ok), pcap_d := some d, fname := fn,
        autorec_last_bfield := t, imaDumping := i, wavDumping := w, audioPlaying := a,
        audio := au } ∧
      d.records = open_records s ++ [(⟨now, 73, 73⟩, pcap_packet pkt)] ∧
      d.fname = (if s.pcap then (match s.pcap_d with | some d0 => d0.fname | none => ⟨now, s.RFPI⟩)
                 else ⟨now, s.RFPI⟩) ∧
      t = (if s.pcap = false ∨ has_b_field { s with packet := pkt } = true then now
           else s.autorec_last_bfield) := by
  have hq := try_add_station_quiet env hm now (ppscan_station pkt s)
    { s with packet := pkt, station := ppscan_station pkt s } (Or.inr (Or.inl hmode))
  unfold ppscan_body
  simp only [bind, Except.bind, pure, Except.pure]
  simp only [ppscan_station] at hq
  rw [hq]
  simp only [got_sync_eq, has_b_field, ppscan_dump, pcap_dump, hg, bind, Except.bind, pure,
    Except.pure, Bool.not_true, Bool.false_eq_true, if_false, open_records, ppscan_station]
  cases hp : s.pcap
  · simp only [Bool.not_false, if_true, hopen hp, Bool.false_or]
    cases hb : ((pkt.data 5).val &&& 0x0e) != 0x0e
    · simp only [Bool.false_eq_true, if_false]
      split
      · exact ⟨_, _, _, _, _, _, _, rfl, by simp, by simp, by simp⟩
      · exact ⟨_, _, _, _, _, _, _, rfl, by simp, by simp, by simp⟩
    · simp only [if_true]
      split
      · exact ⟨_, _, _, _, _, _, _, rfl, by simp, by simp, by simp⟩
      · exact ⟨_, _, _, _, _, _, _, rfl, by simp, by simp, by simp⟩
  · obtain ⟨d0, hd0⟩ : ∃ d0, s.pcap_d = some d0 := Option.ne_none_iff_exists'.1 (hcons hp)
    simp only [Bool.not_true, Bool.false_eq_true, if_false, hd0, Bool.true_or]
    rcases Bool.eq_false_or_eq_true (((pkt.data 5).val &&& 0x0e) != 0x0e) with hb | hb
    · simp only [hb, if_true]
      split
      · exact ⟨_, _, _, _, _, _, _, rfl, by simp, by simp, by simp⟩
      · exact ⟨_, _, _, _, _, _, _, rfl, by simp, by simp, by simp⟩
    · simp only [hb, Bool.false_eq_true, if_false]
      split
      · exact ⟨_, _, _, _, _, _, _, rfl, by simp, by simp, by simp [hb]⟩
      · exact ⟨_, _, _, _, _, _, _, rfl, by simp, by simp, by simp [hb]⟩

theorem ppscan_body_open_fails (env : Env) (hm : env.malloc_ok = true)
    (hg : env.gettimeofday_ok = true) (now : Nat) (pkt : sniffed_packet) (s : cli_info)
    (hmode : s.mode = MODE_PPSCAN) (hp : s.pcap = false)
    (ho : env.pcap_dump_open_ok = false) :
    ∃ h, ppscan_body env now pkt s = .error h ∧ h.code = 139 ∧
      h.final.autorec_last_bfield = now := by
  have hq := try_add_station_quiet env hm now (ppscan_station pkt s)
    { s with packet := pkt, station := ppscan_station pkt s } (Or.inr (Or.inl hmode))
  unfold ppscan_body
  simp only [bind, Except.bind, pure, Except.pure]
  simp only [ppscan_station] at hq
  rw [hq]
  simp only [got_sync_eq, has_b_field, ppscan_dump, pcap_dump, hg, bind, Except.bind, pure,
    Except.pure, Bool.not_true, Bool.false_eq_true, if_false, hp, ho, Bool.not_false, if_true]
  cases hb : ((pkt.data 5).val &&& 0x0e) != 0x0e
  · exact ⟨_, rfl, rfl, rfl⟩
  · exact ⟨_, rfl, rfl, rfl⟩

theorem captured_getD (pkt : sniffed_packet) (i : Nat) (hi : i < 73) :
    (captured (pcap_packet pkt)).getD i 0 =
      (if i = 12 ∨ i = 13 then 0x23
       else if i = 15 then pkt.channel
       else if i = 17 then pkt.slot
       else if i = 19 then pkt.rssi
       else if h : 20 ≤ i ∧ i < 73 then pkt.data ⟨i - 20, by omega⟩
       else 0) := by
  rw [List.getD_eq_getElem?_getD, captured, List.getElem?_take_of_lt hi,
    pcap_packet_getElem? pkt i (by omega)]
  rfl

theorem pcap_packet_readback (pkt : sniffed_packet) :
    record_channel (pcap_packet pkt) = pkt.channel ∧
    record_slot (pcap_packet pkt) = pkt.slot ∧
    record_rssi (pcap_packet pkt) = pkt.rssi ∧
    record_data (pcap_packet pkt) = pkt.data := by
  refine ⟨?_, ?_, ?_, ?_⟩
  · rw [record_channel, captured_getD pkt 15 (by omega)]; rfl
  · rw [record_slot, captured_getD pkt 17 (by omega)]; rfl
  · rw [record_rssi, captured_getD pkt 19 (by omega)]; rfl
  · funext i
    have hi := i.isLt
    rw [record_data, captured_getD pkt (20 + i.val) (by omega)]
    have h1 : ¬ (20 + i.val = 12 ∨ 20 + i.val = 13) := by omega
    have h2 : 20 + i.val ≠ 15 := by omega
    have h3 : 20 + i.val ≠ 17 := by omega
    have h4 : 20 + i.val ≠ 19 := by omega
    have h5 : 20 ≤ 20 + i.val ∧ 20 + i.val < 73 := by omega
    simp only [h1, h2, h3, h4, h5, if_false, dite_true, and_self]
    congr 1
    apply Fin.ext
    simp

/-- C6: a synchronized frame processed in `MODE_PPSCAN`, whatever its liveness
marker, appends exactly one record to the open capture session; where no session
is open before the frame, `init_pcap` opens one, and with both `pcap_open_dead` and
`pcap_dump_open` returning a handle the session opened by this very frame starts
empty. The record is the 100-byte buffer with bytes 12 and 13 equal to 0x23, byte
15 the channel, byte 17 the slot, byte 19 the signal strength, bytes 20..72 the
payload and every other byte (byte 14 among them) zero, under a header with
`caplen = len = 73`. -/
theorem C6_one_record_per_frame (env : Env) (hm : env.malloc_ok = true)
    (hg : env.gettimeofday_ok = true) (now : Nat) (pkt : sniffed_packet)
    (scans : List (Nat × scan_frame)) (s : cli_info)
    (hmode : s.mode = MODE_PPSCAN) (hcons : s.pcap = true → s.pcap_d ≠ none)
    (hopen : s.pcap = false →
      env.pcap_open_dead_ok = true ∧ env.pcap_dump_open_ok = true) :
    ∃ s' d hdr, process_dect_data env scans [(now, pkt)] s = .ok s' ∧
      s'.pcap = true ∧ s'.pcap_d = some d ∧ s'.closed = s.closed ∧
      d.records = open_records s ++ [(hdr, pcap_packet pkt)] ∧
      hdr.caplen = 73 ∧ hdr.len = 73 ∧
      (pcap_packet pkt).length = 100 ∧
      ∀ (i : Nat) (hi : i < 100), (pcap_packet pkt)[i]? = some
        (if i = 12 ∨ i = 13 then 0x23
         else if i = 15 then pkt.channel
         else if i = 17 then pkt.slot
         else if i = 19 then pkt.rssi
         else if h : 20 ≤ i ∧ i < 73 then pkt.data ⟨i - 20, by omega⟩
         else 0) := by
  obtain ⟨d, fn, t, i, w, a, au, hrun, hrec, -, -⟩ :=
    ppscan_body_spec env hm hg now pkt s hmode hcons (fun h => (hopen h).2)
  have hp : process_dect_data env scans [(now, pkt)] s = ppscan_body env now pkt s := by
    unfold process_dect_data
    rw [if_neg (by rw [hmode]; decide), if_neg (by rw [hmode]; decide), if_pos hmode]
    simp only [drain]
    cases ppscan_body env now pkt s <;> rfl
  rw [hrun] at hp
  have hpc : (s.pcap || env.pcap_open_dead_ok) = true := by
    rcases Bool.eq_false_or_eq_true s.pcap with h | h
    · rw [h]; rfl
    · rw [h, (hopen h).1]; rfl
  exact ⟨_, d, ⟨now, 73, 73⟩, hp, hpc, rfl, rfl, hrec, rfl, rfl, pcap_packet_length pkt,
    fun i hi => pcap_packet_getElem? pkt i hi⟩

/-- C6, at a concrete input: the first frame after `ppscan 00 01 02 03 04`; it
opens the capture session. -/
theorem C6_one_record_per_frame_witness :
    (Env.good.malloc_ok = true ∧ Env.good.gettimeofday_ok = true ∧
      sync_wait.mode = MODE_PPSCAN ∧ (sync_wait.pcap = true → sync_wait.pcap_d ≠ none) ∧
      (sync_wait.pcap = false →
        Env.good.pcap_open_dead_ok = true ∧ Env.good.pcap_dump_open_ok = true)) ∧
    ∃ s' d hdr, process_dect_data Env.good [] [(101, frame_a)] sync_wait = .ok s' ∧
      s'.pcap = true ∧ s'.pcap_d = some d ∧ d.records = [(hdr, pcap_packet frame_a)] ∧
      hdr.caplen = 73 ∧ hdr.len = 73 :=
  ⟨⟨rfl, rfl, rfl, by decide, fun _ => ⟨rfl, rfl⟩⟩, by
    obtain ⟨s', d, hdr, h1, h2, h3, _, h5, h6, h7, _⟩ := C6_one_record_per_frame Env.good rfl rfl
      101 frame_a [] sync_wait rfl (by decide) (fun _ => ⟨rfl, rfl⟩)
    exact ⟨s', d, hdr, h1, h2, h3, h5, h6, h7⟩⟩

/-- C7: the capture record round-trips. Reading byte 15, byte 17, byte 19 and bytes
20..72 of the 73 captured bytes of the record that `process_dect_data` builds
gives back the channel, slot, signal strength and payload of the frame, and two
different frames never give the same record, not even the same captured bytes. -/
theorem C7_record_roundtrip (pkt : sniffed_packet) :
    (record_channel (pcap_packet pkt) = pkt.channel ∧
     record_slot (pcap_packet pkt) = pkt.slot ∧
     record_rssi (pcap_packet pkt) = pkt.rssi ∧
     record_data (pcap_packet pkt) = pkt.data) ∧
    (∀ other : sniffed_packet, captured (pcap_packet other) = captured (pcap_packet pkt) →
      other = pkt) ∧
    (∀ other : sniffed_packet, other ≠ pkt → pcap_packet other ≠ pcap_packet pkt) := by
  have hinj : ∀ other : sniffed_packet,
      captured (pcap_packet other) = captured (pcap_packet pkt) → other = pkt := by
    intro other h
    obtain ⟨a1, a2, a3, a4⟩ := pcap_packet_readback other
    obtain ⟨b1, b2, b3, b4⟩ := pcap_packet_readback pkt
    have e1 : other.channel = pkt.channel := by
      rw [← a1, ← b1]; simp only [record_channel, h]
    have e2 : other.slot = pkt.slot := by
      rw [← a2, ← b2]; simp only [record_slot, h]
    have e3 : other.rssi = pkt.rssi := by
      rw [← a3, ← b3]; simp only [record_rssi, h]
    have e4 : other.data = pkt.data := by
      rw [← a4, ← b4]; unfold record_data; rw [h]
    cases other
    cases pkt
    cases e1
    cases e2
    cases e3
    cases e4
    rfl
  refine ⟨pcap_packet_readback pkt, hinj, ?_⟩
  intro other hne h
  exact hne (hinj other (by rw [h]))

/-! ## Scheduler tick -/

theorem closing_dumps_eq (s : cli_info) :
    closing_dumps s = { s with imaDumping := false, wavDumping := false,
                               audioPlaying := false } := by
  cases s
  simp only [closing_dumps, closeIma, closeWav, closeAlsa]
  split_ifs <;> simp_all

theorem hop_step_eq (env : Env) (hi : ∀ r, env.ioctl_ok r = true) (now : Nat) (s : cli_info) :
    ∃ ch lh log, hop_step env now s = .ok { s with channel := ch, last_hop := lh,
                                                   dev_log := log } := by
  unfold hop_step
  split
  · split
    · simp only [set_channel, ioctl_good env hi, bind, Except.bind, pure, Except.pure]
      exact ⟨_, _, _, rfl⟩
    · exact ⟨s.channel, s.last_hop, s.dev_log, rfl⟩
  · exact ⟨s.channel, s.last_hop, s.dev_log, rfl⟩

theorem autorec_step_idle (env : Env) (now : Nat) (s : cli_info)
    (h : s.autorec = false ∨ s.mode = MODE_CALLSCAN ∨
      ¬ ((now : Int) - (s.autorec_last_bfield : Int) > (s.autorec_timeout : Int))) :
    autorec_step env now s = .ok s := by
  unfold autorec_step
  rcases h with h | h | h
  · simp [h, pure, Except.pure]
  · simp [h, pure, Except.pure]
  · simp [h, pure, Except.pure]

theorem autorec_step_fires (env : Env) (hi : ∀ r, env.ioctl_ok r = true) (now : Nat)
    (s : cli_info) (ha : s.autorec = true) (hmode : s.mode ≠ MODE_CALLSCAN)
    (hto : (now : Int) - (s.autorec_last_bfield : Int) > (s.autorec_timeout : Int))
    (hcons : s.pcap = true → s.pcap_d ≠ none) :
    ∃ d hp cl, autorec_step env now s = .ok { s with
        dev_log := s.dev_log ++ [.COA_IOCTL_MODE .COA_MODE_IDLE,
          .COA_IOCTL_MODE .COA_SNIFF_SCANPP, .COA_IOCTL_CHAN s.channel],
        last_hop := now, mode := MODE_CALLSCAN, pcap := false, pcap_d := d, hop := hp,
        closed := cl, imaDumping := false, wavDumping := false, audioPlaying := false } ∧
      hp = (if s.pcap then true else s.hop) ∧
      (s.pcap = true → d = none ∧ ∃ d0, s.pcap_d = some d0 ∧ cl = s.closed ++ [d0]) ∧
      (s.pcap = false → d = s.pcap_d ∧ cl = s.closed) := by
  unfold autorec_step
  simp only [ha, hto, hmode, if_true, ne_eq, not_false_eq_true, and_self, do_stop_keep_autorec,
    do_callscan, set_channel, ioctl_good env hi, bind, Except.bind, pure, Except.pure,
    closing_dumps_eq, pcap_dump_close]
  cases hp : s.pcap
  · simp only [Bool.false_eq_true, if_false]
    exact ⟨s.pcap_d, s.hop, s.closed, by simp, rfl, by simp, by simp⟩
  · obtain ⟨d0, hd0⟩ : ∃ d0, s.pcap_d = some d0 := Option.ne_none_iff_exists'.1 (hcons hp)
    simp only [if_true, hd0]
    exact ⟨none, true, s.closed ++ [d0], by simp, rfl, by simp, by simp⟩

theorem tick_spec (env : Env) (hi : ∀ r, env.ioctl_ok r = true) (now : Nat) (s : cli_info)
    (hcons : s.pcap = true → s.pcap_d ≠ none) :
    ∃ s', tick env now s = .ok s' ∧
      s'.autorec = s.autorec ∧ s'.autorec_timeout = s.autorec_timeout ∧
      s'.autorec_last_bfield = s.autorec_last_bfield ∧
      (s'.pcap = true → s'.pcap_d ≠ none) ∧
      s'.mode = (if s.autorec = true ∧ s.mode ≠ MODE_CALLSCAN ∧
          (now : Int) - (s.autorec_last_bfield : Int) > (s.autorec_timeout : Int)
        then MODE_CALLSCAN else s.mode) := by
  obtain ⟨ch, lh, log, hh⟩ := hop_step_eq env hi now s
  unfold tick
  simp only [hh, bind, Except.bind]
  by_cases hf : s.autorec = true ∧ s.mode ≠ MODE_CALLSCAN ∧
      (now : Int) - (s.autorec_last_bfield : Int) > (s.autorec_timeout : Int)
  · obtain ⟨d, hp, cl, hrun, -, -, -⟩ := autorec_step_fires env hi now
      { s with channel := ch, last_hop := lh, dev_log := log } hf.1 hf.2.1 hf.2.2 hcons
    rw [hrun]
    exact ⟨_, rfl, rfl, rfl, rfl, by simp, by rw [if_pos hf]⟩
  · rw [autorec_step_idle env now { s with channel := ch, last_hop := lh, dev_log := log } (by
      by_cases h1 : s.autorec = true
      · by_cases h2 : s.mode = MODE_CALLSCAN
        · exact Or.inr (Or.inl h2)
        · exact Or.inr (Or.inr (fun h3 => hf ⟨h1, h2, h3⟩))
      · exact Or.inl (by simpa using h1))]
    exact ⟨_, rfl, rfl, rfl, rfl, hcons, by rw [if_neg hf]⟩

theorem idle_ticks_spec (env : Env) (hi : ∀ r, env.ioctl_ok r = true) (n : Nat) :
    ∀ (t0 : Nat) (s : cli_info), s.autorec = true →
      (s.mode = MODE_PPSCAN ∨ s.mode = MODE_CALLSCAN) →
      (s.pcap = true → s.pcap_d ≠ none) →
      ∃ s', idle_ticks env (List.range' t0 n) s = .ok s' ∧
        s'.mode = (if s.mode = MODE_PPSCAN ∧ 1 ≤ n ∧
            t0 + n - 1 > s.autorec_last_bfield + s.autorec_timeout
          then MODE_CALLSCAN else s.mode) := by
  induction n with
  | zero =>
    intro t0 s _ _ _
    exact ⟨s, rfl, by simp⟩
  | succ n ih =>
    intro t0 s ha hmode hcons
    obtain ⟨s1, hrun, h1, h2, h3, h4, h5⟩ := tick_spec env hi t0 s hcons
    have hne : MODE_PPSCAN ≠ MODE_CALLSCAN := by decide
    have hm1 : s1.mode = MODE_PPSCAN ∨ s1.mode = MODE_CALLSCAN := by
      rw [h5]; split
      · exact Or.inr rfl
      · exact hmode
    obtain ⟨s', hrun', hmode'⟩ := ih (t0 + 1) s1 (by rw [h1]; exact ha) hm1 h4
    refine ⟨s', ?_, ?_⟩
    · simp only [List.range'_succ, idle_ticks, hrun]; exact hrun'
    · rw [hmode', h5, h2, h3]
      have hc : (MODE_CALLSCAN = MODE_PPSCAN) = False := eq_false (by decide)
      rcases hmode with hm | hm
      · simp only [hm, ha, hne, ne_eq, not_false_eq_true, true_and]
        split_ifs <;> first | rfl | (exfalso; omega)
      · simp only [hm, hc, false_and, if_false, ne_eq, not_true_eq_false, and_false]

/-- C8: with autorec on in `MODE_PPSCAN` (control requests succeeding), a tick at
time `now` leaves the mode at `MODE_CALLSCAN` if and only if
`now - autorec_last_bfield` exceeds the idle-timeout, and keeps `MODE_PPSCAN`
otherwise. Hence, for ticks one second apart starting at `t0` with no frame in
between, the mode after `n` ticks is `MODE_CALLSCAN` exactly when the last tick
time exceeds `autorec_last_bfield + T`; when the first tick is not later than
that, all ticks up to `autorec_last_bfield + T` keep `MODE_PPSCAN` and the tick at
`r = autorec_last_bfield + T + 1` returns to `MODE_CALLSCAN`, so the return comes
`r - autorec_last_bfield` after the last refresh, between `T` and `T + 1`. -/
theorem C8_idle_timeout (env : Env) (hi : ∀ r, env.ioctl_ok r = true) (s : cli_info)
    (ha : s.autorec = true) (hmode : s.mode = MODE_PPSCAN)
    (hcons : s.pcap = true → s.pcap_d ≠ none) :
    (∀ now : Nat, ∃ s', tick env now s = .ok s' ∧
      (s'.mode = MODE_CALLSCAN ↔
        (now : Int) - (s.autorec_last_bfield : Int) > (s.autorec_timeout : Int)) ∧
      (s'.mode ≠ MODE_CALLSCAN → s'.mode = MODE_PPSCAN)) ∧
    (∀ t0 n : Nat, ∃ s', idle_ticks env (List.range' t0 n) s = .ok s' ∧
      (s'.mode = MODE_CALLSCAN ↔
        (1 ≤ n ∧ t0 + n - 1 > s.autorec_last_bfield + s.autorec_timeout)) ∧
      (s'.mode ≠ MODE_CALLSCAN → s'.mode = MODE_PPSCAN)) ∧
    (∀ t0 : Nat, t0 ≤ s.autorec_last_bfield + s.autorec_timeout + 1 →
      ∃ r : Nat, s.autorec_timeout ≤ r - s.autorec_last_bfield ∧
        r - s.autorec_last_bfield ≤ s.autorec_timeout + 1 ∧ t0 ≤ r ∧
        (∃ s', idle_ticks env (List.range' t0 (r - t0)) s = .ok s' ∧ s'.mode = MODE_PPSCAN) ∧
        (∃ s', idle_ticks env (List.range' t0 (r - t0 + 1)) s = .ok s' ∧
          s'.mode = MODE_CALLSCAN)) := by
  have hne : MODE_PPSCAN ≠ MODE_CALLSCAN := by decide
  refine ⟨?_, ?_, ?_⟩
  · intro now
    obtain ⟨s', hrun, -, -, -, -, h5⟩ := tick_spec env hi now s hcons
    refine ⟨s', hrun, ?_, ?_⟩
    · rw [h5]; simp only [ha, hmode, hne, ne_eq, not_false_eq_true, true_and]
      split_ifs with h
      · exact ⟨fun _ => h, fun _ => rfl⟩
      · exact ⟨fun e => absurd e hne, fun e => absurd e h⟩
    · rw [h5]; simp only [ha, hmode, hne, ne_eq, not_false_eq_true, true_and]
      split_ifs with h
      · intro e; exact absurd rfl e
      · intro _; rfl
  · intro t0 n
    obtain ⟨s', hrun, h5⟩ := idle_ticks_spec env hi n t0 s ha (Or.inl hmode) hcons
    refine ⟨s', hrun, ?_, ?_⟩
    · rw [h5]; simp only [hmode, true_and]
      split_ifs with h
      · exact ⟨fun _ => h, fun _ => rfl⟩
      · exact ⟨fun e => absurd e hne, fun e => absurd e h⟩
    · rw [h5]; simp only [hmode, true_and]
      split_ifs with h
      · intro e; exact absurd rfl e
      · intro _; rfl
  · intro t0 ht
    refine ⟨s.autorec_last_bfield + s.autorec_timeout + 1, by omega, by omega, ht, ?_, ?_⟩
    · obtain ⟨s', hrun, h5⟩ := idle_ticks_spec env hi
        (s.autorec_last_bfield + s.autorec_timeout + 1 - t0) t0 s ha (Or.inl hmode) hcons
      refine ⟨s', hrun, ?_⟩
      rw [h5, if_neg (by omega)]; exact hmode
    · obtain ⟨s', hrun, h5⟩ := idle_ticks_spec env hi
        (s.autorec_last_bfield + s.autorec_timeout + 1 - t0 + 1) t0 s ha (Or.inl hmode) hcons
      refine ⟨s', hrun, ?_⟩
      rw [h5, if_pos ⟨hmode, by omega, by omega⟩]

/-- C8, at a concrete input: synchronized at time 100 with idle-timeout 10, the
tick at 110 keeps `MODE_PPSCAN` and the tick at 111 returns to `MODE_CALLSCAN`. -/
theorem C8_idle_timeout_witness :
    (pursuit_no_sync.autorec = true ∧ pursuit_no_sync.mode = MODE_PPSCAN ∧
      pursuit_no_sync.autorec_last_bfield = 100 ∧ pursuit_no_sync.autorec_timeout = 10) ∧
    (∃ s', tick Env.good 110 pursuit_no_sync = .ok s' ∧ s'.mode = MODE_PPSCAN) ∧
    (∃ s', tick Env.good 111 pursuit_no_sync = .ok s' ∧ s'.mode = MODE_CALLSCAN) :=
  ⟨⟨rfl, rfl, rfl, rfl⟩, by
    obtain ⟨s', h1, h2, h3⟩ := (C8_idle_timeout Env.good (fun _ => rfl) pursuit_no_sync rfl rfl
      (by decide)).1 110
    exact ⟨s', h1, h3 (fun e => absurd (h2.1 e) (by decide))⟩, by
    obtain ⟨s', h1, h2, _⟩ := (C8_idle_timeout Env.good (fun _ => rfl) pursuit_no_sync rfl rfl
      (by decide)).1 111
    exact ⟨s', h1, h2.2 (by decide)⟩⟩

/-- C9 (amended): with autorec on in `MODE_PPSCAN` and the idle-timeout exceeded
(control requests succeeding), after the autorec step of the tick the mode is
`MODE_CALLSCAN` and no capture session is open; a session that was open has been
closed and then the hop flag is on, whatever it was before; when no session was
open the hop flag is left as it was. -/
theorem C9_timeout_returns (env : Env) (hi : ∀ r, env.ioctl_ok r = true) (now : Nat)
    (s : cli_info) (ha : s.autorec = true) (hmode : s.mode = MODE_PPSCAN)
    (hto : (now : Int) - (s.autorec_last_bfield : Int) > (s.autorec_timeout : Int))
    (hcons : s.pcap = true → s.pcap_d ≠ none) :
    ∃ s', autorec_step env now s = .ok s' ∧ s'.mode = MODE_CALLSCAN ∧ s'.pcap = false ∧
      (s.pcap = true → s'.hop = true ∧ s'.pcap_d = none ∧
        ∃ d0, s.pcap_d = some d0 ∧ s'.closed = s.closed ++ [d0]) ∧
      (s.pcap = false → s'.hop = s.hop ∧ s'.closed = s.closed) := by
  obtain ⟨d, hp, cl, hrun, e1, e2, e3⟩ := autorec_step_fires env hi now s ha
    (by rw [hmode]; decide) hto hcons
  refine ⟨_, hrun, rfl, rfl, ?_, ?_⟩
  · intro h
    obtain ⟨e4, d0, e5, e6⟩ := e2 h
    exact ⟨by simp [e1, h], e4, d0, e5, e6⟩
  · intro h
    exact ⟨by simp [e1, h], (e3 h).2⟩

/-- C9, at a concrete input: a session is open, hopping was suspended by the sync,
the timeout passes. -/
theorem C9_timeout_returns_witness :
    (recording.autorec = true ∧ recording.mode = MODE_PPSCAN ∧ recording.pcap = true ∧
      recording.hop = false) ∧
    ∃ s', autorec_step Env.good 112 recording = .ok s' ∧ s'.mode = MODE_CALLSCAN ∧
      s'.pcap = false ∧ s'.hop = true :=
  ⟨⟨rfl, rfl, rfl, rfl⟩, by
    obtain ⟨s', h1, h2, h3, h4, _⟩ := C9_timeout_returns Env.good (fun _ => rfl) 112 recording
      rfl rfl (by decide) (by decide)
    exact ⟨s', h1, h2, h3, (h4 rfl).1⟩⟩

/-- C9 as stated fails: the operator switches hopping off and autorec on and starts
the call scan; a handset is sighted at time 100 and autorec synchronizes on it; no
frame ever arrives. At time 111 the state has autorec on, `MODE_PPSCAN` and the
timeout of 10 exceeded; the autorec step returns to `MODE_CALLSCAN` with no session
open, but the hop flag is still off. -/
theorem C9_counterexample :
    autorec_pursuit.toOption.map
        (fun s => (s.autorec, s.mode, s.autorec_last_bfield, s.autorec_timeout, s.pcap, s.hop))
      = some (true, MODE_PPSCAN, 100, 10, false, false) ∧
    (111 : Int) - (100 : Int) > (10 : Int) ∧
    (autorec_pursuit >>= autorec_step Env.good 111).toOption.map
        (fun s => (s.mode, s.pcap, s.hop))
      = some (MODE_CALLSCAN, false, false) ∧
    ¬ ((autorec_pursuit >>= autorec_step Env.good 111).toOption.map (fun s => s.hop)
      = some true) := by
  refine ⟨?_, ?_, ?_, ?_⟩ <;> decide

/-! ## Capture session lifecycle -/

/-- C10 fails on the code: after `ppscan`, one synchronized frame and `stop`, the
mode is `MODE_STOP` while `cli.pcap` is still non-NULL and no capture file has
been closed; `quit` in the same place exits with code 0 in such a state; before
the `stop` the session was open in `MODE_PPSCAN`. -/
theorem C10_stop_leaves_session_open :
    (record_then (fun s => .ok s)).toOption.map session_view = some (MODE_PPSCAN, true, 0) ∧
    (record_then (do_stop Env.good)).toOption.map session_view = some (MODE_STOP, true, 0) ∧
    (match record_then (do_quit Env.good) with
     | .ok _ => none
     | .error h => some (h.code, session_view h.final)) = some (0, MODE_STOP, true, 0) := by
  refine ⟨?_, ?_, ?_⟩ <;> decide

/-! ## Channel hopper -/

/-- C11 (amended): with hopping on, the mode one of `MODE_FPSCAN`, `MODE_CALLSCAN`,
`MODE_PPSCAN`, `MODE_JAM`, and `now > last_hop + hop_ch_time` (strictly more than
the interval since the last hop), the hop step (request succeeding) sets the
channel to `(channel + 1) mod 10`, issues that channel-set request and sets
`last_hop` to `now`; with hopping off, in `MODE_STOP`, or with
`now ≤ last_hop + hop_ch_time`, the hop step leaves the state as it is. -/
theorem C11_hop_step (env : Env) (now : Nat) (s : cli_info) :
    (env.ioctl_ok (.COA_IOCTL_CHAN ((s.channel + 1) % 10)) = true → s.hop = true →
      (s.mode = MODE_FPSCAN ∨ s.mode = MODE_CALLSCAN ∨ s.mode = MODE_PPSCAN ∨
        s.mode = MODE_JAM) →
      now > s.last_hop + s.hop_ch_time →
      ∃ s', hop_step env now s = .ok s' ∧ s'.channel = (s.channel + 1) % 10 ∧
        s'.last_hop = now ∧
        s'.dev_log = s.dev_log ++ [.COA_IOCTL_CHAN ((s.channel + 1) % 10)] ∧
        s'.mode = s.mode ∧ s'.hop = s.hop) ∧
    ((s.hop = false ∨ s.mode = MODE_STOP ∨ now ≤ s.last_hop + s.hop_ch_time) →
      hop_step env now s = .ok s) := by
  constructor
  · intro hi hh hm ht
    have hbits : ((s.mode &&& MODE_FPSCAN) != 0 || (s.mode &&& MODE_PPSCAN) != 0 ||
        (s.mode &&& MODE_CALLSCAN) != 0 || (s.mode &&& MODE_JAM) != 0) = true := by
      rcases hm with h | h | h | h <;> rw [h] <;> decide
    unfold hop_step
    simp only [hh, hbits, Bool.and_self, if_true, ht, set_channel, ioctl, hi, bind, Except.bind,
      pure, Except.pure]
    exact ⟨_, rfl, rfl, rfl, rfl, rfl, rfl⟩
  · intro h
    unfold hop_step
    rcases h with h | h | h
    · simp [h, pure, Except.pure]
    · have hbits : ((s.mode &&& MODE_FPSCAN) != 0 || (s.mode &&& MODE_PPSCAN) != 0 ||
          (s.mode &&& MODE_CALLSCAN) != 0 || (s.mode &&& MODE_JAM) != 0) = false := by
        rw [h]; decide
      simp [hbits, pure, Except.pure]
    · have : ¬ now > s.last_hop + s.hop_ch_time := by omega
      simp [this, pure, Except.pure]

/-- C11, at a concrete input: call scan on channel 0 with `last_hop` 0 and hop
interval 1; the hop step at time 2 moves to channel 1. -/
theorem C11_hop_step_witness :
    (Env.good.ioctl_ok (.COA_IOCTL_CHAN ((autorec_scanning.channel + 1) % 10)) = true ∧
      autorec_scanning.hop = true ∧ autorec_scanning.mode = MODE_CALLSCAN ∧
      2 > autorec_scanning.last_hop + autorec_scanning.hop_ch_time) ∧
    ∃ s', hop_step Env.good 2 autorec_scanning = .ok s' ∧ s'.channel = 1 ∧ s'.last_hop = 2 :=
  ⟨⟨rfl, rfl, rfl, by decide⟩, by
    obtain ⟨s', h1, h2, h3, _⟩ := (C11_hop_step Env.good 2 autorec_scanning).1 rfl rfl
      (Or.inr (Or.inl rfl)) (by decide)
    exact ⟨s', h1, h2, h3⟩⟩

/-- C11 as stated fails: `callscan` at time 100 from `init` (hopping on, interval
1, channel 0) sets `last_hop` to 100; at time 101 all three conditions of the claim
hold, `101 - 100 ≥ 1`, yet the hop step leaves channel 0 and `last_hop` 100. -/
theorem C11_counterexample :
    (do_callscan Env.good 100 init).toOption.map
        (fun s => (s.hop, s.mode, s.hop_ch_time, hop_view s))
      = some (true, MODE_CALLSCAN, 1, 0, 100) ∧
    101 - 100 ≥ 1 ∧
    (do_callscan Env.good 100 init >>= hop_step Env.good 101).toOption.map hop_view
      = some (0, 100) ∧
    ¬ ((do_callscan Env.good 100 init >>= hop_step Env.good 101).toOption.map hop_view
      = some ((0 + 1) % 10, 101)) := by
  refine ⟨?_, ?_, ?_, ?_⟩ <;> decide

/-! ## Liveness timestamp -/

theorem last_marked_cons (dflt t : Nat) (pkt : sniffed_packet)
    (rest : List (Nat × sniffed_packet)) :
    last_marked dflt ((t, pkt) :: rest) =
      last_marked (if frame_has_b_field pkt = true then t else dflt) rest := by
  unfold last_marked
  by_cases h : frame_has_b_field pkt = true
  · simp only [List.filter_cons, h, if_true]
    cases hr : rest.filter (fun f => frame_has_b_field f.2) with
    | nil => simp
    | cons a l => rw [List.getLast?_cons_cons, List.getLast?_cons]
  · simp only [List.filter_cons, h, if_false, Bool.false_eq_true]

theorem ppscan_body_fields (env : Env) (hm : env.malloc_ok = true)
    (hg : env.gettimeofday_ok = true) (now : Nat) (pkt : sniffed_packet) (s : cli_info)
    (hmode : s.mode = MODE_PPSCAN) (hcons : s.pcap = true → s.pcap_d ≠ none)
    (hopen : s.pcap = false → env.pcap_dump_open_ok = true) :
    ∃ s' d, ppscan_body env now pkt s = .ok s' ∧
      s'.mode = s.mode ∧ s'.pcap = (s.pcap || env.pcap_open_dead_ok) ∧ s'.pcap_d = some d ∧
      d.records = open_records s ++ [(⟨now, 73, 73⟩, pcap_packet pkt)] ∧
      d.fname = (if s.pcap then (match s.pcap_d with | some d0 => d0.fname | none => ⟨now, s.RFPI⟩)
                 else ⟨now, s.RFPI⟩) ∧
      s'.autorec_last_bfield =
        (if s.pcap = false ∨ frame_has_b_field pkt = true then now
         else s.autorec_last_bfield) ∧
      s'.RFPI = s.RFPI ∧ s'.hop = false ∧ s'.channel = s.channel ∧
      s'.dev_log = s.dev_log ∧ s'.autorec = s.autorec ∧ s'.closed = s.closed ∧
      s'.ignored_rfpis = s.ignored_rfpis ∧ s'.autorec_timeout = s.autorec_timeout ∧
      s'.station_list = registry_after env now (ppscan_station pkt s) s.station_list := by
  obtain ⟨d, fn, tb, i, w, a, au, hrun, hrec, hfn, htb⟩ :=
    ppscan_body_spec env hm hg now pkt s hmode hcons hopen
  exact ⟨_, d, hrun, rfl, rfl, rfl, hrec, hfn, htb, rfl, rfl, rfl, rfl, rfl, rfl, rfl, rfl, rfl⟩

theorem ppscan_drain_open (env : Env) (hm : env.malloc_ok = true)
    (hg : env.gettimeofday_ok = true) (pkts : List (Nat × sniffed_packet)) :
    ∀ (s : cli_info) (d0 : pcap_dumper_t), s.mode = MODE_PPSCAN → s.pcap = true →
      s.pcap_d = some d0 →
      ∃ s' d, drain (ppscan_body env) pkts s = .ok s' ∧ s'.mode = MODE_PPSCAN ∧
        s'.pcap = true ∧ s'.pcap_d = some d ∧ d.fname = d0.fname ∧
        d.records.length = d0.records.length + pkts.length ∧
        s'.RFPI = s.RFPI ∧
        s'.autorec_last_bfield = last_marked s.autorec_last_bfield pkts := by
  induction pkts with
  | nil => intro s d0 h1 h2 h3; exact ⟨s, d0, rfl, h1, h2, h3, rfl, rfl, rfl, rfl⟩
  | cons f rest ih =>
    intro s d0 h1 h2 h3
    obtain ⟨t, pkt⟩ := f
    obtain ⟨s1, d, hrun, f1, f2, f3, f4, f5, f6, f7, -⟩ :=
      ppscan_body_fields env hm hg t pkt s h1 (by rw [h3]; simp)
        (fun h => absurd (h2.symm.trans h) (by decide))
    rw [h2, Bool.true_or] at f2
    obtain ⟨s', d', hrun', e1, e2, e3, e4, e5, e6, e7⟩ := ih s1 d (by rw [f1, h1]) f2 f3
    refine ⟨s', d', by simp only [drain, hrun]; exact hrun', e1, e2, e3, ?_, ?_, ?_, ?_⟩
    · rw [e4, f5]; simp [h2, h3]
    · rw [e5, f4]; simp [open_records, h2, h3]; omega
    · rw [e6, f7]
    · rw [e7, last_marked_cons, f6]
      simp only [h2, Bool.true_eq_false, false_or]

/-- C12: a synchronized frame processed in `MODE_PPSCAN` at time `t` sets
`autorec_last_bfield` to `t` if the frame carries the liveness marker or if no
capture session was open before the frame, and leaves it unchanged otherwise
(where the frame has to open the session, `pcap_dump_open` is taken to return a
dumper, so that the frame is processed to its end); hence a run of frames on an
open session appends one record per frame and leaves `autorec_last_bfield` at the
time of the last marker-bearing frame of the run (unchanged when no frame of the
run carries the marker). -/
theorem C12_last_bfield (env : Env) (hm : env.malloc_ok = true)
    (hg : env.gettimeofday_ok = true) (scans : List (Nat × scan_frame)) (s : cli_info)
    (hmode : s.mode = MODE_PPSCAN) (hcons : s.pcap = true → s.pcap_d ≠ none)
    (hopen : s.pcap = false → env.pcap_dump_open_ok = true) :
    (∀ (t : Nat) (pkt : sniffed_packet),
      ∃ s', process_dect_data env scans [(t, pkt)] s = .ok s' ∧
        s'.autorec_last_bfield =
          (if frame_has_b_field pkt = true ∨ s.pcap = false then t
           else s.autorec_last_bfield)) ∧
    (s.pcap = true → ∀ pkts : List (Nat × sniffed_packet),
      ∃ s', process_dect_data env scans pkts s = .ok s' ∧
        (open_records s').length = (open_records s).length + pkts.length ∧
        s'.autorec_last_bfield = last_marked s.autorec_last_bfield pkts) := by
  have hpd : ∀ pkts, process_dect_data env scans pkts s = drain (ppscan_body env) pkts s := by
    intro pkts
    unfold process_dect_data
    rw [if_neg (by rw [hmode]; decide), if_neg (by rw [hmode]; decide), if_pos hmode]
  constructor
  · intro t pkt
    obtain ⟨s1, d, hrun, -, -, -, -, -, f6, -⟩ :=
      ppscan_body_fields env hm hg t pkt s hmode hcons hopen
    refine ⟨s1, by rw [hpd]; simp only [drain, hrun], ?_⟩
    rw [f6]
    by_cases h1 : s.pcap = false <;> by_cases h2 : frame_has_b_field pkt = true <;>
      simp [h1, h2]
  · intro hp pkts
    obtain ⟨d0, hd0⟩ : ∃ d0, s.pcap_d = some d0 := Option.ne_none_iff_exists'.1 (hcons hp)
    obtain ⟨s', d, hrun, e1, e2, e3, e4, e5, e6, e7⟩ :=
      ppscan_drain_open env hm hg pkts s d0 hmode hp hd0
    refine ⟨s', by rw [hpd]; exact hrun, ?_, e7⟩
    simp [open_records, e2, e3, hp, hd0, e5]

/-- C12, at the scenario input: a session is open, five frames arrive at times 102
to 106, those at 103 and 105 carry the marker; the file gains five records and
`autorec_last_bfield` ends at 105. And at the first frame after
`ppscan 00 01 02 03 04`: it carries no marker and opens the session, and
`autorec_last_bfield` becomes its time 101. -/
theorem C12_last_bfield_witness :
    ((Env.good.malloc_ok = true ∧ Env.good.gettimeofday_ok = true ∧
      recording.mode = MODE_PPSCAN ∧ recording.pcap = true ∧
      (recording.pcap = true → recording.pcap_d ≠ none) ∧
      (recording.pcap = false → Env.good.pcap_dump_open_ok = true)) ∧
     ∃ s', process_dect_data Env.good []
        [(102, frame_b), (103, frame_a), (104, frame_b), (105, frame_a), (106, frame_b)]
        recording = .ok s' ∧
      (open_records s').length = (open_records recording).length + 5 ∧
      s'.autorec_last_bfield = 105) ∧
    ((sync_wait.mode = MODE_PPSCAN ∧ sync_wait.pcap = false ∧
      (sync_wait.pcap = true → sync_wait.pcap_d ≠ none) ∧
      (sync_wait.pcap = false → Env.good.pcap_dump_open_ok = true) ∧
      frame_has_b_field frame_b = false) ∧
     ∃ s', process_dect_data Env.good [] [(101, frame_b)] sync_wait = .ok s' ∧
      s'.autorec_last_bfield = 101) :=
  ⟨⟨⟨rfl, rfl, rfl, rfl, by decide, fun _ => rfl⟩, by
    obtain ⟨s', h1, h2, h3⟩ := (C12_last_bfield Env.good rfl rfl [] recording rfl
      (by decide) (fun _ => rfl)).2 rfl
      [(102, frame_b), (103, frame_a), (104, frame_b), (105, frame_a), (106, frame_b)]
    exact ⟨s', h1, h2, by rw [h3]; decide⟩⟩,
   ⟨⟨rfl, rfl, by decide, fun _ => rfl, by decide⟩, by
    obtain ⟨s', h1, h2⟩ := (C12_last_bfield Env.good rfl rfl [] sync_wait rfl
      (by decide) (fun _ => rfl)).1 101 frame_b
    exact ⟨s', h1, by rw [h2]; decide⟩⟩⟩

/-! ## Mode transitions -/

/-- C15: mode transitions are total (control requests succeeding). From each of the
five modes `do_stop` ends in `MODE_STOP`; from `MODE_STOP`, as from any other
mode, `do_fpscan`, `do_callscan` and `do_ppscan id` end in `MODE_FPSCAN`,
`MODE_CALLSCAN` and `MODE_PPSCAN`; each of the four leaves the current channel as it is (the scan and
sync transitions issue it as channel-set request), `do_fpscan` clears the autorec
flag and `do_ppscan` records `id` as the target identity. -/
theorem C15_mode_transitions (env : Env) (hi : ∀ r, env.ioctl_ok r = true) (now : Nat)
    (id : RFPI) (s : cli_info) :
    ((s.mode = MODE_STOP ∨ s.mode = MODE_FPSCAN ∨ s.mode = MODE_PPSCAN ∨
        s.mode = MODE_CALLSCAN ∨ s.mode = MODE_JAM) →
      ∃ s', do_stop env s = .ok s' ∧ s'.mode = MODE_STOP ∧ s'.channel = s.channel) ∧
    ((∃ s', do_fpscan env now s = .ok s' ∧ s'.mode = MODE_FPSCAN ∧
        s'.channel = s.channel ∧ s'.autorec = false ∧
        s'.dev_log = s.dev_log ++ [.COA_IOCTL_MODE .COA_SNIFF_SCANFP,
          .COA_IOCTL_CHAN s.channel]) ∧
      (∃ s', do_callscan env now s = .ok s' ∧ s'.mode = MODE_CALLSCAN ∧
        s'.channel = s.channel ∧ s'.autorec = s.autorec ∧
        s'.dev_log = s.dev_log ++ [.COA_IOCTL_MODE .COA_SNIFF_SCANPP,
          .COA_IOCTL_CHAN s.channel]) ∧
      (∃ s', do_ppscan env now id s = .ok s' ∧ s'.mode = MODE_PPSCAN ∧
        s'.channel = s.channel ∧ s'.RFPI = id ∧
        s'.dev_log = s.dev_log ++ [.COA_IOCTL_MODE .COA_SNIFF_SYNC,
          .COA_IOCTL_SETRFPI id, .COA_IOCTL_CHAN s.channel])) := by
  refine ⟨?_, ?_⟩
  · intro hm
    unfold do_stop
    by_cases hb : (s.mode &&& MODE_STOP) = 0
    · simp only [hb, if_true, do_stop_keep_autorec, ioctl_good env hi, bind, Except.bind, pure,
        Except.pure, closing_dumps_eq]
      exact ⟨_, rfl, rfl, rfl⟩
    · have hs : s.mode = MODE_STOP := by
        rcases hm with h | h | h | h | h
        · exact h
        all_goals (exfalso; apply hb; rw [h]; decide)
      simp only [hb, if_false, pure, Except.pure, bind, Except.bind, closing_dumps_eq]
      exact ⟨_, rfl, hs, rfl⟩
  · refine ⟨?_, ?_, ?_⟩
    · simp only [do_fpscan, set_channel, ioctl_good env hi, bind, Except.bind, pure, Except.pure]
      exact ⟨_, rfl, rfl, rfl, rfl, by simp⟩
    · simp only [do_callscan, set_channel, ioctl_good env hi, bind, Except.bind, pure,
        Except.pure]
      exact ⟨_, rfl, rfl, rfl, rfl, by simp⟩
    · rw [do_ppscan_good env hi]
      exact ⟨_, rfl, rfl, rfl, rfl, rfl⟩

/-- C15, at a concrete input: `do_stop` while synchronized, and the three
transitions from the stopped state after `init`. -/
theorem C15_mode_transitions_witness :
    (sync_wait.mode = MODE_PPSCAN ∧ init.mode = MODE_STOP) ∧
    (∃ s', do_stop Env.good sync_wait = .ok s' ∧ s'.mode = MODE_STOP) ∧
    (∃ s', do_fpscan Env.good 100 init = .ok s' ∧ s'.mode = MODE_FPSCAN) ∧
    (∃ s', do_callscan Env.good 100 init = .ok s' ∧ s'.mode = MODE_CALLSCAN) ∧
    (∃ s', do_ppscan Env.good 100 aabbccddee init = .ok s' ∧ s'.mode = MODE_PPSCAN ∧
      s'.RFPI = aabbccddee) :=
  ⟨⟨rfl, rfl⟩, by
    obtain ⟨s', h1, h2, _⟩ := (C15_mode_transitions Env.good (fun _ => rfl) 100 aabbccddee
      sync_wait).1 (Or.inr (Or.inr (Or.inl rfl)))
    exact ⟨s', h1, h2⟩, by
    obtain ⟨⟨s', h1, h2, _⟩, _⟩ := (C15_mode_transitions Env.good (fun _ => rfl) 100 aabbccddee
      init).2
    exact ⟨s', h1, h2⟩, by
    obtain ⟨_, ⟨s', h1, h2, _⟩, _⟩ := (C15_mode_transitions Env.good (fun _ => rfl) 100
      aabbccddee init).2
    exact ⟨s', h1, h2⟩, by
    obtain ⟨_, _, ⟨s', h1, h2, _, h4, _⟩⟩ := (C15_mode_transitions Env.good (fun _ => rfl) 100
      aabbccddee init).2
    exact ⟨s', h1, h2, h4⟩⟩

/-! ## Sightings of a registered station -/

theorem try_add_station_known (env : Env) (hi : ∀ r, env.ioctl_ok r = true) (now : Nat)
    (st : dect_station) (s : cli_info)
    (hp : ∃ p ∈ s.station_list, p.RFPI = st.RFPI ∧ p.type = st.type) :
    ∃ s', try_add_station env now st s = .ok s' ∧
      s'.station_list = s.station_list.map (fun p =>
        if p.RFPI = st.RFPI ∧ p.type = st.type then seen_again env now st p else p) := by
  have hf : (try_add_station_loop env now st s.station_list false).2 = true := by
    rw [loop_snd]; simpa using hp
  unfold try_add_station
  simp only [hf, Bool.not_true, Bool.false_eq_true, if_false, bind, Except.bind, pure,
    Except.pure, rfpi_is_ignored, do_ppscan_good env hi, loop_fst]
  split
  · split
    · exact ⟨_, rfl, rfl⟩
    · exact ⟨_, rfl, rfl⟩
  · exact ⟨_, rfl, rfl⟩

/-- C18: a `try_add_station` of a pair (RFPI, type) that the registry holds updates
the record of the pair in place: its channel becomes the candidate's channel, its
`last_seen` becomes `now`, its count and RSSI sum advance, its `first_seen`,
identity and type stay, and every other record and the order of the records are
unchanged. So three sightings of the base station `AA:BB:CC:DD:EE` on channels 1,
1, 2 with strengths 10, 20, 30 leave one record of kind FP with channel 2, count 3
and RSSI sum 60, which is 3 times the average 20. -/
theorem C18_update_in_place (env : Env) (hi : ∀ r, env.ioctl_ok r = true) (now : Nat)
    (st : dect_station) (s : cli_info)
    (hp : ∃ p ∈ s.station_list, p.RFPI = st.RFPI ∧ p.type = st.type) :
    (∃ s', try_add_station env now st s = .ok s' ∧
      s'.station_list = s.station_list.map (fun p =>
        if p.RFPI = st.RFPI ∧ p.type = st.type then
          { p with channel := st.channel, count_seen := (p.count_seen + 1) % env.count_mod,
                   last_seen := now, RSSI := (p.RSSI + st.RSSI) % env.rssi_mod }
        else p)) ∧
    (drain (try_add_station Env.good)
        [(5, ⟨aabbccddee, 1, 10, TYPE_FP, 0, 0, 0⟩), (6, ⟨aabbccddee, 1, 20, TYPE_FP, 0, 0, 0⟩),
         (7, ⟨aabbccddee, 2, 30, TYPE_FP, 0, 0, 0⟩)] init).toOption.map
        (fun s => s.station_list)
      = some [⟨aabbccddee, 2, 60, TYPE_FP, 5, 7, 3⟩] ∧ 60 = 20 * 3 :=
  ⟨try_add_station_known env hi now st s hp, by decide, by decide⟩

/-- C18, at a concrete input: the second sighting of the scenario. -/
theorem C18_update_in_place_witness :
    (∃ p ∈ [(⟨aabbccddee, 1, 10, TYPE_FP, 5, 5, 1⟩ : dect_station)],
      p.RFPI = aabbccddee ∧ p.type = TYPE_FP) ∧
    ∃ s', try_add_station Env.good 6 ⟨aabbccddee, 2, 20, TYPE_FP, 0, 0, 0⟩
        { init with station_list := [⟨aabbccddee, 1, 10, TYPE_FP, 5, 5, 1⟩] } = .ok s' ∧
      s'.station_list = [⟨aabbccddee, 2, 30, TYPE_FP, 5, 6, 2⟩] :=
  ⟨⟨_, List.mem_singleton.2 rfl, rfl, rfl⟩, by
    obtain ⟨s', h1, h2⟩ := (C18_update_in_place Env.good (fun _ => rfl) 6
      ⟨aabbccddee, 2, 20, TYPE_FP, 0, 0, 0⟩
      { init with station_list := [⟨aabbccddee, 1, 10, TYPE_FP, 5, 5, 1⟩] }
      ⟨_, List.mem_singleton.2 rfl, rfl, rfl⟩).1
    exact ⟨s', h1, by rw [h2]; decide⟩⟩

/-! ## Scan frames under autorec -/

theorem registry_after_has (env : Env) (now : Nat) (st : dect_station) (l : List dect_station) :
    ∃ p ∈ registry_after env now st l, p.RFPI = st.RFPI ∧ p.type = st.type := by
  by_cases h : ∃ p ∈ l, p.RFPI = st.RFPI ∧ p.type = st.type
  · exact registry_after_keeps env now st l st.RFPI st.type h
  · have h' : ∀ p ∈ l, ¬ (p.RFPI = st.RFPI ∧ p.type = st.type) := by
      intro p hp hc; exact h ⟨p, hp, hc⟩
    rw [registry_after_new env now st l h']
    exact ⟨first_seen_record now st, by simp, rfl, rfl⟩

theorem scan_body_fields (env : Env) (hm : env.malloc_ok = true)
    (hi : ∀ r, env.ioctl_ok r = true) (type now : Nat) (f : scan_frame) (s : cli_info) :
    ∃ s', scan_body env type now f s = .ok s' ∧
      s'.station_list = registry_after env now (scan_station env type f s) s.station_list ∧
      s'.ignored_rfpis = s.ignored_rfpis ∧ s'.autorec = s.autorec ∧
      s'.channel = s.channel ∧ s'.pcap = s.pcap ∧ s'.pcap_d = s.pcap_d ∧
      s'.closed = s.closed ∧ s'.autorec_timeout = s.autorec_timeout ∧
      ((s.autorec = true ∧ s.mode ≠ MODE_PPSCAN ∧ rfpi_is_ignored s f.RFPI = false) →
        s'.mode = MODE_PPSCAN ∧ s'.RFPI = f.RFPI ∧
        s'.dev_log = s.dev_log ++ sync_requests f.RFPI s.channel) ∧
      (¬ (s.autorec = true ∧ s.mode ≠ MODE_PPSCAN ∧ rfpi_is_ignored s f.RFPI = false) →
        s'.mode = s.mode ∧ s'.RFPI = s.RFPI ∧ s'.dev_log = s.dev_log ∧
        s'.last_hop = s.last_hop ∧ s'.autorec_last_bfield = s.autorec_last_bfield ∧
        s'.hop = s.hop) := by
  unfold scan_body
  by_cases hq : s.autorec = true ∧ s.mode ≠ MODE_PPSCAN ∧ rfpi_is_ignored s f.RFPI = false
  · have h := try_add_station_pursue env hm hi now (scan_station env type f s)
      { s with station := scan_station env type f s } hq.1 hq.2.1 hq.2.2
    simp only [scan_station] at h
    simp only [h]
    exact ⟨_, rfl, rfl, rfl, rfl, rfl, rfl, rfl, rfl, rfl, fun _ => ⟨rfl, rfl, rfl⟩,
      fun hn => absurd hq hn⟩
  · have h := try_add_station_quiet env hm now (scan_station env type f s)
      { s with station := scan_station env type f s } (by
        by_cases h1 : s.autorec = true
        · by_cases h2 : s.mode = MODE_PPSCAN
          · exact Or.inr (Or.inl h2)
          · refine Or.inr (Or.inr ?_)
            by_contra h3
            exact hq ⟨h1, h2, by simpa using h3⟩
        · exact Or.inl (by simpa using h1))
    simp only [scan_station] at h
    simp only [h]
    exact ⟨_, rfl, rfl, rfl, rfl, rfl, rfl, rfl, rfl, rfl, fun hy => absurd hy hq,
      fun _ => ⟨rfl, rfl, rfl, rfl, rfl, rfl⟩⟩

theorem scan_drain_spec (env : Env) (hm : env.malloc_ok = true)
    (hi : ∀ r, env.ioctl_ok r = true) (type : Nat) (scans : List (Nat × scan_frame)) :
    ∀ s : cli_info, ∃ s', drain (scan_body env type) scans s = .ok s' ∧
      s'.ignored_rfpis = s.ignored_rfpis ∧ s'.autorec = s.autorec ∧
      (∀ f ∈ scans, ∃ p ∈ s'.station_list, p.RFPI = f.2.RFPI ∧ p.type = type) ∧
      (∀ (rfpi : RFPI) (ty : Nat), (∃ p ∈ s.station_list, p.RFPI = rfpi ∧ p.type = ty) →
        ∃ p ∈ s'.station_list, p.RFPI = rfpi ∧ p.type = ty) ∧
      (match first_pursued s scans with
       | some f => s'.mode = MODE_PPSCAN ∧ s'.RFPI = f.2.RFPI ∧
           s'.dev_log = s.dev_log ++ sync_requests f.2.RFPI s.channel
       | none => s'.mode = s.mode ∧ s'.RFPI = s.RFPI ∧ s'.dev_log = s.dev_log) := by
  induction scans with
  | nil =>
    intro s
    have hfp : first_pursued s [] = none := by simp [first_pursued]
    refine ⟨s, rfl, rfl, rfl, by simp, fun _ _ h => h, ?_⟩
    rw [hfp]
    exact ⟨rfl, rfl, rfl⟩
  | cons f rest ih =>
    intro s
    obtain ⟨now, fr⟩ := f
    obtain ⟨s1, hrun, g1, g2, g3, g4, -, -, -, -, g9, g10⟩ :=
      scan_body_fields env hm hi type now fr s
    obtain ⟨s', hrun', e1, e2, e3, e4, e5⟩ := ih s1
    refine ⟨s', by simp only [drain, hrun]; exact hrun', by rw [e1, g2], by rw [e2, g3], ?_, ?_, ?_⟩
    · intro f hf
      rcases List.mem_cons.1 hf with h | h
      · subst h
        apply e4
        rw [g1]
        exact registry_after_has env now (scan_station env type fr s) s.station_list
      · exact e3 f h
    · intro rfpi ty hp
      apply e4
      rw [g1]
      exact registry_after_keeps env now _ _ rfpi ty hp
    · by_cases hq : s.autorec = true ∧ s.mode ≠ MODE_PPSCAN ∧ rfpi_is_ignored s fr.RFPI = false
      · obtain ⟨m1, m2, m3⟩ := g9 hq
        have hfp : first_pursued s ((now, fr) :: rest) = some (now, fr) := by
          have := hq.2.2
          simp only [rfpi_is_ignored] at this
          simp [first_pursued, hq.1, hq.2.1, this]
        have hfp1 : first_pursued s1 rest = none := by
          simp [first_pursued, m1]
        rw [hfp]; rw [hfp1] at e5
        simp only at e5 ⊢
        exact ⟨by rw [e5.1, m1], by rw [e5.2.1, m2], by rw [e5.2.2, m3]⟩
      · obtain ⟨m1, m2, m3, -⟩ := g10 hq
        have hfp : first_pursued s ((now, fr) :: rest) = first_pursued s1 rest := by
          unfold first_pursued
          rw [m1, g2, g3]
          by_cases hc : s.autorec = true ∧ s.mode ≠ MODE_PPSCAN
          · have hig : rfpi_list_present s.ignored_rfpis fr.RFPI = true := by
              by_contra hx
              exact hq ⟨hc.1, hc.2, by simpa [rfpi_is_ignored] using hx⟩
            simp [hc, hig]
          · simp [hc]
        rw [hfp]
        rw [m1, m2, m3, g4] at e5
        exact e5

/-- C20: a drain of scan frames by one `process_dect_data` call in `MODE_FPSCAN` or
`MODE_CALLSCAN` with autorec on (requests and `malloc` succeeding) records every
frame of the list in the registry and leaves the ignore list as it was. If some
frame's identity is not ignored, the mode afterwards is `MODE_PPSCAN`, the target
identity is that of the first such frame and the drain issued the control requests
of exactly one `do_ppscan`, for that identity; if every frame is ignored, mode,
target and the list of control requests are unchanged. -/
theorem C20_first_qualifying_wins (env : Env) (hm : env.malloc_ok = true)
    (hi : ∀ r, env.ioctl_ok r = true) (scans : List (Nat × scan_frame))
    (pkts : List (Nat × sniffed_packet)) (s : cli_info)
    (ha : s.autorec = true) (hmode : s.mode = MODE_FPSCAN ∨ s.mode = MODE_CALLSCAN) :
    ∃ s', process_dect_data env scans pkts s = .ok s' ∧
      s'.ignored_rfpis = s.ignored_rfpis ∧
      (∀ f ∈ scans, ∃ p ∈ s'.station_list, p.RFPI = f.2.RFPI ∧
        p.type = (if s.mode = MODE_FPSCAN then TYPE_FP else TYPE_PP)) ∧
      (match scans.find? (fun f => !rfpi_is_ignored s f.2.RFPI) with
       | some f => s'.mode = MODE_PPSCAN ∧ s'.RFPI = f.2.RFPI ∧
           s'.dev_log = s.dev_log ++ [.COA_IOCTL_MODE .COA_SNIFF_SYNC,
             .COA_IOCTL_SETRFPI f.2.RFPI, .COA_IOCTL_CHAN s.channel]
       | none => s'.mode = s.mode ∧ s'.RFPI = s.RFPI ∧ s'.dev_log = s.dev_log) := by
  have hne : s.mode ≠ MODE_PPSCAN := by
    rcases hmode with h | h <;> rw [h] <;> decide
  have hfp : first_pursued s scans = scans.find? (fun f => !rfpi_is_ignored s f.2.RFPI) := by
    simp [first_pursued, ha, hne, rfpi_is_ignored]
  rcases hmode with h | h
  · obtain ⟨s', hrun, e1, -, e3, -, e5⟩ := scan_drain_spec env hm hi TYPE_FP scans s
    refine ⟨s', ?_, e1, by simpa [h] using e3, ?_⟩
    · unfold process_dect_data; rw [if_pos h]; exact hrun
    · rw [← hfp]; exact e5
  · obtain ⟨s', hrun, e1, -, e3, -, e5⟩ := scan_drain_spec env hm hi TYPE_PP scans s
    have hnf : s.mode ≠ MODE_FPSCAN := by rw [h]; decide
    refine ⟨s', ?_, e1, by simpa [hnf] using e3, ?_⟩
    · unfold process_dect_data; rw [if_neg hnf, if_pos h]; exact hrun
    · rw [← hfp]; exact e5

/-- C20, at a concrete input: autorec scans for calls with `AA:BB:CC:DD:EE`
ignored; of the three frames drained the second is the first that is not ignored,
and the drain ends synchronized on it. -/
theorem C20_first_qualifying_wins_witness :
    ((ignore_toggle aabbccddee autorec_scanning).autorec = true ∧
      (ignore_toggle aabbccddee autorec_scanning).mode = MODE_CALLSCAN) ∧
    ∃ s', process_dect_data Env.good three_scans [] (ignore_toggle aabbccddee autorec_scanning)
        = .ok s' ∧ s'.mode = MODE_PPSCAN ∧ s'.RFPI = ⟨0, 1, 2, 3, 4⟩ :=
  ⟨⟨rfl, rfl⟩, by
    obtain ⟨s', h1, _, _, h4⟩ := C20_first_qualifying_wins Env.good rfl (fun _ => rfl)
      three_scans [] (ignore_toggle aabbccddee autorec_scanning) rfl (Or.inr rfl)
    have hf : three_scans.find?
        (fun f => !rfpi_is_ignored (ignore_toggle aabbccddee autorec_scanning) f.2.RFPI)
        = some (2, ⟨1, 20, ⟨0, 1, 2, 3, 4⟩⟩) := by decide
    rw [hf] at h4
    exact ⟨s', h1, h4.1, h4.2.1⟩⟩



/-! ## Invariants of the reachable states -/

theorem Inv_next {s s' : cli_info} (h : Inv s) (hc : s'.channel ≤ 9)
    (hl : ∃ l, s'.dev_log = s.dev_log ++ l ∧ ∀ r ∈ l, chan_in_range r = true)
    (hp : s'.pcap = true → s'.pcap_d ≠ none) : Inv s' := by
  obtain ⟨l, e, hl⟩ := hl
  refine ⟨hc, ?_, hp⟩
  intro r hr
  rw [e] at hr
  rcases List.mem_append.1 hr with h1 | h1
  · exact h.2.1 r h1
  · exact hl r h1

theorem Inv_same {s s' : cli_info} (h : Inv s) (hc : s'.channel = s.channel)
    (hl : s'.dev_log = s.dev_log) (hp : s'.pcap = s.pcap) (hd : s'.pcap_d = s.pcap_d) :
    Inv s' :=
  Inv_next h (by rw [hc]; exact h.1) ⟨[], by simp [hl], by simp⟩ (by rw [hp, hd]; exact h.2.2)

theorem sync_requests_in_range (rfpi : RFPI) (c : Nat) (hc : c ≤ 9) :
    ∀ r ∈ sync_requests rfpi c, chan_in_range r = true := by
  intro r hr
  simp only [sync_requests, List.mem_cons, List.mem_singleton, List.not_mem_nil, or_false] at hr
  rcases hr with h | h | h <;> subst h <;> simp [chan_in_range, hc]

theorem do_ppscan_inv (env : Env) (hi : ∀ r, env.ioctl_ok r = true) (now : Nat) (rfpi : RFPI)
    {s s' : cli_info} (h : Inv s) (hr : do_ppscan env now rfpi s = .ok s') : Inv s' := by
  rw [do_ppscan_good env hi] at hr
  cases hr
  exact Inv_next h h.1 ⟨_, rfl, sync_requests_in_range rfpi s.channel h.1⟩ h.2.2

theorem do_fpscan_inv (env : Env) (hi : ∀ r, env.ioctl_ok r = true) (now : Nat)
    {s s' : cli_info} (h : Inv s) (hr : do_fpscan env now s = .ok s') : Inv s' := by
  simp only [do_fpscan, set_channel, ioctl_good env hi, bind, Except.bind, pure,
    Except.pure] at hr
  cases hr
  refine Inv_next h h.1 ⟨[.COA_IOCTL_MODE .COA_SNIFF_SCANFP, .COA_IOCTL_CHAN s.channel],
    by simp, ?_⟩ h.2.2
  intro r hr
  simp only [List.mem_cons, List.mem_singleton, List.not_mem_nil, or_false] at hr
  rcases hr with e | e <;> subst e <;> simp [chan_in_range, h.1]

theorem do_callscan_inv (env : Env) (hi : ∀ r, env.ioctl_ok r = true) (now : Nat)
    {s s' : cli_info} (h : Inv s) (hr : do_callscan env now s = .ok s') : Inv s' := by
  simp only [do_callscan, set_channel, ioctl_good env hi, bind, Except.bind, pure,
    Except.pure] at hr
  cases hr
  refine Inv_next h h.1 ⟨[.COA_IOCTL_MODE .COA_SNIFF_SCANPP, .COA_IOCTL_CHAN s.channel],
    by simp, ?_⟩ h.2.2
  intro r hr
  simp only [List.mem_cons, List.mem_singleton, List.not_mem_nil, or_false] at hr
  rcases hr with e | e <;> subst e <;> simp [chan_in_range, h.1]

theorem do_stop_inv (env : Env) (hi : ∀ r, env.ioctl_ok r = true)
    {s s' : cli_info} (h : Inv s) (hr : do_stop env s = .ok s') : Inv s' := by
  unfold do_stop at hr
  by_cases hb : (s.mode &&& MODE_STOP) = 0
  · simp only [hb, if_true, do_stop_keep_autorec, ioctl_good env hi, bind, Except.bind, pure,
      Except.pure, closing_dumps_eq] at hr
    cases hr
    exact Inv_next h h.1 ⟨[.COA_IOCTL_MODE .COA_MODE_IDLE], rfl, by simp [chan_in_range]⟩ h.2.2
  · simp only [hb, if_false, pure, Except.pure, bind, Except.bind, closing_dumps_eq] at hr
    cases hr
    exact Inv_same h rfl rfl rfl rfl

theorem do_chan_inv (env : Env) (hi : ∀ r, env.ioctl_ok r = true) (now : Nat)
    (arg : List Char) {s s' : cli_info} (h : Inv s) (hr : do_chan env now arg s = .ok s') :
    Inv s' := by
  unfold do_chan at hr
  simp only [pure, Except.pure] at hr
  split at hr
  · cases hr; exact h
  · split at hr
    · cases hr; exact h
    · split at hr
      · cases hr; exact h
      · rename_i hgt
        simp only [set_channel, ioctl_good env hi, bind, Except.bind, pure, Except.pure] at hr
        cases hr
        have hc : (strtoul arg).value % 2 ^ 32 ≤ 9 := by omega
        exact Inv_next h hc ⟨[.COA_IOCTL_CHAN ((strtoul arg).value % 2 ^ 32)], rfl,
          by simpa [chan_in_range] using hc⟩ h.2.2

theorem hop_step_inv (env : Env) (hi : ∀ r, env.ioctl_ok r = true) (now : Nat)
    {s s' : cli_info} (h : Inv s) (hr : hop_step env now s = .ok s') :
    Inv s' ∧ s'.pcap = s.pcap ∧ s'.pcap_d = s.pcap_d := by
  unfold hop_step at hr
  simp only [pure, Except.pure] at hr
  split at hr
  · split at hr
    · simp only [set_channel, ioctl_good env hi, bind, Except.bind, pure, Except.pure] at hr
      cases hr
      have hc : (s.channel + 1) % 10 ≤ 9 := by omega
      exact ⟨Inv_next h hc ⟨[.COA_IOCTL_CHAN ((s.channel + 1) % 10)], rfl,
        by simpa [chan_in_range] using hc⟩ h.2.2, rfl, rfl⟩
    · cases hr; exact ⟨h, rfl, rfl⟩
  · cases hr; exact ⟨h, rfl, rfl⟩

theorem autorec_step_inv (env : Env) (hi : ∀ r, env.ioctl_ok r = true) (now : Nat)
    {s s' : cli_info} (h : Inv s) (hr : autorec_step env now s = .ok s') : Inv s' := by
  by_cases hf : s.autorec = true ∧ s.mode ≠ MODE_CALLSCAN ∧
      (now : Int) - (s.autorec_last_bfield : Int) > (s.autorec_timeout : Int)
  · obtain ⟨d, hp, cl, hrun, -, -, -⟩ := autorec_step_fires env hi now s hf.1 hf.2.1 hf.2.2 h.2.2
    rw [hrun] at hr
    cases hr
    refine Inv_next h h.1 ⟨[.COA_IOCTL_MODE .COA_MODE_IDLE, .COA_IOCTL_MODE .COA_SNIFF_SCANPP,
      .COA_IOCTL_CHAN s.channel], rfl, ?_⟩ (by simp)
    intro r hr
    simp only [List.mem_cons, List.mem_singleton, List.not_mem_nil, or_false] at hr
    rcases hr with e | e | e <;> subst e <;> simp [chan_in_range, h.1]
  · rw [autorec_step_idle env now s (by
      by_cases h1 : s.autorec = true
      · by_cases h2 : s.mode = MODE_CALLSCAN
        · exact Or.inr (Or.inl h2)
        · exact Or.inr (Or.inr (fun h3 => hf ⟨h1, h2, h3⟩))
      · exact Or.inl (by simpa using h1))] at hr
    cases hr
    exact h

theorem tick_inv (env : Env) (hi : ∀ r, env.ioctl_ok r = true) (now : Nat)
    {s s' : cli_info} (h : Inv s) (hr : tick env now s = .ok s') : Inv s' := by
  unfold tick at hr
  simp only [bind, Except.bind] at hr
  cases h1 : hop_step env now s with
  | error e => rw [h1] at hr; cases hr
  | ok s1 =>
    rw [h1] at hr
    exact autorec_step_inv env hi now (hop_step_inv env hi now h h1).1 hr

theorem scan_drain_inv (env : Env) (hm : env.malloc_ok = true)
    (hi : ∀ r, env.ioctl_ok r = true) (type : Nat) (scans : List (Nat × scan_frame)) :
    ∀ {s s' : cli_info}, Inv s → drain (scan_body env type) scans s = .ok s' → Inv s' := by
  induction scans with
  | nil => intro s s' h hr; cases hr; exact h
  | cons f rest ih =>
    intro s s' h hr
    obtain ⟨now, fr⟩ := f
    obtain ⟨s1, hrun, -, -, -, g4, g5, g6, -, -, g9, g10⟩ :=
      scan_body_fields env hm hi type now fr s
    simp only [drain, hrun] at hr
    refine ih ?_ hr
    by_cases hq : s.autorec = true ∧ s.mode ≠ MODE_PPSCAN ∧ rfpi_is_ignored s fr.RFPI = false
    · exact Inv_next h (by rw [g4]; exact h.1)
        ⟨_, (g9 hq).2.2, sync_requests_in_range fr.RFPI s.channel h.1⟩
        (by rw [g5, g6]; exact h.2.2)
    · exact Inv_same h g4 (g10 hq).2.2.1 g5 g6

theorem ppscan_drain_inv (env : Env) (hm : env.malloc_ok = true)
    (hg : env.gettimeofday_ok = true) (pkts : List (Nat × sniffed_packet)) :
    ∀ {s s' : cli_info}, s.mode = MODE_PPSCAN → Inv s →
      drain (ppscan_body env) pkts s = .ok s' → Inv s' := by
  induction pkts with
  | nil => intro s s' _ h hr; cases hr; exact h
  | cons f rest ih =>
    intro s s' hmode h hr
    obtain ⟨now, pkt⟩ := f
    by_cases ho : s.pcap = false ∧ env.pcap_dump_open_ok = false
    · obtain ⟨e, he, -⟩ := ppscan_body_open_fails env hm hg now pkt s hmode ho.1 ho.2
      simp only [drain, he] at hr
      cases hr
    · obtain ⟨s1, d, hrun, f1, f2, f3, -, -, -, -, -, f10, f11, -⟩ :=
        ppscan_body_fields env hm hg now pkt s hmode h.2.2
          (fun hp => by
            rcases Bool.eq_false_or_eq_true env.pcap_dump_open_ok with h1 | h1
            · exact h1
            · exact absurd ⟨hp, h1⟩ ho)
      simp only [drain, hrun] at hr
      refine ih (by rw [f1, hmode]) ?_ hr
      exact Inv_next h (by rw [f10]; exact h.1) ⟨[], by simp [f11], by simp⟩ (by simp [f3])

theorem process_dect_data_inv (env : Env) (hm : env.malloc_ok = true)
    (hi : ∀ r, env.ioctl_ok r = true) (hg : env.gettimeofday_ok = true)
    (scans : List (Nat × scan_frame)) (pkts : List (Nat × sniffed_packet))
    {s s' : cli_info} (h : Inv s) (hr : process_dect_data env scans pkts s = .ok s') :
    Inv s' := by
  unfold process_dect_data at hr
  split at hr
  · exact scan_drain_inv env hm hi TYPE_FP scans h hr
  · split at hr
    · exact scan_drain_inv env hm hi TYPE_PP scans h hr
    · split at hr
      · rename_i hmode
        exact ppscan_drain_inv env hm hg pkts hmode h hr
      · cases hr; exact h

theorem run_command_inv (env : Env) (hi : ∀ r, env.ioctl_ok r = true) (now : Nat)
    (c : Command) {s s' : cli_info} (h : Inv s) (hr : run_command env now c s = .ok s') :
    Inv s' := by
  cases c with
  | help => cases hr; exact h
  | fpscan => exact do_fpscan_inv env hi now h hr
  | callscan => exact do_callscan_inv env hi now h hr
  | autorec => cases hr; exact Inv_same h rfl rfl rfl rfl
  | ppscan arg =>
    simp only [run_command, do_ppscan_str] at hr
    split at hr
    · cases hr; exact h
    · exact do_ppscan_inv env hi now _ h hr
  | chan arg => exact do_chan_inv env hi now arg h hr
  | slot arg =>
    cases hr
    unfold do_slot
    simp only
    split
    · exact h
    · split
      · exact h
      · split
        · exact h
        · exact Inv_same h rfl rfl rfl rfl
  | jam => cases hr; exact h
  | ignore arg =>
    cases hr
    unfold do_ignore_str
    split
    · exact h
    · unfold ignore_toggle
      split
      · exact Inv_same h rfl rfl rfl rfl
      · exact Inv_same h rfl rfl rfl rfl
  | dump => cases hr; exact h
  | hop => cases hr; exact Inv_same h rfl rfl rfl rfl
  | audio => cases hr; exact Inv_same h rfl rfl rfl rfl
  | direction => cases hr; exact Inv_same h rfl rfl rfl rfl
  | wav => cases hr; exact Inv_same h rfl rfl rfl rfl
  | ima => cases hr; exact Inv_same h rfl rfl rfl rfl
  | verb => cases hr; exact Inv_same h rfl rfl rfl rfl
  | stop => exact do_stop_inv env hi h hr
  | quit =>
    simp only [run_command, do_quit, bind, Except.bind] at hr
    split at hr <;> cases hr

theorem Inv_init : Inv init := ⟨by decide, by simp [init], by simp [init]⟩

theorem Reachable_inv {s : cli_info} (h : Reachable s) : Inv s := by
  induction h with
  | start => exact Inv_init
  | next env now e _ hi hm hg hr ih =>
    cases e with
    | command c => exact run_command_inv env hi now c ih hr
    | frames scans pkts => exact process_dect_data_inv env hm hi hg scans pkts ih hr
    | tick => exact tick_inv env hi now ih hr

/-! ## Properties of the reachable states -/

/-- C19: in every state reachable from `init` by operator commands (among them
`chan` with any argument string), device frames and ticks, `cli.channel` is in
`0..9` and every channel-set request acknowledged so far carried a value in
`0..9`. -/
theorem C19_channel_range (s : cli_info) (h : Reachable s) :
    s.channel ≤ 9 ∧ ∀ c : Nat, Request.COA_IOCTL_CHAN c ∈ s.dev_log → c ≤ 9 := by
  obtain ⟨h1, h2, -⟩ := Reachable_inv h
  refine ⟨h1, fun c hc => ?_⟩
  simpa [chan_in_range] using h2 _ hc

/-- C19, at a concrete input: the state after `chan 7` at time 5. -/
theorem C19_channel_range_witness :
    Reachable { init with channel := 7, last_hop := 5, dev_log := [.COA_IOCTL_CHAN 7] } ∧
    (7 : Nat) ≤ 9 :=
  ⟨Reachable.next Env.good 5 (.command (.chan " 7".toList)) Reachable.start (fun _ => rfl) rfl
      rfl rfl,
   (C19_channel_range { init with channel := 7, last_hop := 5, dev_log := [.COA_IOCTL_CHAN 7] }
      (Reachable.next Env.good 5 (.command (.chan " 7".toList)) Reachable.start (fun _ => rfl)
        rfl rfl rfl)).1⟩

/-- C16 (amended): in every reachable state with autorec on, a scheduler tick
(control requests succeeding) keeps autorec on and ends in `MODE_CALLSCAN` if the
mode was not `MODE_CALLSCAN` and `now - autorec_last_bfield` exceeds the
idle-timeout, and leaves the mode unchanged otherwise. So after the tick the mode
is `MODE_CALLSCAN` or `MODE_PPSCAN` whenever it was one of the two before or the
idle-timeout is exceeded; inside the idle-timeout a mode `MODE_STOP` or
`MODE_FPSCAN` stays. -/
theorem C16_autorec_tick (s : cli_info) (h : Reachable s) (env : Env)
    (hi : ∀ r, env.ioctl_ok r = true) (now : Nat) (ha : s.autorec = true) :
    ∃ s', tick env now s = .ok s' ∧ s'.autorec = true ∧
      s'.mode = (if s.mode ≠ MODE_CALLSCAN ∧
          (now : Int) - (s.autorec_last_bfield : Int) > (s.autorec_timeout : Int)
        then MODE_CALLSCAN else s.mode) ∧
      ((s.mode = MODE_CALLSCAN ∨ s.mode = MODE_PPSCAN ∨
          (now : Int) - (s.autorec_last_bfield : Int) > (s.autorec_timeout : Int)) →
        s'.mode = MODE_CALLSCAN ∨ s'.mode = MODE_PPSCAN) := by
  obtain ⟨s', hrun, h1, -, -, -, h5⟩ := tick_spec env hi now s (Reachable_inv h).2.2
  simp only [ha, true_and] at h5
  refine ⟨s', hrun, by rw [h1, ha], h5, ?_⟩
  intro hc
  rw [h5]
  split_ifs with hx
  · exact Or.inl rfl
  · rcases hc with e | e | e
    · exact Or.inl e
    · exact Or.inr e
    · have : s.mode = MODE_CALLSCAN := by
        by_contra hne
        exact hx ⟨hne, e⟩
      exact Or.inl this

/-- C16, at a concrete input: `autorec` right after `init`; `autorec_last_bfield` is
still 0, so the tick at time 1000 starts the call scan. -/
theorem C16_autorec_tick_witness :
    (Reachable (do_autorec init) ∧ (do_autorec init).autorec = true) ∧
    ∃ s', tick Env.good 1000 (do_autorec init) = .ok s' ∧ s'.mode = MODE_CALLSCAN :=
  ⟨⟨Reachable.next Env.good 0 (.command .autorec) Reachable.start (fun _ => rfl) rfl rfl rfl,
    rfl⟩, by
    obtain ⟨s', h1, _, h3, _⟩ := C16_autorec_tick (do_autorec init)
      (Reachable.next Env.good 0 (.command .autorec) Reachable.start (fun _ => rfl) rfl rfl rfl)
      Env.good (fun _ => rfl) 1000 rfl
    exact ⟨s', h1, by rw [h3]; decide⟩⟩

/-- C16 as stated fails: after `ppscan` at time 100, `stop` at 101 and `autorec`,
the state has autorec on in `MODE_STOP` with `autorec_last_bfield = 100`; the tick
at time 102 is evaluated with autorec on and leaves `MODE_STOP`, which is neither
`MODE_CALLSCAN` nor `MODE_PPSCAN`. -/
theorem C16_counterexample :
    stopped_autorec.toOption.map (fun s => (s.autorec, s.mode, s.autorec_last_bfield))
      = some (true, MODE_STOP, 100) ∧
    (stopped_autorec >>= tick Env.good 102).toOption.map (fun s => (s.autorec, s.mode))
      = some (true, MODE_STOP) ∧
    MODE_STOP ≠ MODE_CALLSCAN ∧ MODE_STOP ≠ MODE_PPSCAN := by
  refine ⟨?_, ?_, ?_, ?_⟩ <;> decide

/-- C17 fails on the code: after `ppscan 00 01 02 03 04` and one frame, the open
capture file is named for `00 01 02 03 04`; `ppscan AA BB CC DD EE` changes the
target but leaves that file open, and the next synchronized frame is appended to
it as its second record, while no file has been closed. -/
theorem C17_retarget_keeps_file :
    retarget.toOption.map naming_view
      = some (aabbccddee, some ⟨0, 1, 2, 3, 4⟩, 2, 0) ∧
    aabbccddee ≠ (⟨0, 1, 2, 3, 4⟩ : RFPI) := by
  refine ⟨?_, ?_⟩ <;> decide

/-! ## Parsing identities -/

theorem hexvalue_hex_char : ∀ (u : Bool) (n : Fin 16),
    hexvalue ((hex_char u n.val).toNat : Int) = (n.val : Int) := by decide

theorem isspace_hex_char : ∀ (u : Bool) (n : Fin 16),
    isspace ((hex_char u n.val).toNat : Int) = false := by decide

theorem hex_char_not_sep : ∀ (u : Bool) (n : Fin 16),
    ¬ (((hex_char u n.val).toNat : Int) = 32 ∨ ((hex_char u n.val).toNat : Int) = 58) := by
  decide

set_option maxRecDepth 100000 in
theorem byte_of_nibbles : ∀ b : Byte,
    (Fin.ofNat (((b.val / 16) <<< 4) ||| (b.val % 16)) : Byte) = b := by decide

set_option maxRecDepth 100000 in
theorem nibbles_of_byte : ∀ h l : Fin 16,
    (Fin.ofNat ((h.val <<< 4) ||| l.val) : Byte).val / 16 = h.val ∧
    (Fin.ofNat ((h.val <<< 4) ||| l.val) : Byte).val % 16 = l.val := by decide

theorem parse_rfpi_byte_pair (u1 u2 : Bool) (b : Byte) (tail : List Char) :
    parse_rfpi_byte (hex_pair u1 u2 b ++ tail) = some b := by
  have h1 := hexvalue_hex_char u1 ⟨b.val / 16, by omega⟩
  have h2 := hexvalue_hex_char u2 ⟨b.val % 16, by omega⟩
  simp only at h1 h2
  simp only [parse_rfpi_byte, hex_pair, cchar, List.cons_append, List.nil_append,
    List.getD_cons_zero, List.getD_cons_succ, h1, h2]
  have e1 : ¬ ((b.val / 16 : Nat) : Int) = -1 := by omega
  have e2 : ¬ ((b.val % 16 : Nat) : Int) = -1 := by omega
  simp only [e1, e2, if_false, Int.toNat_ofNat, byte_of_nibbles]

theorem skip_space_append (ws : List Char) (hws : ∀ c ∈ ws, isspace (c.toNat : Int) = true)
    (c : Char) (hc : isspace (c.toNat : Int) = false) (rest : List Char) :
    skip_space (ws ++ c :: rest) = c :: rest := by
  induction ws with
  | nil => simp [skip_space, hc]
  | cons w ws ih =>
    have hw := hws w (List.mem_cons_self _ _)
    simp only [List.cons_append, skip_space, hw, if_true]
    exact ih (fun c hc => hws c (List.mem_cons_of_mem _ hc))

theorem parse_rfpi_loop_last (u1 u2 : Bool) (b : Byte) (rest : List Char) (rfpi : RFPI) :
    parse_rfpi_loop 0 (hex_pair u1 u2 b ++ rest) rfpi = some (rfpi_set rfpi 4 b) := by
  simp only [parse_rfpi_loop, parse_rfpi_byte_pair]

theorem parse_rfpi_loop_step (k : Nat) (u1 u2 : Bool) (b : Byte) (sep : Sep)
    (u : Bool) (n : Fin 16) (tail : List Char) (rfpi : RFPI) :
    parse_rfpi_loop (k + 1) (hex_pair u1 u2 b ++ sep.chars ++ hex_char u n.val :: tail) rfpi =
      parse_rfpi_loop k (hex_char u n.val :: tail) (rfpi_set rfpi (4 - (k + 1)) b) := by
  have hp : parse_rfpi_byte (hex_pair u1 u2 b ++ sep.chars ++ hex_char u n.val :: tail)
      = some b := by
    rw [List.append_assoc]; exact parse_rfpi_byte_pair u1 u2 b _
  have hn := hex_char_not_sep u n
  rw [parse_rfpi_loop, hp]
  simp only
  congr 1
  cases sep with
  | nothing =>
    simp only [hex_pair, Sep.chars, List.append_nil, List.cons_append, List.nil_append,
      List.drop_succ_cons, List.drop_zero, cchar, List.getD_cons_zero]
    rw [if_neg hn]
  | colon =>
    simp [hex_pair, Sep.chars, cchar]
  | space =>
    simp [hex_pair, Sep.chars, cchar]

/-- C13: for every identity `b0..b4`, `parse_rfpi` returns 0 and writes exactly
`b0..b4` when the argument is the identity as ten hex digits, each digit in either
case, with nothing, a single colon or a single space between byte pairs (so in
particular contiguous, colon-separated or space-separated throughout), preceded by
any amount of white space and followed by anything. -/
theorem C13_parse_rfpi_accepts (r : RFPI) (st : RfpiStyle) (ws rest : List Char)
    (hws : ∀ c ∈ ws, isspace (c.toNat : Int) = true) :
    parse_rfpi (ws ++ (rfpi_text st r ++ rest)) = some r := by
  have hskip : skip_space (ws ++ (rfpi_text st r ++ rest)) = rfpi_text st r ++ rest := by
    have := skip_space_append ws hws (hex_char st.u0 (r.b0.val / 16))
      (isspace_hex_char st.u0 ⟨r.b0.val / 16, by omega⟩)
      (hex_char st.u1 (r.b0.val % 16) :: (st.s0.chars ++ (hex_pair st.u2 st.u3 r.b1 ++
        st.s1.chars ++ (hex_pair st.u4 st.u5 r.b2 ++ st.s2.chars ++ (hex_pair st.u6 st.u7 r.b3 ++
        st.s3.chars ++ hex_pair st.u8 st.u9 r.b4))) ++ rest))
    simpa [rfpi_text, hex_pair] using this
  unfold parse_rfpi
  rw [hskip]
  have s1 := parse_rfpi_loop_step 3 st.u0 st.u1 r.b0 st.s0 st.u2 ⟨r.b1.val / 16, by omega⟩
    (hex_char st.u3 (r.b1.val % 16) :: (st.s1.chars ++ (hex_pair st.u4 st.u5 r.b2 ++
      st.s2.chars ++ (hex_pair st.u6 st.u7 r.b3 ++ st.s3.chars ++ hex_pair st.u8 st.u9 r.b4))
      ++ rest)) ⟨0, 0, 0, 0, 0⟩
  have s2 := parse_rfpi_loop_step 2 st.u2 st.u3 r.b1 st.s1 st.u4 ⟨r.b2.val / 16, by omega⟩
    (hex_char st.u5 (r.b2.val % 16) :: (st.s2.chars ++ (hex_pair st.u6 st.u7 r.b3 ++
      st.s3.chars ++ hex_pair st.u8 st.u9 r.b4) ++ rest))
    (rfpi_set ⟨0, 0, 0, 0, 0⟩ (4 - (3 + 1)) r.b0)
  have s3 := parse_rfpi_loop_step 1 st.u4 st.u5 r.b2 st.s2 st.u6 ⟨r.b3.val / 16, by omega⟩
    (hex_char st.u7 (r.b3.val % 16) :: (st.s3.chars ++ hex_pair st.u8 st.u9 r.b4 ++ rest))
    (rfpi_set (rfpi_set ⟨0, 0, 0, 0, 0⟩ (4 - (3 + 1)) r.b0) (4 - (2 + 1)) r.b1)
  have s4 := parse_rfpi_loop_step 0 st.u6 st.u7 r.b3 st.s3 st.u8 ⟨r.b4.val / 16, by omega⟩
    (hex_char st.u9 (r.b4.val % 16) :: rest)
    (rfpi_set (rfpi_set (rfpi_set ⟨0, 0, 0, 0, 0⟩ (4 - (3 + 1)) r.b0) (4 - (2 + 1)) r.b1)
      (4 - (1 + 1)) r.b2)
  have s5 := parse_rfpi_loop_last st.u8 st.u9 r.b4 rest
    (rfpi_set (rfpi_set (rfpi_set (rfpi_set ⟨0, 0, 0, 0, 0⟩ (4 - (3 + 1)) r.b0) (4 - (2 + 1)) r.b1)
      (4 - (1 + 1)) r.b2) (4 - (0 + 1)) r.b3)
  simp only [hex_pair, rfpi_text, List.cons_append, List.nil_append, List.append_assoc,
    List.singleton_append] at s1 s2 s3 s4 s5 ⊢
  rw [s1, s2, s3, s4, s5]
  cases r
  rfl

/-- C13, at a concrete input: ` AA:bb ccDD:ee` parses to `AA:BB:CC:DD:EE`. -/
theorem C13_parse_rfpi_accepts_witness :
    (∀ c ∈ [' '], isspace (c.toNat : Int) = true) ∧
    [' '] ++ (rfpi_text ⟨true, true, false, false, false, false, true, true, false, false,
        .colon, .space, .nothing, .colon⟩ aabbccddee ++ []) = " AA:bb ccDD:ee".toList ∧
    parse_rfpi ([' '] ++ (rfpi_text ⟨true, true, false, false, false, false, true, true, false,
        false, .colon, .space, .nothing, .colon⟩ aabbccddee ++ [])) = some aabbccddee :=
  ⟨by decide, by decide,
   C13_parse_rfpi_accepts aabbccddee _ [' '] [] (by decide)⟩

theorem hex_char_inv (c : Char) (h : hexvalue (c.toNat : Int) ≠ -1) :
    ∃ (u : Bool) (n : Fin 16), c = hex_char u n.val ∧ hexvalue (c.toNat : Int) = (n.val : Int) := by
  unfold hexvalue at h ⊢
  by_cases h1 : (c.toNat : Int) ≥ 48 ∧ (c.toNat : Int) ≤ 57
  · refine ⟨true, ⟨c.toNat - 48, by omega⟩, ?_, ?_⟩
    · have e : 48 + (c.toNat - 48) = c.toNat := by omega
      simp only [hex_char, e, Char.ofNat_toNat]
      rw [if_pos (by omega)]
    · rw [if_pos h1]; simp only; omega
  · rw [if_neg h1] at h ⊢
    by_cases h2 : (c.toNat : Int) ≥ 97 ∧ (c.toNat : Int) ≤ 102
    · refine ⟨false, ⟨c.toNat - 87, by omega⟩, ?_, ?_⟩
      · have e : 97 + (c.toNat - 87 - 10) = c.toNat := by omega
        simp only [hex_char, e, Char.ofNat_toNat]
        rw [if_neg (by omega)]
        simp
      · rw [if_pos h2]; simp only; omega
    · rw [if_neg h2] at h ⊢
      by_cases h3 : (c.toNat : Int) ≥ 65 ∧ (c.toNat : Int) ≤ 70
      · refine ⟨true, ⟨c.toNat - 55, by omega⟩, ?_, ?_⟩
        · have e : 65 + (c.toNat - 55 - 10) = c.toNat := by omega
          simp only [hex_char, e, Char.ofNat_toNat]
          rw [if_neg (by omega)]
          simp
        · rw [if_pos h3]; simp only; omega
      · rw [if_neg h3] at h
        exact absurd rfl h

theorem hexvalue_zero : hexvalue 0 = -1 := by decide

theorem parse_rfpi_byte_inv (str : List Char) (b : Byte) (h : parse_rfpi_byte str = some b) :
    ∃ (u1 u2 : Bool) (tail : List Char), str = hex_pair u1 u2 b ++ tail := by
  unfold parse_rfpi_byte at h
  simp only at h
  split at h
  · cases h
  · rename_i hh
    split at h
    · cases h
    · rename_i hl
      match str, hh, hl, h with
      | [], hh, _, _ => exact absurd hexvalue_zero hh
      | [_], _, hl, _ => exact absurd hexvalue_zero hl
      | c1 :: c2 :: tail, hh, hl, h =>
        simp only [cchar, List.getD_cons_zero, List.getD_cons_succ] at hh hl h
        obtain ⟨u1, n1, e1, v1⟩ := hex_char_inv c1 hh
        obtain ⟨u2, n2, e2, v2⟩ := hex_char_inv c2 hl
        rw [v1, v2] at h
        simp only [Int.toNat_ofNat, Option.some.injEq] at h
        obtain ⟨d1, d2⟩ := nibbles_of_byte n1 n2
        rw [h] at d1 d2
        refine ⟨u1, u2, tail, ?_⟩
        simp only [hex_pair, d1, d2, List.cons_append, List.nil_append]
        rw [← e1, ← e2]

theorem skip_space_inv (str : List Char) :
    ∃ ws, (∀ c ∈ ws, isspace (c.toNat : Int) = true) ∧ str = ws ++ skip_space str := by
  induction str with
  | nil => exact ⟨[], by simp, rfl⟩
  | cons c rest ih =>
    by_cases hc : isspace (c.toNat : Int) = true
    · obtain ⟨ws, h1, h2⟩ := ih
      refine ⟨c :: ws, ?_, ?_⟩
      · intro x hx
        rcases List.mem_cons.1 hx with e | e
        · rw [e]; exact hc
        · exact h1 x e
      · simp only [skip_space, hc, if_true, List.cons_append]
        rw [← h2]
    · exact ⟨[], by simp, by simp [skip_space, hc]⟩

theorem sep_inv (l : List Char) :
    ∃ sep : Sep, l = sep.chars ++ (if cchar l 0 = 32 ∨ cchar l 0 = 58 then l.drop 1 else l) := by
  by_cases h : cchar l 0 = 32 ∨ cchar l 0 = 58
  · rw [if_pos h]
    match l, h with
    | [], h => simp [cchar] at h
    | c :: t, h =>
      simp only [cchar, List.getD_cons_zero] at h
      rcases h with e | e
      · refine ⟨.space, ?_⟩
        have : c = ' ' := by
          rw [← Char.ofNat_toNat c]
          have : c.toNat = 32 := by omega
          rw [this]
        simp [Sep.chars, this]
      · refine ⟨.colon, ?_⟩
        have : c = ':' := by
          rw [← Char.ofNat_toNat c]
          have : c.toNat = 58 := by omega
          rw [this]
        simp [Sep.chars, this]
  · rw [if_neg h]
    exact ⟨.nothing, rfl⟩

theorem parse_rfpi_loop_zero_inv (str : List Char) (rfpi r : RFPI)
    (h : parse_rfpi_loop 0 str rfpi = some r) :
    ∃ (b : Byte) (u1 u2 : Bool) (rest : List Char),
      str = hex_pair u1 u2 b ++ rest ∧ r = rfpi_set rfpi 4 b := by
  unfold parse_rfpi_loop at h
  split at h
  · cases h
  · rename_i b hb
    obtain ⟨u1, u2, tail, e⟩ := parse_rfpi_byte_inv str b hb
    simp only [Option.some.injEq] at h
    exact ⟨b, u1, u2, tail, e, h.symm⟩

theorem parse_rfpi_loop_succ_inv (k : Nat) (str : List Char) (rfpi r : RFPI)
    (h : parse_rfpi_loop (k + 1) str rfpi = some r) :
    ∃ (b : Byte) (u1 u2 : Bool) (sep : Sep) (next : List Char),
      str = hex_pair u1 u2 b ++ (sep.chars ++ next) ∧
      parse_rfpi_loop k next (rfpi_set rfpi (4 - (k + 1)) b) = some r := by
  unfold parse_rfpi_loop at h
  split at h
  · cases h
  · rename_i b hb
    obtain ⟨u1, u2, tail, e⟩ := parse_rfpi_byte_inv str b hb
    simp only at h
    have hd : str.drop 2 = tail := by rw [e]; simp [hex_pair]
    rw [hd] at h
    obtain ⟨sep, hs⟩ := sep_inv tail
    exact ⟨b, u1, u2, sep, _, by rw [← hs]; exact e, h⟩

theorem parse_rfpi_inv (str : List Char) (r : RFPI) (h : parse_rfpi str = some r) :
    well_formed_rfpi str r := by
  unfold parse_rfpi at h
  obtain ⟨ws, hws, e0⟩ := skip_space_inv str
  obtain ⟨b0, u0, u1, s0, n0, e1, h1⟩ := parse_rfpi_loop_succ_inv 3 _ _ _ h
  obtain ⟨b1, u2, u3, s1, n1, e2, h2⟩ := parse_rfpi_loop_succ_inv 2 _ _ _ h1
  obtain ⟨b2, u4, u5, s2, n2, e3, h3⟩ := parse_rfpi_loop_succ_inv 1 _ _ _ h2
  obtain ⟨b3, u6, u7, s3, n3, e4, h4⟩ := parse_rfpi_loop_succ_inv 0 _ _ _ h3
  obtain ⟨b4, u8, u9, rest, e5, h5⟩ := parse_rfpi_loop_zero_inv _ _ _ h4
  have hr : r = ⟨b0, b1, b2, b3, b4⟩ := by rw [h5]; rfl
  refine ⟨ws, ⟨u0, u1, u2, u3, u4, u5, u6, u7, u8, u9, s0, s1, s2, s3⟩, rest, hws, ?_⟩
  rw [e0, e1, e2, e3, e4, e5, hr]
  simp [rfpi_text]

/-- C14: what holds and where the code fails. A string that is not a well-formed
identity makes `parse_rfpi` return -1, and then `do_ignore_str` and `do_ppscan_str`
leave the whole state as it is. `do_chan` leaves the state as it is, without any
request, when `strtoul` converts nothing or when the value reduced to 32 bits is
above 9. But the reduction to the `uint32_t` comes before the range check: after
`chan 3`, the argument `4294967296`, whose value is `2^32 > 9`, sets the channel
to 0 and issues the channel-set request for 0. -/
theorem C14_malformed_input :
    (∀ str : List Char, (¬ ∃ r, well_formed_rfpi str r) → parse_rfpi str = none) ∧
    (∀ (str : List Char) (env : Env) (now : Nat) (s : cli_info), parse_rfpi str = none →
      do_ignore_str str s = s ∧ do_ppscan_str env now str s = .ok s) ∧
    (∀ (arg : List Char) (env : Env) (now : Nat) (s : cli_info),
      ((strtoul arg).consumed = 0 ∨ (strtoul arg).value % 2 ^ 32 > 9) →
      do_chan env now arg s = .ok s) ∧
    ((strtoul " 4294967296".toList).value = 2 ^ 32 ∧ 2 ^ 32 > 9 ∧
      (run_command Env.good 1 (.chan " 3".toList) init).toOption.map
          (fun s => (s.channel, s.dev_log)) = some (3, [.COA_IOCTL_CHAN 3]) ∧
      chan_wrap.toOption.map (fun s => (s.channel, s.dev_log))
        = some (0, [.COA_IOCTL_CHAN 3, .COA_IOCTL_CHAN 0])) := by
  refine ⟨?_, ?_, ?_, ?_⟩
  · intro str h
    cases hp : parse_rfpi str with
    | none => rfl
    | some r => exact absurd ⟨r, parse_rfpi_inv str r hp⟩ h
  · intro str env now s h
    simp [do_ignore_str, do_ppscan_str, h, pure, Except.pure]
  · intro arg env now s h
    unfold do_chan
    simp only [pure, Except.pure]
    split
    · rfl
    · split
      · rfl
      · rename_i hc
        split
        · rfl
        · rename_i hg
          rcases h with h | h
          · exact absurd h hc
          · exact absurd h hg
  · refine ⟨?_, ?_, ?_, ?_⟩ <;> decide

/-! ## What starts a pursuit -/

/-- C21 (amended): with autorec on and the mode different from `MODE_PPSCAN`
(requests and `malloc` succeeding), `try_add_station` starts a synchronization
exactly when the sighted identity is not in the ignore list: then the mode becomes
`MODE_PPSCAN` and the target the sighted identity, whether or not the registry
already holds the identity and whatever the kind of the sighting; for an ignored
identity the mode, the target and the list of control requests stay. -/
theorem C21_pursuit_trigger (env : Env) (hm : env.malloc_ok = true)
    (hi : ∀ r, env.ioctl_ok r = true) (now : Nat) (st : dect_station) (s : cli_info)
    (ha : s.autorec = true) (hmode : s.mode ≠ MODE_PPSCAN) :
    ∃ s', try_add_station env now st s = .ok s' ∧
      (rfpi_is_ignored s st.RFPI = false →
        s'.mode = MODE_PPSCAN ∧ s'.RFPI = st.RFPI ∧
        s'.dev_log = s.dev_log ++ [.COA_IOCTL_MODE .COA_SNIFF_SYNC,
          .COA_IOCTL_SETRFPI st.RFPI, .COA_IOCTL_CHAN s.channel]) ∧
      (rfpi_is_ignored s st.RFPI = true →
        s'.mode = s.mode ∧ s'.RFPI = s.RFPI ∧ s'.dev_log = s.dev_log) := by
  cases hq : rfpi_is_ignored s st.RFPI
  · exact ⟨_, try_add_station_pursue env hm hi now st s ha hmode hq,
      fun _ => ⟨rfl, rfl, rfl⟩, fun h => absurd h (by decide)⟩
  · exact ⟨_, try_add_station_quiet env hm now st s (Or.inr (Or.inr hq)),
      fun h => absurd h (by decide), fun _ => ⟨rfl, rfl, rfl⟩⟩

/-- C21, at a concrete input: a base-station sighting while autorec scans for
calls starts a synchronization on the base station's identity. -/
theorem C21_pursuit_trigger_witness :
    (autorec_scanning.autorec = true ∧ autorec_scanning.mode ≠ MODE_PPSCAN ∧
      rfpi_is_ignored autorec_scanning aabbccddee = false) ∧
    ∃ s', try_add_station Env.good 5 ⟨aabbccddee, 1, 10, TYPE_FP, 0, 0, 0⟩ autorec_scanning
        = .ok s' ∧ s'.mode = MODE_PPSCAN ∧ s'.RFPI = aabbccddee :=
  ⟨⟨rfl, by decide, rfl⟩, by
    obtain ⟨s', h1, h2, _⟩ := C21_pursuit_trigger Env.good rfl (fun _ => rfl) 5
      ⟨aabbccddee, 1, 10, TYPE_FP, 0, 0, 0⟩ autorec_scanning rfl (by decide)
    exact ⟨s', h1, (h2 rfl).1, (h2 rfl).2.1⟩⟩

/-- C21 as stated fails, on both counts. After `callscan`, a sighting of the handset
`AA:BB:CC:DD:EE` and `autorec`, the identity is in the registry, autorec is on and
the mode is `MODE_CALLSCAN`; the next sighting of the same handset, not a new
identity, ends in `MODE_PPSCAN` with that target. After `fpscan` and `autorec`, a
sighting of kind BaseStation ends in `MODE_PPSCAN` with the base station as
target. -/
theorem C21_counterexample :
    known_handset.toOption.map pursuit_view
      = some (true, MODE_CALLSCAN, ⟨0, 0, 0, 0, 0⟩, [(aabbccddee, TYPE_PP)]) ∧
    (known_handset >>=
        try_add_station Env.good 101 ⟨aabbccddee, 1, 10, TYPE_PP, 0, 0, 0⟩).toOption.map
        pursuit_view
      = some (true, MODE_PPSCAN, aabbccddee, [(aabbccddee, TYPE_PP)]) ∧
    fpscan_autorec.toOption.map pursuit_view = some (true, MODE_FPSCAN, ⟨0, 0, 0, 0, 0⟩, []) ∧
    (fpscan_autorec >>=
        try_add_station Env.good 101 ⟨aabbccddee, 1, 10, TYPE_FP, 0, 0, 0⟩).toOption.map
        pursuit_view
      = some (true, MODE_PPSCAN, aabbccddee, [(aabbccddee, TYPE_FP)]) ∧
    MODE_PPSCAN ≠ MODE_CALLSCAN ∧ MODE_PPSCAN ≠ MODE_FPSCAN ∧
    aabbccddee ≠ (⟨0, 0, 0, 0, 0⟩ : RFPI) := by
  refine ⟨?_, ?_, ?_, ?_, ?_, ?_, ?_⟩ <;> decide

/-! ## The liveness marker -/

set_option maxRecDepth 100000 in
theorem b_field_bits : ∀ b : Byte,
    ((b.val &&& 0x0e) != 0x0e) = !(b.val % 16 == 14 || b.val % 16 == 15) := by decide

/-- C22 (amended): `has_b_field` depends only on the low nibble of payload byte 5:
two states whose byte 5 agree in their low four bits get the same answer; the
answer is 0 for exactly the two nibble values `0xe` and `0xf`, those with the
three bits under the mask `0x0e` all set, and 1 for every other value. -/
theorem C22_b_field_nibble (s1 s2 : cli_info) (h : low_nibble s1 = low_nibble s2) :
    has_b_field s1 = has_b_field s2 ∧
    (has_b_field s1 = false ↔ low_nibble s1 = 14 ∨ low_nibble s1 = 15) ∧
    (has_b_field s1 = true ↔ low_nibble s1 ≠ 14 ∧ low_nibble s1 ≠ 15) := by
  have e1 : has_b_field s1 = !(low_nibble s1 == 14 || low_nibble s1 == 15) :=
    b_field_bits (s1.packet.data 5)
  have e2 : has_b_field s2 = !(low_nibble s2 == 14 || low_nibble s2 == 15) :=
    b_field_bits (s2.packet.data 5)
  refine ⟨by rw [e1, e2, h], ?_, ?_⟩
  · rw [e1]; simp only [Bool.not_eq_false', Bool.or_eq_true, beq_iff_eq]
  · rw [e1]; simp only [Bool.not_eq_true', Bool.or_eq_false_iff, beq_eq_false_iff_ne, ne_eq]

/-- C22, at a concrete input: payload bytes 5 equal to `0x05` and `0x15` agree in
the low nibble 5, and both frames carry the marker. -/
theorem C22_b_field_nibble_witness :
    low_nibble { init with packet := frame_a }
      = low_nibble { init with packet := ⟨1, 2, 3, fun _ => 0x15⟩ } ∧
    has_b_field { init with packet := frame_a }
      = has_b_field { init with packet := ⟨1, 2, 3, fun _ => 0x15⟩ } ∧
    has_b_field { init with packet := frame_a } = true :=
  ⟨by decide,
   (C22_b_field_nibble { init with packet := frame_a }
      { init with packet := ⟨1, 2, 3, fun _ => 0x15⟩ } (by decide)).1,
   (C22_b_field_nibble { init with packet := frame_a }
      { init with packet := ⟨1, 2, 3, fun _ => 0x15⟩ } (by decide)).2.2.2 (by decide)⟩

/-- C22 as stated fails: there is no single reserved nibble value, since payload
byte 5 equal to `0x0e` and equal to `0x0f`, two different nibble values, both give
the answer 0. -/
theorem C22_counterexample :
    has_b_field { init with packet := ⟨1, 2, 3, fun _ => 0x0e⟩ } = false ∧
    has_b_field { init with packet := ⟨1, 2, 3, fun _ => 0x0f⟩ } = false ∧
    low_nibble { init with packet := ⟨1, 2, 3, fun _ => 0x0e⟩ } = 14 ∧
    low_nibble { init with packet := ⟨1, 2, 3, fun _ => 0x0f⟩ } = 15 ∧
    ¬ ∃ reserved : Nat, ∀ b : Byte,
      (has_b_field { init with packet := ⟨1, 2, 3, fun _ => b⟩ } = false ↔
        low_nibble { init with packet := ⟨1, 2, 3, fun _ => b⟩ } = reserved) := by
  refine ⟨by decide, by decide, by decide, by decide, ?_⟩
  rintro ⟨n, hn⟩
  have h1 := (hn 0x0e).1 (by decide)
  have h2 := (hn 0x0f).1 (by decide)
  have e1 : low_nibble { init with packet := ⟨1, 2, 3, fun _ => 0x0e⟩ } = 14 := by decide
  have e2 : low_nibble { init with packet := ⟨1, 2, 3, fun _ => 0x0f⟩ } = 15 := by decide
  omega

end DectCli
